import Mathlib

/-!
# 3dstudio: mesh loading pipeline, camera and frame

A shallow embedding of `Model.cpp`, `Camera.cpp`, `Scene.cpp` and the parts of
`geometryrender.cpp` that drive them.

Conventions of the embedding

* `float` values are elements of an arbitrary linearly ordered field `F`
  (the reals, or the rationals when a definition is evaluated).  Arithmetic is
  exact: rounding and overflow are not modelled.  A value that the C++ code
  obtains by dividing by zero is not a field element and is represented by
  `none`.  The section `Binary32` repeats the camera code with every
  operation rounded to IEEE 754 binary32; it decides where a property of the
  exact model is a property of the `float` program.
* `std::vector` is `List`; `push_back` appends at the end.  A read or write
  outside the bounds of a vector is undefined behaviour in C++ and is the
  fault `Fault.outOfBounds` here.
* The transcendental functions of `<cmath>` and glm are a parameter
  (`MathFns`), so every definition stays computable.
* The OBJ parser (tinyobj) is an external collaborator: the file system is a
  function from a path to the reader state that parsing that path produces.
* Console output is recorded as a list of `Output` events.  The values that
  `display` passes to the GL are recorded as a list of `Upload` events; other
  GL calls are not recorded.
-/

set_option autoImplicit false

namespace Studio

/-! ## glm vectors and matrices -/

/-- The type `glm::vec2`. -/
structure Vec2 (F : Type) where
  x : F
  y : F
deriving DecidableEq, Repr

/-- The type `glm::vec3`. -/
structure Vec3 (F : Type) where
  x : F
  y : F
  z : F
deriving DecidableEq, Repr

/-- The type `glm::vec4`. -/
structure Vec4 (F : Type) where
  x : F
  y : F
  z : F
  w : F
deriving DecidableEq, Repr

/-- The type `glm::mat4`, stored by columns as glm does: `m[i]` is column `i`. -/
structure Mat4 (F : Type) where
  c0 : Vec4 F
  c1 : Vec4 F
  c2 : Vec4 F
  c3 : Vec4 F
deriving DecidableEq, Repr

/-- The functions of `<cmath>` and glm that are not field operations. -/
structure MathFns (F : Type) where
  sqrt : F → F
  sin : F → F
  cos : F → F
  tan : F → F
  asin : F → F
  atan2 : F → F → F
  floor : F → F

section Field

variable {F : Type} [LinearOrderedField F]

namespace Vec3

/-- A value-initialised `glm::vec3`. -/
def zero : Vec3 F := ⟨0, 0, 0⟩

/-- Component-wise `operator+`. -/
def add (a b : Vec3 F) : Vec3 F := ⟨a.x + b.x, a.y + b.y, a.z + b.z⟩

/-- Component-wise `operator-`. -/
def sub (a b : Vec3 F) : Vec3 F := ⟨a.x - b.x, a.y - b.y, a.z - b.z⟩

/-- Scaling `v * s`. -/
def smul (v : Vec3 F) (s : F) : Vec3 F := ⟨v.x * s, v.y * s, v.z * s⟩

/-- The product `glm::dot`. -/
def dot (a b : Vec3 F) : F := a.x * b.x + a.y * b.y + a.z * b.z

/-- The product `glm::cross`. -/
def cross (a b : Vec3 F) : Vec3 F :=
  ⟨a.y * b.z - b.y * a.z, a.z * b.x - b.z * a.x, a.x * b.y - b.x * a.y⟩

/-- The function `glm::normalize`: `v * inversesqrt(dot(v, v))`.  Where the square root is
zero the C++ value is not finite and the field value stands for nothing. -/
def normalize (M : MathFns F) (v : Vec3 F) : Vec3 F := smul v (1 / M.sqrt (dot v v))

/-- Squared Euclidean length. -/
def normSq (v : Vec3 F) : F := dot v v

end Vec3

namespace Vec4

/-- Scaling `v * s`. -/
def smul (v : Vec4 F) (s : F) : Vec4 F := ⟨v.x * s, v.y * s, v.z * s, v.w * s⟩

end Vec4

namespace Mat4

/-- The matrix `glm::mat4(1.0f)`. -/
def identity : Mat4 F := ⟨⟨1, 0, 0, 0⟩, ⟨0, 1, 0, 0⟩, ⟨0, 0, 1, 0⟩, ⟨0, 0, 0, 1⟩⟩

/-- The function `glm::scale(m, v)`: the first three columns of `m` are scaled. -/
def scale (m : Mat4 F) (v : Vec3 F) : Mat4 F :=
  ⟨m.c0.smul v.x, m.c1.smul v.y, m.c2.smul v.z, m.c3⟩

end Mat4

/-- The value `std::numeric_limits<float>::max()`, `(2 - 2^-23) * 2^127`. -/
def floatMax : F := 340282346638528859811704183484516925440

/-- The value `std::numeric_limits<float>::lowest()`. -/
def floatLowest : F := -floatMax

end Field

/-! ## The OBJ reader (tinyobj) as seen by `Model.cpp` -/

/-- The record `tinyobj::index_t`. -/
structure index_t where
  vertex_index : Int
  normal_index : Int
  texcoord_index : Int
deriving DecidableEq, Repr

/-- The record `tinyobj::mesh_t`, the two fields that `Model.cpp` reads. -/
structure mesh_t where
  indices : List index_t
  num_face_vertices : List Nat
deriving DecidableEq, Repr

/-- The record `tinyobj::shape_t`. -/
structure shape_t where
  name : String
  mesh : mesh_t
deriving DecidableEq, Repr

/-- The record `tinyobj::attrib_t`: `vertices` is the flat array `x0 y0 z0 x1 y1 z1 ...`. -/
structure attrib_t (F : Type) where
  vertices : List F
deriving DecidableEq, Repr

/-- The state of a `tinyobj::ObjReader` after `ParseFromFile`. -/
structure ObjReader (F : Type) where
  valid : Bool
  attrib : attrib_t F
  shapes : List shape_t
  warning : String
  error : String
deriving DecidableEq, Repr

/-- A default-constructed `tinyobj::ObjReader`. -/
def ObjReader.empty {F : Type} : ObjReader F := ⟨false, ⟨[]⟩, [], "", ""⟩

/-- What the program writes to the console. -/
inductive Output where
  /-- The line `TinyObjReader: <error>`. -/
  | readerError (e : String)
  /-- The line `TinyObjReader: <warning>`. -/
  | readerWarning (w : String)
  /-- The line `TinyObjReader: Could not read .obj file correctly`. -/
  | readerInvalid
  /-- The line `Handling texture: <path>`. -/
  | handlingTexture (path : String)
  /-- The report `ERROR: No vertices could be read. ... Loading latest OBJ ("<latest>") instead.` -/
  | noVertices (latest : String)
  /-- The report `ERROR: No indices could be read. ... Loading latest OBJ ("<latest>") instead.` -/
  | noIndices (latest : String)
  /-- The line `Failed to load Object <name>.` -/
  | failedToLoad (name : String)
  /-- The line `Object <name> loaded successfully!` -/
  | loadedSuccessfully (name : String)
deriving DecidableEq, Repr

/-- Why a run of the embedded program has no result. -/
inductive Fault where
  /-- The recursion budget of the embedding is used up. -/
  | outOfFuel
  /-- A vector was indexed outside its bounds. -/
  | outOfBounds
deriving DecidableEq, Repr

/-! ## The class `Model` -/

/-- The data members of `Model` (GL handles and uniform locations left out) together with
the console. -/
structure Model (F : Type) where
  objFileName : String
  objFilePath : String
  latestObj : String
  /-- The model matrix; `none` when it is indeterminate or holds a non-finite entry. -/
  modelMat : Option (Mat4 F)
  textureFileName : String
  textureFilePath : String
  textureShow : Bool
  materialAmbient : Vec3 F
  materialDiffuse : Vec3 F
  materialSpecular : Vec3 F
  materialShininess : F
  vertices : List (Vec3 F)
  normals : List (Vec3 F)
  indices : List Nat
  texCoords : List (Vec2 F)
  reader : ObjReader F
  console : List Output

section Field

variable {F : Type} [LinearOrderedField F]

/-- The constructor `Model::Model(GLuint program, GLuint vao)`. -/
def Model.init : Model F where
  objFileName := "sphere_large.obj"
  objFilePath := "OBJs/"
  latestObj := "sphere_large.obj"
  modelMat := none
  textureFileName := "erf.jpg"
  textureFilePath := ""
  textureShow := false
  materialAmbient := ⟨6 / 10, 6 / 10, 6 / 10⟩
  materialDiffuse := ⟨5 / 10, 5 / 10, 5 / 10⟩
  materialSpecular := ⟨5 / 10, 5 / 10, 5 / 10⟩
  materialShininess := 5
  vertices := []
  normals := []
  indices := []
  texCoords := []
  reader := ObjReader.empty
  console := []

/-- Writing one event to the console. -/
def Model.print (m : Model F) (o : Output) : Model F :=
  { m with console := m.console ++ [o] }

/-- The six running extrema of `Model::insertVertices`. -/
structure Extent (F : Type) where
  xMax : F
  xMin : F
  yMax : F
  yMin : F
  zMax : F
  zMin : F
deriving DecidableEq, Repr

/-- The initial extrema of `Model::insertVertices` (lines 155-157). -/
def Extent.start : Extent F :=
  ⟨floatLowest, floatMax, floatLowest, floatMax, floatLowest, floatMax⟩

/-- The loop of `Model::insertVertices` (lines 161-177): iteration `v` reads the entries
`3v`, `3v+1`, `3v+2` of the flat array, so the array is consumed three entries at a time and
an incomplete last group is not read. -/
def insertVerticesLoop : List F → Extent F → List (Vec3 F) → Extent F × List (Vec3 F)
  | vx :: vy :: vz :: rest, e, vertices =>
    insertVerticesLoop rest
      ⟨max e.xMax vx, min e.xMin vx, max e.yMax vy, min e.yMin vy, max e.zMax vz, min e.zMin vz⟩
      (vertices ++ [⟨vx, vy, vz⟩])
  | _, e, vertices => (e, vertices)

/-- The divisor `scalar` of `Model::insertVertices` (lines 179-183). -/
def Extent.scalar (e : Extent F) : F :=
  max (e.xMax - e.xMin) (max (e.yMax - e.yMin) (e.zMax - e.zMin))

/-- The result `{scaleFactor, scaleFactor, scaleFactor}` with `scaleFactor = 1.0f / scalar`
(lines 184-186); `none` when `scalar` is zero and the quotient is not a field element. -/
def Extent.scale (e : Extent F) : Option (Vec3 F) :=
  if e.scalar = 0 then none else some ⟨1 / e.scalar, 1 / e.scalar, 1 / e.scalar⟩

/-- The method `Model::insertVertices`: appends the reader's positions to `vertices` and
returns the normalisation scale. -/
def insertVertices (m : Model F) : Model F × Option (Vec3 F) :=
  let r := insertVerticesLoop m.reader.attrib.vertices Extent.start m.vertices
  ({ m with vertices := r.2 }, r.1.scale)

/-- The conversion `static_cast<unsigned int>(idx.vertex_index)` of a 32-bit `int`. -/
def toUnsigned (i : Int) : Nat := (i % 4294967296).toNat

/-- The loop of `Model::insertIndices` (lines 214-221): one iteration per entry of
`num_face_vertices`; iteration `v` reads `indices[3v]`, `indices[3v+1]`, `indices[3v+2]`, so
the index array is consumed three entries at a time and a face without three entries left is
a read outside the array. -/
def insertIndicesLoop : List Nat → List index_t → List Nat → Except Fault (List Nat)
  | [], _, indices => .ok indices
  | _ :: faces, a :: b :: c :: rest, indices =>
    insertIndicesLoop faces rest
      (indices ++ [toUnsigned a.vertex_index, toUnsigned b.vertex_index,
        toUnsigned c.vertex_index])
  | _ :: _, _, _ => .error .outOfBounds

/-- The two console writes of `Model::insertIndices` (lines 206-212), in order. -/
def readerStateOutput (reader : ObjReader F) : List Output :=
  (if reader.warning ≠ "" then [.readerWarning reader.warning] else []) ++
    (if reader.error ≠ "" then [.readerError reader.error] else [])

/-- The method `Model::insertIndices`: appends the vertex indices of the first shape. -/
def insertIndices (m : Model F) : Except Fault (Model F) :=
  let m1 := { m with console := m.console ++ readerStateOutput m.reader }
  match m1.reader.shapes with
  | [] => .error .outOfBounds
  | shape :: _ =>
    match insertIndicesLoop shape.mesh.num_face_vertices shape.mesh.indices m1.indices with
    | .ok indices => .ok { m1 with indices := indices }
    | .error e => .error e

/-- The statement `normals[k] += faceNormal`. -/
def addAt (normals : List (Vec3 F)) (k : Nat) (faceNormal : Vec3 F) :
    Except Fault (List (Vec3 F)) :=
  match normals[k]? with
  | some n => .ok (normals.set k (n.add faceNormal))
  | none => .error .outOfBounds

/-- The face normal of lines 231-233; the value of `glm::normalize(faceNormal)` on line 234
is discarded by the source, so `faceNormal` stays the plain cross product. -/
def faceNormal (vertices : List (Vec3 F)) (a b c : Nat) : Except Fault (Vec3 F) :=
  match vertices[b]?, vertices[a]?, vertices[c]? with
  | some vb, some va, some vc => .ok ((vb.sub va).cross (vc.sub va))
  | _, _, _ => .error .outOfBounds

/-- The first loop of `Model::insertNormals` (lines 228-240): `i` advances by three while
`i < indices.size()`, reading `indices[i]`, `indices[i+1]`, `indices[i+2]`; one or two
entries left over are a read outside the array. -/
def insertNormalsLoop (vertices : List (Vec3 F)) :
    List Nat → List (Vec3 F) → Except Fault (List (Vec3 F))
  | [], normals => .ok normals
  | a :: b :: c :: rest, normals =>
    match faceNormal vertices a b c with
    | .error e => .error e
    | .ok fn =>
      match addAt normals a fn with
      | .error e => .error e
      | .ok n1 =>
        match addAt n1 b fn with
        | .error e => .error e
        | .ok n2 =>
          match addAt n2 c fn with
          | .error e => .error e
          | .ok n3 => insertNormalsLoop vertices rest n3
  | _, _ => .error .outOfBounds

/-- The call `normals.resize(n)`: truncates, or pads with value-initialised vectors. -/
def resize (normals : List (Vec3 F)) (n : Nat) : List (Vec3 F) :=
  normals.take n ++ List.replicate (n - normals.length) Vec3.zero

/-- The state of `normals` when the first loop of `Model::insertNormals` has finished, before
the second loop. -/
def accumulateNormals (m : Model F) : Except Fault (List (Vec3 F)) :=
  insertNormalsLoop m.vertices m.indices (resize m.normals m.vertices.length)

/-- The second loop of `Model::insertNormals` (lines 243-245): `glm::normalize(normals[i])`
takes its argument by value and its result is discarded, so no entry is changed. -/
def normalizePass (M : MathFns F) (normals : List (Vec3 F)) : List (Vec3 F) :=
  normals.map (fun n => (fun _ => n) (n.normalize M))

/-- The method `Model::insertNormals`. -/
def insertNormals (M : MathFns F) (m : Model F) : Except Fault (Model F) :=
  match accumulateNormals m with
  | .error e => .error e
  | .ok normals => .ok { m with normals := normalizePass M normals }

/-- The function `calculateSphereTexCoord` (lines 263-270). -/
def calculateSphereTexCoord (M : MathFns F) (vertex : Vec3 F) : Vec2 F :=
  let theta := M.atan2 vertex.z vertex.x
  let phi := M.asin vertex.y
  let u := 1 / 2 + theta / (2 * (314 / 100))
  let v := 1 / 2 - phi / (314 / 100)
  ⟨u, v⟩

/-- The function `invertHCoordinate` (lines 272-274). -/
def invertHCoordinate (original : Vec2 F) : Vec2 F := ⟨1 - original.x, original.y⟩

/-- The method `Model::handleTextures`, without the image decoder and the GL calls: the
separator is appended to the stored path and the path is printed. -/
def handleTextures (m : Model F) : Model F :=
  let m1 := if m.textureFilePath.length ≠ 0
    then { m with textureFilePath := m.textureFilePath ++ "/" } else m
  m1.print (.handlingTexture (m1.textureFilePath ++ m1.textureFileName))

/-- The three console writes of `Model::OBJLoaderInit` (lines 123-135), in order. -/
def parseOutput (reader : ObjReader F) : List Output :=
  (if !reader.valid && reader.error ≠ "" then [.readerError reader.error] else []) ++
    (if reader.warning ≠ "" then [.readerWarning reader.warning] else []) ++
    (if !reader.valid then [.readerInvalid] else [])

/-- The method `Model::OBJLoaderInit`: parses `objFilePath + objFileName`, writes the
reader's diagnostics and returns the reader. -/
def OBJLoaderInit (fs : String → ObjReader F) (m : Model F) : ObjReader F × Model F :=
  let reader := fs (m.objFilePath ++ m.objFileName)
  (reader, { m with console := m.console ++ parseOutput reader })

/-- The four `clear()` calls of `Model::changeObject`. -/
def clearGeometry (m : Model F) : Model F :=
  { m with vertices := [], indices := [], normals := [], texCoords := [] }

/-- Lines 329-427 of `Model::loadGeometry`, the part after `checkOBJ` has returned true;
`load_error` is the local flag of that name. -/
def finishLoad (M : MathFns F) (load_error : Bool) (m : Model F) : Except Fault (Model F) :=
  let r := insertVertices m
  let m1 := { r.1 with modelMat := r.2.map (Mat4.scale Mat4.identity) }
  match insertIndices m1 with
  | .error e => .error e
  | .ok m2 =>
    match insertNormals M m2 with
    | .error e => .error e
    | .ok m3 =>
      let m4 := handleTextures m3
      let generated :=
        if m4.objFileName = "sphere_large.obj" ∨ m4.objFileName = "sphere.obj"
        then m4.vertices.map (calculateSphereTexCoord M)
        else m4.vertices.map (fun vertex => (⟨vertex.x, vertex.y⟩ : Vec2 F))
      let m5 := { m4 with texCoords := (m4.texCoords ++ generated).map invertHCoordinate }
      .ok (if load_error then m5.print (.failedToLoad m5.objFileName)
        else m5.print (.loadedSuccessfully m5.objFileName))

mutual

/-- The method `Model::loadGeometry`. -/
def loadGeometry (M : MathFns F) (fs : String → ObjReader F) :
    Nat → Model F → Except Fault (Model F)
  | 0, _ => .error .outOfFuel
  | fuel + 1, m =>
    let r := OBJLoaderInit fs m
    let m1 := { r.2 with reader := r.1 }
    let load_error := decide (m1.reader.error ≠ "")
    let m2 := if load_error
      then (OBJLoaderInit fs { m1 with objFileName := m1.latestObj }).2 else m1
    match checkOBJ M fs fuel m2 with
    | .error e => .error e
    | .ok (false, m3) => .ok m3
    | .ok (true, m3) => finishLoad M load_error m3

/-- The method `Model::checkOBJ`. -/
def checkOBJ (M : MathFns F) (fs : String → ObjReader F) :
    Nat → Model F → Except Fault (Bool × Model F)
  | 0, _ => .error .outOfFuel
  | fuel + 1, m =>
    if m.reader.attrib.vertices.isEmpty then
      let m1 := m.print (.noVertices m.latestObj)
      match changeObject M fs fuel { m1 with objFileName := m1.latestObj } with
      | .error e => .error e
      | .ok m2 => .ok (false, m2)
    else if m.reader.shapes.isEmpty then
      let m1 := m.print (.noIndices m.latestObj)
      match changeObject M fs fuel { m1 with objFileName := m1.latestObj } with
      | .error e => .error e
      | .ok m2 => .ok (false, m2)
    else .ok (true, m)

/-- The method `Model::changeObject`. -/
def changeObject (M : MathFns F) (fs : String → ObjReader F) :
    Nat → Model F → Except Fault (Model F)
  | 0, _ => .error .outOfFuel
  | fuel + 1, m => loadGeometry M fs fuel (clearGeometry m)

end

/-- The method `Model::changeTextures`. -/
def changeTextures (M : MathFns F) (fs : String → ObjReader F) (fuel : Nat) (m : Model F) :
    Except Fault (Model F) :=
  loadGeometry M fs fuel { m with texCoords := [] }

/-! ## The classes `Camera`, `Scene` and `GeometryRender` -/

/-- The function `glm::radians`. -/
def radians (degrees : F) : F :=
  degrees * (1745329251994329576923690768489 / 100000000000000000000000000000000)

/-- The function `glm::lookAt` (right-handed). -/
def lookAt (M : MathFns F) (eye center up : Vec3 F) : Mat4 F :=
  let f := (center.sub eye).normalize M
  let s := (f.cross up).normalize M
  let u := s.cross f
  ⟨⟨s.x, u.x, -f.x, 0⟩, ⟨s.y, u.y, -f.y, 0⟩, ⟨s.z, u.z, -f.z, 0⟩,
    ⟨-(s.dot eye), -(u.dot eye), f.dot eye, 1⟩⟩

/-- The public data members of `Camera`. -/
structure Camera (F : Type) where
  eye : Vec3 F
  center : Vec3 F
  up : Vec3 F
  pitch : F
  yaw : F
  fov : F
  farplane : F
  top : F
  obliqueScale : F
  obliqueAngleRad : F
  viewMatrix : Mat4 F
  /-- The projection matrix; `none` until `sendProj` has set it. -/
  projectionMatrix : Option (Mat4 F)

/-- The method `Camera::init`, which leaves `projectionMatrix` as it is. -/
def Camera.init (M : MathFns F) (c : Camera F) : Camera F :=
  { c with
    fov := 60
    farplane := 500
    top := 1
    obliqueScale := 0
    obliqueAngleRad := radians 45
    eye := ⟨0, 0, 2⟩
    center := ⟨0, 0, 1⟩
    up := ⟨0, 1, 0⟩
    pitch := 0
    yaw := -90
    viewMatrix := lookAt M ⟨0, 0, 2⟩ ⟨0, 0, 1⟩ ⟨0, 1, 0⟩ }

/-- The data members of `Scene`. -/
structure Scene (F : Type) where
  lightPos : Vec3 F
  lightColor : Vec3 F
  ambientColor : Vec3 F

/-- The data members of `GeometryRender` and of its base class `OpenGLWindow` that the
embedded methods use; the members of the base class are the values edited in the GUI. -/
structure GeometryRender (F : Type) where
  objFileName : String
  objFilePath : String
  textureFileName : String
  textureFilePath : String
  fov : F
  farplane : F
  top : F
  obliqueScale : F
  obliqueAngleRad : F
  lightPos : Vec3 F
  lightColor : Vec3 F
  ambientColor : Vec3 F
  materialAmbient : Vec3 F
  materialDiffuse : Vec3 F
  materialSpecular : Vec3 F
  materialShininess : F
  projMode : Int
  object : Model F
  camera : Camera F
  world : Scene F
  firstRun : Bool
  viewChanged : Bool
  modelChanged : Bool

/-- The method `GeometryRender::changeObject`. -/
def GeometryRender.changeObject (M : MathFns F) (fs : String → ObjReader F) (fuel : Nat)
    (g : GeometryRender F) : Except Fault (GeometryRender F) :=
  let object := { g.object with
    latestObj := g.object.objFileName
    objFilePath := g.objFilePath
    objFileName := g.objFileName }
  match Studio.changeObject M fs fuel object with
  | .error e => .error e
  | .ok object1 => .ok { g with firstRun := true, object := object1, camera := g.camera.init M }

end Field

/-! ## Projection and camera movement -/

section Field

variable {F : Type} [LinearOrderedField F]

/-- The unary `operator-` of `glm::vec3`. -/
def Vec3.neg (v : Vec3 F) : Vec3 F := ⟨-v.x, -v.y, -v.z⟩

namespace Vec4

/-- Component-wise `operator+`. -/
def add (a b : Vec4 F) : Vec4 F := ⟨a.x + b.x, a.y + b.y, a.z + b.z, a.w + b.w⟩

end Vec4

namespace Mat4

/-- The product `m * v` of a matrix and a column vector:
`m[0] * v[0] + m[1] * v[1] + m[2] * v[2] + m[3] * v[3]`. -/
def mulVec (m : Mat4 F) (v : Vec4 F) : Vec4 F :=
  (((m.c0.smul v.x).add (m.c1.smul v.y)).add (m.c2.smul v.z)).add (m.c3.smul v.w)

/-- The product `m1 * m2` of `glm::mat4`: column `j` of the result is `m1 * m2[j]`. -/
def mul (m1 m2 : Mat4 F) : Mat4 F :=
  ⟨m1.mulVec m2.c0, m1.mulVec m2.c1, m1.mulVec m2.c2, m1.mulVec m2.c3⟩

end Mat4

/-- The function `glm::ortho(left, right, bottom, top, zNear, zFar)` (right-handed, depth
from -1 to 1); `none` when one of its three divisors is zero. -/
def ortho (left right bottom top zNear zFar : F) : Option (Mat4 F) :=
  if right - left = 0 ∨ top - bottom = 0 ∨ zFar - zNear = 0 then none
  else some
    ⟨⟨2 / (right - left), 0, 0, 0⟩, ⟨0, 2 / (top - bottom), 0, 0⟩,
      ⟨0, 0, -(2 / (zFar - zNear)), 0⟩,
      ⟨-((right + left) / (right - left)), -((top + bottom) / (top - bottom)),
        -((zFar + zNear) / (zFar - zNear)), 1⟩⟩

/-- The function `glm::perspective(fovy, aspect, zNear, zFar)` (right-handed, depth from -1
to 1); `none` when one of its three divisors is zero. -/
def perspective (M : MathFns F) (fovy aspect zNear zFar : F) : Option (Mat4 F) :=
  let tanHalfFovy := M.tan (fovy / 2)
  if aspect * tanHalfFovy = 0 ∨ tanHalfFovy = 0 ∨ zFar - zNear = 0 then none
  else some
    ⟨⟨1 / (aspect * tanHalfFovy), 0, 0, 0⟩, ⟨0, 1 / tanHalfFovy, 0, 0⟩,
      ⟨0, 0, -((zFar + zNear) / (zFar - zNear)), -1⟩,
      ⟨0, 0, -((2 * zFar * zNear) / (zFar - zNear)), 0⟩⟩

/-- The matrix `obliqueMatrix` of `Camera::sendProj` after lines 117-118: the identity with
`[2][0] = obliqueScale * cos(obliqueAngleRad)` and `[2][1] = obliqueScale * sin(obliqueAngleRad)`,
entries of column 2. -/
def shearMatrix (M : MathFns F) (obliqueScale obliqueAngleRad : F) : Mat4 F :=
  { (Mat4.identity : Mat4 F) with
    c2 := ⟨obliqueScale * M.cos obliqueAngleRad, obliqueScale * M.sin obliqueAngleRad, 1, 0⟩ }

/-- The method `Camera::sendProj`, without the upload; `aspectRatio` is
`(float)width / (float)height`, which is not finite for `height = 0`. -/
def Camera.sendProj (M : MathFns F) (width height projmode : Int) (c : Camera F) : Camera F :=
  let aspectRatio : F := (width : F) / (height : F)
  let perspectiveMatrix : Option (Mat4 F) :=
    if height = 0 then none
    else perspective M (radians (c.fov * aspectRatio)) aspectRatio (1 / 10) c.farplane
  let c1 := if projmode = 0 then { c with projectionMatrix := perspectiveMatrix } else c
  if projmode ≠ 0 then
    let orthoMatrix := ortho (-c1.top) c1.top (-c1.top) c1.top (1 / 10) c1.farplane
    let c2 := { c1 with projectionMatrix := orthoMatrix }
    let obliqueMatrix : Mat4 F := Mat4.identity
    let sheared := shearMatrix M c2.obliqueScale c2.obliqueAngleRad
    let r := if c2.obliqueScale ≠ 0 then
        (sheared, { c2 with projectionMatrix := c2.projectionMatrix.map (Mat4.mul sheared) })
      else (obliqueMatrix, c2)
    { r.2 with projectionMatrix := r.2.projectionMatrix.map (Mat4.mul r.1) }
  else c1

/-- The function `glm::mod(x, y)`: `x - y * floor(x / y)`. -/
def glmMod (M : MathFns F) (x y : F) : F := x - y * M.floor (x / y)

/-- The constant `MOVE_CAMERA_UNIT`, `0.05f`. -/
def MOVE_CAMERA_UNIT : F := 5 / 100

namespace GeometryRender

/-- The method `GeometryRender::calculateCameraDirection`. -/
def calculateCameraDirection (M : MathFns F) (g : GeometryRender F) : GeometryRender F :=
  let front : Vec3 F :=
    ⟨M.cos (radians g.camera.yaw) * M.cos (radians g.camera.pitch),
      M.sin (radians g.camera.pitch),
      M.sin (radians g.camera.yaw) * M.cos (radians g.camera.pitch)⟩
  let front := front.normalize M
  { g with
    camera := { g.camera with
      center := g.camera.eye.add front
      up := ((front.cross ⟨0, 1, 0⟩).cross front) }
    viewChanged := true }

/-- The method `GeometryRender::rotateCameraUp`. -/
def rotateCameraUp (M : MathFns F) (dy : F) (g : GeometryRender F) : GeometryRender F :=
  let g1 := { g with camera := { g.camera with pitch := g.camera.pitch - dy } }
  let g2 := { g1 with camera := { g1.camera with pitch := glmMod M g1.camera.pitch 360 } }
  { calculateCameraDirection M g2 with viewChanged := true }

/-- The method `GeometryRender::rotateCameraDown`. -/
def rotateCameraDown (M : MathFns F) (dy : F) (g : GeometryRender F) : GeometryRender F :=
  let g1 := { g with camera := { g.camera with pitch := g.camera.pitch + dy } }
  let g2 := { g1 with camera := { g1.camera with pitch := glmMod M g1.camera.pitch 360 } }
  { calculateCameraDirection M g2 with viewChanged := true }

/-- The method `GeometryRender::rotateCameraLeft`. -/
def rotateCameraLeft (M : MathFns F) (dx : F) (g : GeometryRender F) : GeometryRender F :=
  let g1 := { g with camera := { g.camera with yaw := g.camera.yaw + dx } }
  let g2 := { g1 with camera := { g1.camera with yaw := glmMod M g1.camera.yaw 360 } }
  { calculateCameraDirection M g2 with viewChanged := true }

/-- The method `GeometryRender::rotateCameraRight`. -/
def rotateCameraRight (M : MathFns F) (dx : F) (g : GeometryRender F) : GeometryRender F :=
  let g1 := { g with camera := { g.camera with yaw := g.camera.yaw - dx } }
  let g2 := { g1 with camera := { g1.camera with yaw := glmMod M g1.camera.yaw 360 } }
  { calculateCameraDirection M g2 with viewChanged := true }

/-- The common end of the six `moveCamera*` methods: `eye` and `center` are moved by
`movement` and `viewChanged` is set. -/
def translateCamera (movement : Vec3 F) (g : GeometryRender F) : GeometryRender F :=
  { g with
    camera := { g.camera with
      eye := g.camera.eye.add movement
      center := g.camera.center.add movement }
    viewChanged := true }

/-- The method `GeometryRender::moveCameraDown`. -/
def moveCameraDown (g : GeometryRender F) : GeometryRender F :=
  translateCamera (g.camera.up.smul (-MOVE_CAMERA_UNIT)) g

/-- The method `GeometryRender::moveCameraUp`. -/
def moveCameraUp (g : GeometryRender F) : GeometryRender F :=
  translateCamera (g.camera.up.smul MOVE_CAMERA_UNIT) g

/-- The method `GeometryRender::moveCameraRight`. -/
def moveCameraRight (M : MathFns F) (g : GeometryRender F) : GeometryRender F :=
  let right := ((g.camera.center.sub g.camera.eye).cross g.camera.up).normalize M
  translateCamera (right.smul MOVE_CAMERA_UNIT) g

/-- The method `GeometryRender::moveCameraLeft`. -/
def moveCameraLeft (M : MathFns F) (g : GeometryRender F) : GeometryRender F :=
  let right := ((g.camera.center.sub g.camera.eye).cross g.camera.up).normalize M
  translateCamera (right.neg.smul MOVE_CAMERA_UNIT) g

/-- The method `GeometryRender::moveCameraForwards`. -/
def moveCameraForwards (M : MathFns F) (g : GeometryRender F) : GeometryRender F :=
  let forward := (g.camera.center.sub g.camera.eye).normalize M
  translateCamera (forward.smul MOVE_CAMERA_UNIT) g

/-- The method `GeometryRender::moveCameraBackwards`. -/
def moveCameraBackwards (M : MathFns F) (g : GeometryRender F) : GeometryRender F :=
  let forward := (g.camera.center.sub g.camera.eye).normalize M
  translateCamera (forward.neg.smul MOVE_CAMERA_UNIT) g

end GeometryRender

end Field

/-! ## Specification vocabulary -/

section Field

variable {F : Type} [LinearOrderedField F]

/-- The flat array `x0 y0 z0 x1 y1 z1 ...` that holds a list of positions. -/
def positionsArray : List (Vec3 F) → List F
  | [] => []
  | v :: vs => v.x :: v.y :: v.z :: positionsArray vs

/-- Every coordinate of the position is a finite `float`. -/
def InFloatRange (v : Vec3 F) : Prop :=
  (floatLowest ≤ v.x ∧ v.x ≤ floatMax) ∧ (floatLowest ≤ v.y ∧ v.y ≤ floatMax) ∧
    (floatLowest ≤ v.z ∧ v.z ≤ floatMax)

/-- The box `[lo.x, hi.x] × [lo.y, hi.y] × [lo.z, hi.z]` is the axis-aligned bounding box of
the positions: it contains all of them and each of its six faces touches one. -/
def IsBoundingBox (vs : List (Vec3 F)) (lo hi : Vec3 F) : Prop :=
  (∀ v ∈ vs, (lo.x ≤ v.x ∧ v.x ≤ hi.x) ∧ (lo.y ≤ v.y ∧ v.y ≤ hi.y) ∧ (lo.z ≤ v.z ∧ v.z ≤ hi.z)) ∧
    ((∃ v ∈ vs, v.x = lo.x) ∧ (∃ v ∈ vs, v.x = hi.x)) ∧
    ((∃ v ∈ vs, v.y = lo.y) ∧ (∃ v ∈ vs, v.y = hi.y)) ∧
    ((∃ v ∈ vs, v.z = lo.z) ∧ (∃ v ∈ vs, v.z = hi.z))

/-- The largest side of a box. -/
def largestSide (lo hi : Vec3 F) : F :=
  max (hi.x - lo.x) (max (hi.y - lo.y) (hi.z - lo.z))

/-- The flat index array `a0 b0 c0 a1 b1 c1 ...` that holds a list of triangles. -/
def trianglesArray : List (Nat × Nat × Nat) → List Nat
  | [] => []
  | t :: ts => t.1 :: t.2.1 :: t.2.2 :: trianglesArray ts

/-- The cross product `(v[b] - v[a]) x (v[c] - v[a])` of the two edges of a triangle, not
normalised. -/
def triangleCross (vertices : List (Vec3 F)) (t : Nat × Nat × Nat) : Vec3 F :=
  ((vertices.getD t.2.1 Vec3.zero).sub (vertices.getD t.1 Vec3.zero)).cross
    ((vertices.getD t.2.2 Vec3.zero).sub (vertices.getD t.1 Vec3.zero))

/-- One copy of the triangle's cross product for every corner of the triangle that is the
vertex `i`, over all triangles in order. -/
def cornerNormals (vertices : List (Vec3 F)) (i : Nat) : List (Nat × Nat × Nat) → List (Vec3 F)
  | [] => []
  | t :: ts =>
    (if t.1 = i then [triangleCross vertices t] else []) ++
      (if t.2.1 = i then [triangleCross vertices t] else []) ++
      (if t.2.2 = i then [triangleCross vertices t] else []) ++ cornerNormals vertices i ts

/-- The sum of a list of vectors. -/
def Vec3.sum (l : List (Vec3 F)) : Vec3 F := l.foldl Vec3.add Vec3.zero

/-- The model that lines 329-427 of `Model::loadGeometry` leave when the loop of
`insertIndices` ends with the index array `idx` and the first loop of `insertNormals` with the
normals `ns`. -/
def loadedModel (M : MathFns F) (load_error : Bool) (m : Model F) (idx : List Nat)
    (ns : List (Vec3 F)) : Model F :=
  { m with
    vertices := (insertVerticesLoop m.reader.attrib.vertices Extent.start m.vertices).2
    modelMat := (insertVerticesLoop m.reader.attrib.vertices Extent.start
      m.vertices).1.scale.map (Mat4.scale Mat4.identity)
    indices := idx
    normals := ns
    textureFilePath :=
      if m.textureFilePath.length ≠ 0 then m.textureFilePath ++ "/" else m.textureFilePath
    texCoords := (m.texCoords ++
      if m.objFileName = "sphere_large.obj" ∨ m.objFileName = "sphere.obj"
      then (insertVerticesLoop m.reader.attrib.vertices Extent.start m.vertices).2.map
        (calculateSphereTexCoord M)
      else (insertVerticesLoop m.reader.attrib.vertices Extent.start m.vertices).2.map
        (fun vertex => (⟨vertex.x, vertex.y⟩ : Vec2 F))).map invertHCoordinate
    console := m.console ++ readerStateOutput m.reader ++
      [.handlingTexture
        ((if m.textureFilePath.length ≠ 0 then m.textureFilePath ++ "/"
          else m.textureFilePath) ++ m.textureFileName),
       if load_error then .failedToLoad m.objFileName
       else .loadedSuccessfully m.objFileName] }

/-- The model on which `Model::loadGeometry` runs its pipeline after a parse without error:
`reader` holds the parse of `objFilePath + objFileName` and the console its diagnostics. -/
def parsedModel (fs : String → ObjReader F) (m : Model F) : Model F :=
  { m with
    reader := fs (m.objFilePath ++ m.objFileName)
    console := m.console ++ parseOutput (fs (m.objFilePath ++ m.objFileName)) }

/-- The model on which `Model::loadGeometry` calls `checkOBJ` (line 327): `reader` holds the
parse of `objFilePath + objFileName`; after a reader error `objFileName` is `latestObj` and the
console also holds the diagnostics of the second, discarded parse. -/
def checkedModel (fs : String → ObjReader F) (m : Model F) : Model F :=
  if (fs (m.objFilePath ++ m.objFileName)).error ≠ "" then
    { parsedModel fs m with
      objFileName := m.latestObj
      console := (parsedModel fs m).console ++ parseOutput (fs (m.objFilePath ++ m.latestObj)) }
  else parsedModel fs m

/-- The reader state after parsing a triangulated OBJ file without diagnostics: the positions
`vs` and one shape whose faces are the index triples `tris`. -/
def meshReader (vs : List (Vec3 F)) (tris : List (Nat × Nat × Nat)) : ObjReader F :=
  ⟨true, ⟨positionsArray vs⟩,
    [⟨"", ⟨tris.flatMap (fun t => [⟨t.1, -1, -1⟩, ⟨t.2.1, -1, -1⟩, ⟨t.2.2, -1, -1⟩]),
      tris.map (fun _ => 3)⟩⟩], "", ""⟩

/-- The reader state after a failed attempt to open a file. -/
def missingFile : ObjReader F := ⟨false, ⟨[]⟩, [], "", "Cannot open file"⟩

end Field

/-! ## Sample data over the rationals -/

/-- A stand-in for the maths library on the rationals, for evaluating definitions whose value
does not depend on it. -/
def sampleMath : MathFns ℚ := ⟨id, id, id, id, id, fun y _ => y, id⟩

/-- The six vertices of the octahedron inscribed in the unit sphere. -/
def octahedron : List (Vec3 ℚ) :=
  [⟨1, 0, 0⟩, ⟨-1, 0, 0⟩, ⟨0, 1, 0⟩, ⟨0, -1, 0⟩, ⟨0, 0, 1⟩, ⟨0, 0, -1⟩]

/-- A freshly constructed model whose reader holds the given positions and no faces. -/
def meshModel (vs : List (Vec3 ℚ)) : Model ℚ :=
  { (Model.init : Model ℚ) with reader := meshReader vs [] }

/-- A camera before `Camera::init`, every member zero. -/
def sampleCamera : Camera ℚ :=
  { eye := ⟨0, 0, 0⟩, center := ⟨0, 0, 0⟩, up := ⟨0, 0, 0⟩, pitch := 0, yaw := 0, fov := 0,
    farplane := 0, top := 0, obliqueScale := 0, obliqueAngleRad := 0,
    viewMatrix := Mat4.identity, projectionMatrix := none }

/-- A renderer around the given model in which the GUI asks for the file `name` under `path`. -/
def sampleRender (object : Model ℚ) (path name : String) : GeometryRender ℚ :=
  { objFileName := name, objFilePath := path, textureFileName := "erf.jpg",
    textureFilePath := "", fov := 60, farplane := 500, top := 1, obliqueScale := 0,
    obliqueAngleRad := radians 45, lightPos := ⟨10, 10, 10⟩, lightColor := ⟨1, 1, 1⟩,
    ambientColor := ⟨2 / 10, 2 / 10, 2 / 10⟩, materialAmbient := object.materialAmbient,
    materialDiffuse := object.materialDiffuse, materialSpecular := object.materialSpecular,
    materialShininess := object.materialShininess, projMode := 0, object := object,
    camera := sampleCamera.init sampleMath,
    world := ⟨⟨10, 10, 10⟩, ⟨1, 1, 1⟩, ⟨2 / 10, 2 / 10, 2 / 10⟩⟩,
    firstRun := false, viewChanged := false, modelChanged := false }

/-- A file system in which the only file is `OBJs/sphere_large.obj`, holding one triangle. -/
def sampleFiles : String → ObjReader ℚ := fun path =>
  if path = "OBJs/sphere_large.obj"
  then meshReader [⟨0, 0, 0⟩, ⟨2, 0, 0⟩, ⟨0, 2, 0⟩] [(0, 1, 2)] else missingFile

/-! ## Camera operations and forward vector -/

section Field

variable {F : Type} [LinearOrderedField F]

/-- The vector `(cos(yaw) cos(pitch), sin(pitch), sin(yaw) cos(pitch))` of angles given in
degrees. -/
def forwardVector (M : MathFns F) (yaw pitch : F) : Vec3 F :=
  ⟨M.cos (radians yaw) * M.cos (radians pitch), M.sin (radians pitch),
    M.sin (radians yaw) * M.cos (radians pitch)⟩

end Field

section Field

variable {F : Type} [LinearOrderedField F]

/-- The camera operations of `GeometryRender` that the input handlers call. -/
inductive CameraOp (F : Type) where
  | rotateCameraUp (dy : F)
  | rotateCameraDown (dy : F)
  | rotateCameraLeft (dx : F)
  | rotateCameraRight (dx : F)
  | moveCameraUp
  | moveCameraDown
  | moveCameraLeft
  | moveCameraRight
  | moveCameraForwards
  | moveCameraBackwards

/-- The operation changes the yaw: `rotateCameraLeft` or `rotateCameraRight`. -/
def CameraOp.turnsYaw : CameraOp F → Bool
  | .rotateCameraLeft _ => true
  | .rotateCameraRight _ => true
  | _ => false

/-- One camera operation applied to the renderer. -/
def GeometryRender.applyCameraOp (M : MathFns F) (g : GeometryRender F) :
    CameraOp F → GeometryRender F
  | .rotateCameraUp dy => g.rotateCameraUp M dy
  | .rotateCameraDown dy => g.rotateCameraDown M dy
  | .rotateCameraLeft dx => g.rotateCameraLeft M dx
  | .rotateCameraRight dx => g.rotateCameraRight M dx
  | .moveCameraUp => g.moveCameraUp
  | .moveCameraDown => g.moveCameraDown
  | .moveCameraLeft => g.moveCameraLeft M
  | .moveCameraRight => g.moveCameraRight M
  | .moveCameraForwards => g.moveCameraForwards M
  | .moveCameraBackwards => g.moveCameraBackwards M

/-- A sequence of camera operations applied in order. -/
def GeometryRender.applyCameraOps (M : MathFns F) (g : GeometryRender F)
    (ops : List (CameraOp F)) : GeometryRender F :=
  ops.foldl (GeometryRender.applyCameraOp M) g

/-- A camera before `Camera::init`, every member zero. -/
def Camera.blank : Camera F :=
  { eye := ⟨0, 0, 0⟩, center := ⟨0, 0, 0⟩, up := ⟨0, 0, 0⟩, pitch := 0, yaw := 0, fov := 0,
    farplane := 0, top := 0, obliqueScale := 0, obliqueAngleRad := 0,
    viewMatrix := Mat4.identity, projectionMatrix := none }

/-- A renderer after the camera part of `GeometryRender::initialize`: a freshly constructed
model, the camera as `Camera::init` leaves it, the GUI values copied from it. -/
def GeometryRender.start (M : MathFns F) : GeometryRender F :=
  { objFileName := "sphere_large.obj", objFilePath := "", textureFileName := "erf.jpg",
    textureFilePath := "", fov := 60, farplane := 500, top := 1, obliqueScale := 0,
    obliqueAngleRad := radians 45, lightPos := ⟨10, 10, 10⟩, lightColor := ⟨1, 1, 1⟩,
    ambientColor := ⟨2 / 10, 2 / 10, 2 / 10⟩, materialAmbient := ⟨6 / 10, 6 / 10, 6 / 10⟩,
    materialDiffuse := ⟨5 / 10, 5 / 10, 5 / 10⟩, materialSpecular := ⟨5 / 10, 5 / 10, 5 / 10⟩,
    materialShininess := 5, projMode := 0, object := Model.init,
    camera := Camera.blank.init M,
    world := ⟨⟨10, 10, 10⟩, ⟨1, 1, 1⟩, ⟨2 / 10, 2 / 10, 2 / 10⟩⟩,
    firstRun := true, viewChanged := false, modelChanged := false }

end Field

/-- The maths library on the rationals with an exact `floor`, `sqrt 1 = 1` and the constant
functions `sin = 0`, `cos = 1`; the other functions are stand-ins. -/
def floorMath : MathFns ℚ :=
  ⟨id, fun _ => 0, fun _ => 1, id, id, fun y _ => y, fun x => (⌊x⌋ : ℤ)⟩

/-! ## Uniform uploads and the frame -/

/-- The values that `display` and the methods it calls pass to the GL, one constructor for
each call. -/
inductive Upload (F : Type) where
  /-- The projection matrix `P`, sent by `Camera::sendProj`. -/
  | projection (m : Option (Mat4 F))
  /-- The view matrix `V`, sent by `Camera::sendView`. -/
  | view (m : Mat4 F)
  /-- The eye position `v`, sent by `Camera::sendView`. -/
  | eye (v : Vec3 F)
  /-- The ambient light `i_a`, sent by `Scene::sendScene`. -/
  | ambientColor (v : Vec3 F)
  /-- The light colour `i_l`, sent by `Scene::sendScene`. -/
  | lightColor (v : Vec3 F)
  /-- The light position `l`, sent by `Scene::sendScene`. -/
  | lightPos (v : Vec3 F)
  /-- The diffuse material, sent by `Model::sendModel(true)`. -/
  | materialDiffuse (v : Vec3 F)
  /-- The ambient material, sent by `Model::sendModel(true)`. -/
  | materialAmbient (v : Vec3 F)
  /-- The specular material, sent by `Model::sendModel(true)`. -/
  | materialSpecular (v : Vec3 F)
  /-- The shininess, sent by `Model::sendModel(true)`; the value before its conversion to
  `GLint`. -/
  | materialShininess (s : F)
  /-- The model matrix `M`, sent by every `Model::sendModel`. -/
  | model (m : Option (Mat4 F))
  /-- The flag `useTexture`, sent by `display`. -/
  | useTexture (value : Bool)
  /-- The call `glDrawElements(GL_TRIANGLES, count, ...)`. -/
  | drawElements (count : Nat)
deriving DecidableEq

section Field

variable {F : Type} [LinearOrderedField F]

/-- The function `glm::rotate(m, angle, v)`. -/
def Mat4.rotate (M : MathFns F) (m : Mat4 F) (angle : F) (v : Vec3 F) : Mat4 F :=
  let c := M.cos angle
  let s := M.sin angle
  let axis := v.normalize M
  let temp := axis.smul (1 - c)
  let r00 := c + temp.x * axis.x
  let r01 := temp.x * axis.y + s * axis.z
  let r02 := temp.x * axis.z - s * axis.y
  let r10 := temp.y * axis.x - s * axis.z
  let r11 := c + temp.y * axis.y
  let r12 := temp.y * axis.z + s * axis.x
  let r20 := temp.z * axis.x + s * axis.y
  let r21 := temp.z * axis.y - s * axis.x
  let r22 := c + temp.z * axis.z
  ⟨((m.c0.smul r00).add (m.c1.smul r01)).add (m.c2.smul r02),
    ((m.c0.smul r10).add (m.c1.smul r11)).add (m.c2.smul r12),
    ((m.c0.smul r20).add (m.c1.smul r21)).add (m.c2.smul r22), m.c3⟩

/-- The method `Camera::sendProj` with its upload: the camera afterwards and the matrix sent. -/
def Camera.sendProjUpload (M : MathFns F) (width height projmode : Int) (c : Camera F) :
    Camera F × List (Upload F) :=
  let c1 := c.sendProj M width height projmode
  (c1, [.projection c1.projectionMatrix])

/-- The method `Camera::sendView`: recomputes `viewMatrix` and sends it and `eye`. -/
def Camera.sendView (M : MathFns F) (c : Camera F) : Camera F × List (Upload F) :=
  let c1 := { c with viewMatrix := lookAt M c.eye c.center c.up }
  (c1, [.view c1.viewMatrix, .eye c1.eye])

/-- The constructor `Scene::Scene()`. -/
def Scene.initial : Scene F :=
  { lightPos := ⟨10, 10, 10⟩, lightColor := ⟨1, 1, 1⟩
    ambientColor := ⟨2 / 10, 2 / 10, 2 / 10⟩ }

/-- The method `Scene::sendScene`. -/
def Scene.sendScene (s : Scene F) : List (Upload F) :=
  [.ambientColor s.ambientColor, .lightColor s.lightColor, .lightPos s.lightPos]

/-- The method `Model::sendModel`. -/
def Model.sendModel (materialChanged : Bool) (m : Model F) : List (Upload F) :=
  (if materialChanged then
    [.materialDiffuse m.materialDiffuse, .materialAmbient m.materialAmbient,
      .materialSpecular m.materialSpecular, .materialShininess m.materialShininess]
  else []) ++ [.model m.modelMat]

/-- The method `Model::getIndices`: `static_cast<unsigned int>(indices.size())`. -/
def Model.getIndices (m : Model F) : Nat := m.indices.length % 4294967296

/-- The method `GeometryRender::initialize`, without the creation of the GL objects: the
uploads of its `sendProj` are not recorded. -/
def GeometryRender.initialize (M : MathFns F) (fs : String → ObjReader F) (fuel : Nat)
    (width height : Int) (g : GeometryRender F) : Except Fault (GeometryRender F) :=
  let g1 := { g with firstRun := true, viewChanged := false, modelChanged := false }
  let g2 := { g1 with camera := (Camera.blank : Camera F).init M }
  let g3 := { g2 with
    fov := g2.camera.fov
    farplane := g2.camera.farplane
    top := g2.camera.top
    obliqueAngleRad := g2.camera.obliqueAngleRad
    obliqueScale := g2.camera.obliqueScale }
  let g4 := { g3 with camera := g3.camera.sendProj M width height g3.projMode }
  let g5 := { g4 with world := Scene.initial }
  let g6 := { g5 with object := Model.init }
  let g7 := { g6 with
    objFileName := g6.object.objFileName
    textureFileName := g6.object.textureFileName
    materialDiffuse := g6.object.materialDiffuse
    materialSpecular := g6.object.materialSpecular
    materialAmbient := g6.object.materialAmbient
    materialShininess := g6.object.materialShininess }
  let g8 := { g7 with
    lightPos := g7.world.lightPos
    lightColor := g7.world.lightColor
    ambientColor := g7.world.ambientColor }
  match loadGeometry M fs fuel g8.object with
  | .error e => .error e
  | .ok object => .ok { g8 with object := object }

namespace GeometryRender

/-- The method `GeometryRender::handleMaterial`: the returned flag, the renderer afterwards and
the uploads. -/
def handleMaterial (g : GeometryRender F) : Bool × GeometryRender F × List (Upload F) :=
  let updateModel := false
  let r1 : Bool × GeometryRender F :=
    if g.object.materialDiffuse ≠ g.materialDiffuse
    then (true, { g with object := { g.object with materialDiffuse := g.materialDiffuse } })
    else (updateModel, g)
  let r2 : Bool × GeometryRender F :=
    if r1.2.object.materialAmbient ≠ r1.2.materialAmbient
    then (true,
      { r1.2 with object := { r1.2.object with materialAmbient := r1.2.materialAmbient } })
    else r1
  let r3 : Bool × GeometryRender F :=
    if r2.2.object.materialSpecular ≠ r2.2.materialSpecular
    then (true,
      { r2.2 with object := { r2.2.object with materialSpecular := r2.2.materialSpecular } })
    else r2
  let r4 : Bool × GeometryRender F :=
    if r3.2.object.materialShininess ≠ r3.2.materialShininess
    then (true,
      { r3.2 with object := { r3.2.object with materialShininess := r3.2.materialShininess } })
    else r3
  (r4.1, r4.2, if r4.1 then r4.2.object.sendModel true else [])

/-- The method `GeometryRender::lightIsChanged`. -/
def lightIsChanged (g : GeometryRender F) : Bool :=
  decide (g.lightColor ≠ g.world.lightColor) || decide (g.lightPos ≠ g.world.lightPos) ||
    decide (g.ambientColor ≠ g.world.ambientColor)

/-- The method `GeometryRender::handleProjection`: the renderer afterwards and the uploads;
`width` and `height` are the values of `width()` and `height()`. -/
def handleProjection (M : MathFns F) (width height : Int) (g : GeometryRender F) :
    GeometryRender F × List (Upload F) :=
  let updateCamera := false
  let r1 : Bool × GeometryRender F :=
    if g.camera.fov ≠ g.fov
    then (true, { g with camera := { g.camera with fov := g.fov } })
    else (updateCamera, g)
  let r2 : Bool × GeometryRender F :=
    if r1.2.camera.farplane ≠ r1.2.farplane
    then (true, { r1.2 with camera := { r1.2.camera with farplane := r1.2.farplane } })
    else r1
  let r3 : Bool × GeometryRender F :=
    if r2.2.camera.top ≠ r2.2.top
    then (true, { r2.2 with camera := { r2.2.camera with top := r2.2.top } })
    else r2
  let r4 : Bool × GeometryRender F :=
    if r3.2.camera.obliqueAngleRad ≠ r3.2.obliqueAngleRad
    then (true,
      { r3.2 with camera := { r3.2.camera with obliqueAngleRad := r3.2.obliqueAngleRad } })
    else r3
  let r5 : Bool × GeometryRender F :=
    if r4.2.camera.obliqueScale ≠ r4.2.obliqueScale
    then (true, { r4.2 with camera := { r4.2.camera with obliqueScale := r4.2.obliqueScale } })
    else r4
  if r5.1 then
    let p := r5.2.camera.sendProjUpload M width height r5.2.projMode
    ({ r5.2 with camera := p.1 }, p.2)
  else (r5.2, [])

/-- The method `GeometryRender::rotateEarth`. -/
def rotateEarth (M : MathFns F) (g : GeometryRender F) : GeometryRender F :=
  { g with
    object := { g.object with
      modelMat :=
        g.object.modelMat.map (fun m => Mat4.rotate M m (radians (4 / 10)) ⟨0, 1, 0⟩) }
    modelChanged := true }

/-- The method `GeometryRender::display`: the renderer afterwards and the values passed to the
GL, in order; `width` and `height` are the values of `width()` and `height()`. -/
def display (M : MathFns F) (width height : Int) (g : GeometryRender F) :
    GeometryRender F × List (Upload F) :=
  let g1 :=
    if g.object.objFileName = "sphere_large.obj" ∧ g.object.textureShow = true ∧
      g.object.textureFileName = "erf.jpg"
    then g.rotateEarth M else g
  let r2 : GeometryRender F × List (Upload F) :=
    if g1.firstRun = true then
      let g2 := { g1 with firstRun := false }
      let p := g2.camera.sendProjUpload M width height g2.projMode
      let v := p.1.sendView M
      ({ g2 with camera := v.1 }, p.2 ++ v.2 ++ g2.world.sendScene ++ g2.object.sendModel true)
    else (g1, [])
  let r3 := r2.1.handleMaterial
  let hasSentMaterial := r3.1
  let r4 : GeometryRender F × List (Upload F) :=
    if r3.2.1.modelChanged = true then
      ({ r3.2.1 with modelChanged := false },
        if !hasSentMaterial then r3.2.1.object.sendModel false else [])
    else (r3.2.1, [])
  let useTextureValue := r4.1.object.textureShow
  let r5 : GeometryRender F × List (Upload F) :=
    if r4.1.viewChanged = true then
      let v := r4.1.camera.sendView M
      ({ r4.1 with camera := v.1, viewChanged := false }, v.2)
    else (r4.1, [])
  let r6 := r5.1.handleProjection M width height
  (r6.1, r2.2 ++ r3.2.2 ++ r4.2 ++ [.useTexture useTextureValue] ++ r5.2 ++ r6.2 ++
    [.drawElements r6.1.object.getIndices])

end GeometryRender

/-- What happens between and at frames: a camera operation, a request for another object (the
GUI sets `objFilePath` and `objFileName` and calls `changeObject`), or a frame. -/
inductive Step (F : Type) where
  | camera (op : CameraOp F)
  | changeObject (objFilePath objFileName : String)
  | display

/-- One step of the renderer. -/
def GeometryRender.step (M : MathFns F) (fs : String → ObjReader F) (fuel : Nat)
    (width height : Int) (g : GeometryRender F) : Step F → Except Fault (GeometryRender F)
  | .camera op => .ok (g.applyCameraOp M op)
  | .changeObject objFilePath objFileName =>
    GeometryRender.changeObject M fs fuel
      { g with objFilePath := objFilePath, objFileName := objFileName }
  | .display => .ok (g.display M width height).1

/-- A sequence of steps of the renderer, in order. -/
def GeometryRender.run (M : MathFns F) (fs : String → ObjReader F) (fuel : Nat)
    (width height : Int) : GeometryRender F → List (Step F) → Except Fault (GeometryRender F)
  | g, [] => .ok g
  | g, s :: rest =>
    match g.step M fs fuel width height s with
    | .error e => .error e
    | .ok g1 => GeometryRender.run M fs fuel width height g1 rest

/-- The upload is the model matrix. -/
def Upload.isModel : Upload F → Bool
  | .model _ => true
  | _ => false

/-- The upload is the projection matrix. -/
def Upload.isProjection : Upload F → Bool
  | .projection _ => true
  | _ => false

/-- The upload is one of the three lighting uniforms of the scene. -/
def Upload.isScene : Upload F → Bool
  | .ambientColor _ => true
  | .lightColor _ => true
  | .lightPos _ => true
  | _ => false

/-- The camera of `g1` is the camera of `g` with `eye` and `center` moved by one and the same
offset: `center - eye`, `up`, `yaw`, `pitch` and the projection parameters are those of `g`. -/
def RigidMove (g g1 : GeometryRender F) : Prop :=
  (∃ offset : Vec3 F, g1.camera.eye = g.camera.eye.add offset ∧
      g1.camera.center = g.camera.center.add offset) ∧
    g1.camera.center.sub g1.camera.eye = g.camera.center.sub g.camera.eye ∧
    g1.camera.up = g.camera.up ∧ g1.camera.yaw = g.camera.yaw ∧
    g1.camera.pitch = g.camera.pitch ∧ g1.camera.fov = g.camera.fov ∧
    g1.camera.farplane = g.camera.farplane ∧ g1.camera.top = g.camera.top ∧
    g1.camera.obliqueScale = g.camera.obliqueScale ∧
    g1.camera.obliqueAngleRad = g.camera.obliqueAngleRad ∧
    g1.camera.projectionMatrix = g.camera.projectionMatrix ∧ g1.projMode = g.projMode

end Field

/-! ## Vocabulary of the frame -/

section Field

variable {F : Type} [LinearOrderedField F]

namespace GeometryRender

/-- The condition of lines 297-298 of `display` under which the earth turns. -/
def showsEarth (g : GeometryRender F) : Prop :=
  g.object.objFileName = "sphere_large.obj" ∧ g.object.textureShow = true ∧
    g.object.textureFileName = "erf.jpg"

/-- One of the four material values of the GUI differs from the model's. -/
def materialDiffers (g : GeometryRender F) : Prop :=
  g.object.materialDiffuse ≠ g.materialDiffuse ∨ g.object.materialAmbient ≠ g.materialAmbient ∨
    g.object.materialSpecular ≠ g.materialSpecular ∨
    g.object.materialShininess ≠ g.materialShininess

/-- One of the five projection parameters of the GUI differs from the camera's. -/
def projectionDiffers (g : GeometryRender F) : Prop :=
  g.camera.fov ≠ g.fov ∨ g.camera.farplane ≠ g.farplane ∨ g.camera.top ≠ g.top ∨
    g.camera.obliqueAngleRad ≠ g.obliqueAngleRad ∨ g.camera.obliqueScale ≠ g.obliqueScale

/-- The view matrix is up to date, or a flag is set that makes the next frame recompute it. -/
def ViewCurrent (M : MathFns F) (g : GeometryRender F) : Prop :=
  g.firstRun = true ∨ g.viewChanged = true ∨
    g.camera.viewMatrix = lookAt M g.camera.eye g.camera.center g.camera.up

/-- Lines 297-298 of `display`. -/
def displayEarth (M : MathFns F) (g : GeometryRender F) : GeometryRender F :=
  if g.object.objFileName = "sphere_large.obj" ∧ g.object.textureShow = true ∧
    g.object.textureFileName = "erf.jpg"
  then g.rotateEarth M else g

/-- Lines 304-311 of `display`. -/
def displayFirstRun (M : MathFns F) (width height : Int) (g : GeometryRender F) :
    GeometryRender F × List (Upload F) :=
  if g.firstRun = true then
    let g2 := { g with firstRun := false }
    let p := g2.camera.sendProjUpload M width height g2.projMode
    let v := p.1.sendView M
    ({ g2 with camera := v.1 }, p.2 ++ v.2 ++ g2.world.sendScene ++ g2.object.sendModel true)
  else (g, [])

/-- Lines 313-320 of `display`. -/
def displayModel (g : GeometryRender F) : GeometryRender F × List (Upload F) :=
  let r3 := g.handleMaterial
  let r4 : GeometryRender F × List (Upload F) :=
    if r3.2.1.modelChanged = true then
      ({ r3.2.1 with modelChanged := false },
        if !r3.1 then r3.2.1.object.sendModel false else [])
    else (r3.2.1, [])
  (r4.1, r3.2.2 ++ r4.2)

/-- Lines 333-336 of `display`. -/
def displayView (M : MathFns F) (g : GeometryRender F) : GeometryRender F × List (Upload F) :=
  if g.viewChanged = true then
    let v := g.camera.sendView M
    ({ g with camera := v.1, viewChanged := false }, v.2)
  else (g, [])

end GeometryRender

end Field

section Field

variable {F : Type} [LinearOrderedField F]

instance GeometryRender.showsEarth.decidable (g : GeometryRender F) : Decidable g.showsEarth := by
  unfold GeometryRender.showsEarth
  infer_instance

instance GeometryRender.materialDiffers.decidable (g : GeometryRender F) :
    Decidable g.materialDiffers := by
  unfold GeometryRender.materialDiffers
  infer_instance

instance GeometryRender.projectionDiffers.decidable (g : GeometryRender F) :
    Decidable g.projectionDiffers := by
  unfold GeometryRender.projectionDiffers
  infer_instance

/-- The camera with the five projection parameters of the GUI. -/
def GeometryRender.guiCamera (g : GeometryRender F) : Camera F :=
  { g.camera with
    fov := g.fov
    farplane := g.farplane
    top := g.top
    obliqueAngleRad := g.obliqueAngleRad
    obliqueScale := g.obliqueScale }

end Field

/-! ## Binary32 arithmetic

The camera code of `geometryrender.cpp` once more, with every arithmetic operation rounded to
`float` (IEEE 754 binary32, round to nearest, ties to even).  Each operation is rounded on its
own: no product and sum are fused.  A `float` is the rational that it denotes; overflow to
infinity is not modelled (the values met here are below `2^9` in magnitude). -/

namespace Binary32

/-- Rounding to the nearest integer, ties to even. -/
def roundHalfEven (x : ℚ) : ℤ :=
  if x - ⌊x⌋ < 1 / 2 then ⌊x⌋
  else if 1 / 2 < x - ⌊x⌋ then ⌊x⌋ + 1
  else if ⌊x⌋ % 2 = 0 then ⌊x⌋ else ⌊x⌋ + 1

/-- The number of binary digits of `n`; the first argument bounds the recursion. -/
def bitLength : Nat → Nat → Nat
  | 0, _ => 0
  | fuel + 1, n => if n = 0 then 0 else bitLength fuel (n / 2) + 1

/-- The exponent `e` with `2^e <= |x| < 2^(e+1)`, and -126 for zero and in the subnormal
range. -/
def binade (x : ℚ) : ℤ :=
  let e0 : ℤ := (bitLength x.num.natAbs x.num.natAbs : ℤ) - (bitLength x.den x.den : ℤ)
  let e := if (2 : ℚ) ^ e0 ≤ |x| then e0 else e0 - 1
  max e (-126)

/-- The `float` nearest to `x`: the multiple of `2^(e-23)` nearest to `x`, ties to even, where
`e` is the exponent of `x`. -/
def round (x : ℚ) : ℚ :=
  (roundHalfEven (x / 2 ^ (binade x - 23)) : ℚ) * 2 ^ (binade x - 23)

/-- The sum `a + b` of two `float`s. -/
def add (a b : ℚ) : ℚ := round (a + b)

/-- The difference `a - b` of two `float`s. -/
def sub (a b : ℚ) : ℚ := round (a - b)

/-- The product `a * b` of two `float`s. -/
def mul (a b : ℚ) : ℚ := round (a * b)

/-- The quotient `a / b` of two `float`s. -/
def div (a b : ℚ) : ℚ := round (a / b)

/-- The integer square root by bisection over the bits `b - 1, ..., 0`. -/
def sqrtBits : Nat → Nat → Nat → Nat
  | 0, _, r => r
  | b + 1, n, r => sqrtBits b n (if (r + 2 ^ b) * (r + 2 ^ b) ≤ n then r + 2 ^ b else r)

/-- The function `std::sqrt(float)`, which IEEE 754 rounds correctly: the square root is
located between two neighbours on the grid of step `2^-60` (for arguments below `2^8`), and no
`float` and no midpoint of two `float`s lies strictly between them. -/
def sqrt (x : ℚ) : ℚ :=
  round ((sqrtBits 64 ⌊x * 4 ^ 60⌋.toNat 0 : ℚ) / 2 ^ 60 + 1 / 2 ^ 61)

/-- The partial sum `x - x^3/3! + x^5/5! - ...` of `n` terms of the sine series. -/
def sinSeries (x : ℚ) : Nat → ℚ
  | 0 => 0
  | n + 1 => sinSeries x n + (-1) ^ n * x ^ (2 * n + 1) / ((2 * n + 1).factorial : ℚ)

/-- The partial sum `1 - x^2/2! + x^4/4! - ...` of `n` terms of the cosine series. -/
def cosSeries (x : ℚ) : Nat → ℚ
  | 0 => 0
  | n + 1 => cosSeries x n + (-1) ^ n * x ^ (2 * n) / ((2 * n).factorial : ℚ)

/-- A model of `std::sin(float)`: 24 terms of the series, rounded; for `|x| <= 7` the series
is within `10^-19` of the sine. -/
def sin (x : ℚ) : ℚ := round (sinSeries x 24)

/-- A model of `std::cos(float)`: 24 terms of the series, rounded; for `|x| <= 7` the series
is within `10^-19` of the cosine. -/
def cos (x : ℚ) : ℚ := round (cosSeries x 24)

/-- The function `glm::radians(float)`: `degrees * 0.01745329251994329576923690768489f`. -/
def radians (degrees : ℚ) : ℚ :=
  mul degrees (round (1745329251994329576923690768489 / 100000000000000000000000000000000))

/-- The function `glm::mod(float, float)`: `x - y * floor(x / y)`. -/
def mod (x y : ℚ) : ℚ := sub x (mul y (⌊div x y⌋ : ℤ))

/-- Component-wise `operator+` of `glm::vec3`. -/
def vadd (a b : Vec3 ℚ) : Vec3 ℚ := ⟨add a.x b.x, add a.y b.y, add a.z b.z⟩

/-- Component-wise `operator-` of `glm::vec3`. -/
def vsub (a b : Vec3 ℚ) : Vec3 ℚ := ⟨sub a.x b.x, sub a.y b.y, sub a.z b.z⟩

/-- Scaling `v * s` of `glm::vec3`. -/
def smul (v : Vec3 ℚ) (s : ℚ) : Vec3 ℚ := ⟨mul v.x s, mul v.y s, mul v.z s⟩

/-- The product `glm::dot`: `(a.x * b.x + a.y * b.y) + a.z * b.z`. -/
def dot (a b : Vec3 ℚ) : ℚ := add (add (mul a.x b.x) (mul a.y b.y)) (mul a.z b.z)

/-- The product `glm::cross`. -/
def cross (a b : Vec3 ℚ) : Vec3 ℚ :=
  ⟨sub (mul a.y b.z) (mul b.y a.z), sub (mul a.z b.x) (mul b.z a.x),
    sub (mul a.x b.y) (mul b.x a.y)⟩

/-- The function `glm::normalize`: `v * inversesqrt(dot(v, v))` with
`inversesqrt(x) = 1 / sqrt(x)`. -/
def normalize (v : Vec3 ℚ) : Vec3 ℚ := smul v (div 1 (sqrt (dot v v)))

/-- The vector `front` of `calculateCameraDirection` before it is normalised (lines 598-600). -/
def forwardVector (yaw pitch : ℚ) : Vec3 ℚ :=
  ⟨mul (cos (radians yaw)) (cos (radians pitch)), sin (radians pitch),
    mul (sin (radians yaw)) (cos (radians pitch))⟩

/-- The method `GeometryRender::calculateCameraDirection`. -/
def calculateCameraDirection (g : GeometryRender ℚ) : GeometryRender ℚ :=
  let front : Vec3 ℚ :=
    ⟨mul (cos (radians g.camera.yaw)) (cos (radians g.camera.pitch)),
      sin (radians g.camera.pitch),
      mul (sin (radians g.camera.yaw)) (cos (radians g.camera.pitch))⟩
  let front := normalize front
  { g with
    camera := { g.camera with
      center := vadd g.camera.eye front
      up := cross (cross front ⟨0, 1, 0⟩) front }
    viewChanged := true }

/-- The method `GeometryRender::rotateCameraUp`. -/
def rotateCameraUp (dy : ℚ) (g : GeometryRender ℚ) : GeometryRender ℚ :=
  let g1 := { g with camera := { g.camera with pitch := sub g.camera.pitch dy } }
  let g2 := { g1 with camera := { g1.camera with pitch := mod g1.camera.pitch 360 } }
  { calculateCameraDirection g2 with viewChanged := true }

/-- The method `GeometryRender::rotateCameraDown`. -/
def rotateCameraDown (dy : ℚ) (g : GeometryRender ℚ) : GeometryRender ℚ :=
  let g1 := { g with camera := { g.camera with pitch := add g.camera.pitch dy } }
  let g2 := { g1 with camera := { g1.camera with pitch := mod g1.camera.pitch 360 } }
  { calculateCameraDirection g2 with viewChanged := true }

/-- The method `GeometryRender::rotateCameraLeft`. -/
def rotateCameraLeft (dx : ℚ) (g : GeometryRender ℚ) : GeometryRender ℚ :=
  let g1 := { g with camera := { g.camera with yaw := add g.camera.yaw dx } }
  let g2 := { g1 with camera := { g1.camera with yaw := mod g1.camera.yaw 360 } }
  { calculateCameraDirection g2 with viewChanged := true }

/-- The method `GeometryRender::rotateCameraRight`. -/
def rotateCameraRight (dx : ℚ) (g : GeometryRender ℚ) : GeometryRender ℚ :=
  let g1 := { g with camera := { g.camera with yaw := sub g.camera.yaw dx } }
  let g2 := { g1 with camera := { g1.camera with yaw := mod g1.camera.yaw 360 } }
  { calculateCameraDirection g2 with viewChanged := true }

/-- The common end of the six `moveCamera*` methods: `camera.eye += movement;
camera.center += movement; viewChanged = true`. -/
def translateCamera (movement : Vec3 ℚ) (g : GeometryRender ℚ) : GeometryRender ℚ :=
  { g with
    camera := { g.camera with
      eye := vadd g.camera.eye movement
      center := vadd g.camera.center movement }
    viewChanged := true }

/-- The method `GeometryRender::moveCameraForwards`; `MOVE_CAMERA_UNIT` is `0.05f`. -/
def moveCameraForwards (g : GeometryRender ℚ) : GeometryRender ℚ :=
  let forward := normalize (vsub g.camera.center g.camera.eye)
  translateCamera (smul forward (round MOVE_CAMERA_UNIT)) g

end Binary32

/-! # Properties -/

set_option linter.unusedSectionVars false

/-! ## Bounding box and normalisation scale -/

section Field

variable {F : Type} [LinearOrderedField F]

theorem floatLowest_le_floatMax : (floatLowest : F) ≤ floatMax := by
  unfold floatLowest floatMax; norm_num

theorem foldl_max_ge_init (l : List F) (a : F) : a ≤ l.foldl max a := by
  induction l generalizing a with
  | nil => simp
  | cons b l ih => exact le_trans (le_max_left a b) (ih (max a b))

theorem foldl_max_ge_mem (l : List F) (a x : F) (hx : x ∈ l) : x ≤ l.foldl max a := by
  induction l generalizing a with
  | nil => simp at hx
  | cons b l ih =>
    rcases List.mem_cons.mp hx with h | h
    · subst h; exact le_trans (le_max_right a x) (foldl_max_ge_init l (max a x))
    · exact ih (max a b) h

theorem foldl_max_le (l : List F) (a hi : F) (ha : a ≤ hi) (hub : ∀ x ∈ l, x ≤ hi) :
    l.foldl max a ≤ hi := by
  induction l generalizing a with
  | nil => simpa using ha
  | cons b l ih =>
    exact ih (max a b) (max_le ha (hub b (List.mem_cons_self b l)))
      (fun x hx => hub x (List.mem_cons_of_mem b hx))

theorem foldl_min_le_init (l : List F) (a : F) : l.foldl min a ≤ a := by
  induction l generalizing a with
  | nil => simp
  | cons b l ih => exact le_trans (ih (min a b)) (min_le_left a b)

theorem foldl_min_le_mem (l : List F) (a x : F) (hx : x ∈ l) : l.foldl min a ≤ x := by
  induction l generalizing a with
  | nil => simp at hx
  | cons b l ih =>
    rcases List.mem_cons.mp hx with h | h
    · subst h; exact le_trans (foldl_min_le_init l (min a x)) (min_le_right a x)
    · exact ih (min a b) h

theorem le_foldl_min (l : List F) (a lo : F) (ha : lo ≤ a) (hlb : ∀ x ∈ l, lo ≤ x) :
    lo ≤ l.foldl min a := by
  induction l generalizing a with
  | nil => simpa using ha
  | cons b l ih =>
    exact ih (min a b) (le_min ha (hlb b (List.mem_cons_self b l)))
      (fun x hx => hlb x (List.mem_cons_of_mem b hx))

/-- The extrema that the loop of `insertVertices` leaves are the running maxima and minima of
the three coordinate lists, and the positions are appended in order. -/
theorem insertVerticesLoop_positionsArray (vs : List (Vec3 F)) (e : Extent F)
    (acc : List (Vec3 F)) :
    insertVerticesLoop (positionsArray vs) e acc =
      (⟨(vs.map (·.x)).foldl max e.xMax, (vs.map (·.x)).foldl min e.xMin,
        (vs.map (·.y)).foldl max e.yMax, (vs.map (·.y)).foldl min e.yMin,
        (vs.map (·.z)).foldl max e.zMax, (vs.map (·.z)).foldl min e.zMin⟩, acc ++ vs) := by
  induction vs generalizing e acc with
  | nil => simp [positionsArray, insertVerticesLoop]
  | cons v vs ih => simp [positionsArray, insertVerticesLoop, ih]

/-- The extrema found by `insertVertices` are the faces of the bounding box. -/
theorem extent_eq_of_isBoundingBox (vs : List (Vec3 F)) (lo hi : Vec3 F)
    (hrange : ∀ v ∈ vs, InFloatRange v) (hbox : IsBoundingBox vs lo hi) (acc : List (Vec3 F)) :
    (insertVerticesLoop (positionsArray vs) Extent.start acc).1 =
      ⟨hi.x, lo.x, hi.y, lo.y, hi.z, lo.z⟩ := by
  obtain ⟨hin, ⟨⟨a, ha, hax⟩, ⟨b, hb, hbx⟩⟩, ⟨⟨c, hc, hcy⟩, ⟨d, hd, hdy⟩⟩,
    ⟨⟨p, hp, hpz⟩, ⟨q, hq, hqz⟩⟩⟩ := hbox
  rw [insertVerticesLoop_positionsArray]
  simp only [Extent.start, Extent.mk.injEq]
  refine ⟨?_, ?_, ?_, ?_, ?_, ?_⟩
  · apply le_antisymm
    · apply foldl_max_le
      · rw [← hbx]; exact (hrange b hb).1.1
      · intro x hx
        obtain ⟨v, hv, rfl⟩ := List.mem_map.mp hx
        exact (hin v hv).1.2
    · rw [← hbx]; exact foldl_max_ge_mem _ _ _ (List.mem_map_of_mem _ hb)
  · apply le_antisymm
    · rw [← hax]; exact foldl_min_le_mem _ _ _ (List.mem_map_of_mem _ ha)
    · apply le_foldl_min
      · rw [← hax]; exact (hrange a ha).1.2
      · intro x hx
        obtain ⟨v, hv, rfl⟩ := List.mem_map.mp hx
        exact (hin v hv).1.1
  · apply le_antisymm
    · apply foldl_max_le
      · rw [← hdy]; exact (hrange d hd).2.1.1
      · intro x hx
        obtain ⟨v, hv, rfl⟩ := List.mem_map.mp hx
        exact (hin v hv).2.1.2
    · rw [← hdy]; exact foldl_max_ge_mem _ _ _ (List.mem_map_of_mem _ hd)
  · apply le_antisymm
    · rw [← hcy]; exact foldl_min_le_mem _ _ _ (List.mem_map_of_mem _ hc)
    · apply le_foldl_min
      · rw [← hcy]; exact (hrange c hc).2.1.2
      · intro x hx
        obtain ⟨v, hv, rfl⟩ := List.mem_map.mp hx
        exact (hin v hv).2.1.1
  · apply le_antisymm
    · apply foldl_max_le
      · rw [← hqz]; exact (hrange q hq).2.2.1
      · intro x hx
        obtain ⟨v, hv, rfl⟩ := List.mem_map.mp hx
        exact (hin v hv).2.2.2
    · rw [← hqz]; exact foldl_max_ge_mem _ _ _ (List.mem_map_of_mem _ hq)
  · apply le_antisymm
    · rw [← hpz]; exact foldl_min_le_mem _ _ _ (List.mem_map_of_mem _ hp)
    · apply le_foldl_min
      · rw [← hpz]; exact (hrange p hp).2.2.2
      · intro x hx
        obtain ⟨v, hv, rfl⟩ := List.mem_map.mp hx
        exact (hin v hv).2.2.1

/-- Scaling a box by a non-negative factor scales its largest side. -/
theorem largestSide_smul (lo hi : Vec3 F) (s : F) (hs : 0 ≤ s) :
    largestSide (lo.smul s) (hi.smul s) = s * largestSide lo hi := by
  have h1 : ∀ a b : F, a * s - b * s = s * (a - b) := fun a b => by ring
  simp only [largestSide, Vec3.smul, h1]
  rw [mul_max_of_nonneg _ _ hs, mul_max_of_nonneg _ _ hs]

/-- The scale returned by `insertVertices` is the inverse of the largest side of the bounding
box. -/
theorem insertVertices_scale_of_isBoundingBox (m : Model F) (vs : List (Vec3 F))
    (lo hi : Vec3 F) (hflat : m.reader.attrib.vertices = positionsArray vs)
    (hrange : ∀ v ∈ vs, InFloatRange v) (hbox : IsBoundingBox vs lo hi)
    (hL : 0 < largestSide lo hi) :
    ∃ s : F, (insertVertices m).2 = some ⟨s, s, s⟩ ∧ s * largestSide lo hi = 1 ∧
      s * (hi.x - lo.x) ≤ 1 ∧ s * (hi.y - lo.y) ≤ 1 ∧ s * (hi.z - lo.z) ≤ 1 ∧
      largestSide (lo.smul s) (hi.smul s) = 1 := by
  have hne : largestSide lo hi ≠ 0 := ne_of_gt hL
  have hs : (0 : F) < 1 / largestSide lo hi := one_div_pos.mpr hL
  have hscalar : (insertVerticesLoop (positionsArray vs) Extent.start m.vertices).1.scalar =
      largestSide lo hi := by
    rw [extent_eq_of_isBoundingBox vs lo hi hrange hbox]; rfl
  refine ⟨1 / largestSide lo hi, ?_, ?_, ?_, ?_, ?_, ?_⟩
  · simp only [insertVertices, hflat, Extent.scale, hscalar, if_neg hne]
  · field_simp
  · rw [one_div, inv_mul_le_iff₀ hL, mul_one]; exact le_max_left _ _
  · rw [one_div, inv_mul_le_iff₀ hL, mul_one]
    exact le_trans (le_max_left _ _) (le_max_right _ _)
  · rw [one_div, inv_mul_le_iff₀ hL, mul_one]
    exact le_trans (le_max_right _ _) (le_max_right _ _)
  · rw [largestSide_smul lo hi _ hs.le]; field_simp

/-- C1: for a non-empty list of finite positions whose bounding box has a positive largest
side `L`, `Model::insertVertices` returns the uniform vector `(s, s, s)` with `s * L = 1`;
scaled by `s`, no side of the box exceeds 1 and the largest side is exactly 1. -/
theorem insertVertices_scale_mul_largestSide (m : Model F) (vs : List (Vec3 F))
    (lo hi : Vec3 F) (hflat : m.reader.attrib.vertices = positionsArray vs)
    (hrange : ∀ v ∈ vs, InFloatRange v) (hbox : IsBoundingBox vs lo hi)
    (hL : 0 < largestSide lo hi) :
    ∃ s : F, (insertVertices m).2 = some ⟨s, s, s⟩ ∧ s * largestSide lo hi = 1 ∧
      s * (hi.x - lo.x) ≤ 1 ∧ s * (hi.y - lo.y) ≤ 1 ∧ s * (hi.z - lo.z) ≤ 1 ∧
      largestSide (lo.smul s) (hi.smul s) = 1 :=
  insertVertices_scale_of_isBoundingBox m vs lo hi hflat hrange hbox hL

end Field

/-- A run of C1 on the octahedron, whose bounding box is `[-1, 1]^3`. -/
theorem insertVertices_scale_mul_largestSide_witness :
    ∃ s : ℚ, (insertVertices (meshModel octahedron)).2 = some ⟨s, s, s⟩ ∧
      s * largestSide (⟨-1, -1, -1⟩ : Vec3 ℚ) ⟨1, 1, 1⟩ = 1 ∧
      s * ((1 : ℚ) - -1) ≤ 1 ∧ s * ((1 : ℚ) - -1) ≤ 1 ∧ s * ((1 : ℚ) - -1) ≤ 1 ∧
      largestSide ((⟨-1, -1, -1⟩ : Vec3 ℚ).smul s) ((⟨1, 1, 1⟩ : Vec3 ℚ).smul s) = 1 :=
  insertVertices_scale_mul_largestSide (meshModel octahedron) octahedron ⟨-1, -1, -1⟩ ⟨1, 1, 1⟩ rfl
    (by simp [octahedron, InFloatRange, floatLowest, floatMax]; norm_num)
    (by simp [octahedron, IsBoundingBox])
    (by norm_num [largestSide])

section Field

variable {F : Type} [LinearOrderedField F]

/-- C9 (amended): for every mesh whose positions lie on the unit sphere and whose bounding box
is `[-1, 1]^3`, `Model::insertVertices` returns the scale `(1/2, 1/2, 1/2)`. -/
theorem insertVertices_unit_sphere_scale (m : Model F) (vs : List (Vec3 F))
    (hflat : m.reader.attrib.vertices = positionsArray vs)
    (_hsphere : ∀ v ∈ vs, v.normSq = 1)
    (hbox : IsBoundingBox vs ⟨-1, -1, -1⟩ ⟨1, 1, 1⟩) :
    (insertVertices m).2 = some ⟨1 / 2, 1 / 2, 1 / 2⟩ := by
  have hrange : ∀ v ∈ vs, InFloatRange v := by
    intro v hv
    have h := hbox.1 v hv
    dsimp only at h
    simp only [InFloatRange, floatLowest, floatMax]
    refine ⟨⟨?_, ?_⟩, ⟨?_, ?_⟩, ⟨?_, ?_⟩⟩ <;> linarith [h.1.1, h.1.2, h.2.1.1, h.2.1.2, h.2.2.1, h.2.2.2]
  have hL : largestSide (⟨-1, -1, -1⟩ : Vec3 F) ⟨1, 1, 1⟩ = 2 := by
    norm_num [largestSide]
  obtain ⟨s, hs, hmul, -⟩ := insertVertices_scale_of_isBoundingBox m vs _ _ hflat hrange hbox
    (by rw [hL]; norm_num)
  rw [hL] at hmul
  have : s = 1 / 2 := by linarith
  rw [hs, this]

end Field

/-- A run of the amended C9 on the octahedron. -/
theorem insertVertices_unit_sphere_scale_witness :
    (insertVertices (meshModel octahedron)).2 = some ⟨1 / 2, 1 / 2, 1 / 2⟩ :=
  insertVertices_unit_sphere_scale (meshModel octahedron) octahedron rfl
    (by simp [octahedron, Vec3.normSq, Vec3.dot])
    (by simp [octahedron, IsBoundingBox])

/-- C9 as stated fails: the octahedron lies on the unit sphere and has the bounding box
`[-1, 1]^3`, and `Model::insertVertices` returns the scale 1/2, not 1. -/
theorem insertVertices_unit_sphere_scale_ne_one :
    (∀ v ∈ octahedron, v.normSq = 1) ∧ IsBoundingBox octahedron ⟨-1, -1, -1⟩ ⟨1, 1, 1⟩ ∧
      (insertVertices (meshModel octahedron)).2 = some ⟨1 / 2, 1 / 2, 1 / 2⟩ ∧
      (insertVertices (meshModel octahedron)).2 ≠ some ⟨1, 1, 1⟩ := by
  have h : (insertVertices (meshModel octahedron)).2 = some ⟨1 / 2, 1 / 2, 1 / 2⟩ := by
    simp [insertVertices, meshModel, meshReader, octahedron, positionsArray,
      insertVerticesLoop, Extent.start, Extent.scale, Extent.scalar, floatLowest, floatMax]
    norm_num
  refine ⟨by simp [octahedron, Vec3.normSq, Vec3.dot], by simp [octahedron, IsBoundingBox], h, ?_⟩
  rw [h]; simp

/-! ## Fields of the intermediate models -/

section Field

variable {F : Type} [LinearOrderedField F]

@[simp] theorem parsedModel_objFileName (fs : String → ObjReader F) (m : Model F) :
    (parsedModel fs m).objFileName = m.objFileName := rfl

@[simp] theorem parsedModel_objFilePath (fs : String → ObjReader F) (m : Model F) :
    (parsedModel fs m).objFilePath = m.objFilePath := rfl

@[simp] theorem parsedModel_latestObj (fs : String → ObjReader F) (m : Model F) :
    (parsedModel fs m).latestObj = m.latestObj := rfl

@[simp] theorem parsedModel_modelMat (fs : String → ObjReader F) (m : Model F) :
    (parsedModel fs m).modelMat = m.modelMat := rfl

@[simp] theorem parsedModel_textureFileName (fs : String → ObjReader F) (m : Model F) :
    (parsedModel fs m).textureFileName = m.textureFileName := rfl

@[simp] theorem parsedModel_textureFilePath (fs : String → ObjReader F) (m : Model F) :
    (parsedModel fs m).textureFilePath = m.textureFilePath := rfl

@[simp] theorem parsedModel_textureShow (fs : String → ObjReader F) (m : Model F) :
    (parsedModel fs m).textureShow = m.textureShow := rfl

@[simp] theorem parsedModel_materialAmbient (fs : String → ObjReader F) (m : Model F) :
    (parsedModel fs m).materialAmbient = m.materialAmbient := rfl

@[simp] theorem parsedModel_materialDiffuse (fs : String → ObjReader F) (m : Model F) :
    (parsedModel fs m).materialDiffuse = m.materialDiffuse := rfl

@[simp] theorem parsedModel_materialSpecular (fs : String → ObjReader F) (m : Model F) :
    (parsedModel fs m).materialSpecular = m.materialSpecular := rfl

@[simp] theorem parsedModel_materialShininess (fs : String → ObjReader F) (m : Model F) :
    (parsedModel fs m).materialShininess = m.materialShininess := rfl

@[simp] theorem parsedModel_vertices (fs : String → ObjReader F) (m : Model F) :
    (parsedModel fs m).vertices = m.vertices := rfl

@[simp] theorem parsedModel_normals (fs : String → ObjReader F) (m : Model F) :
    (parsedModel fs m).normals = m.normals := rfl

@[simp] theorem parsedModel_indices (fs : String → ObjReader F) (m : Model F) :
    (parsedModel fs m).indices = m.indices := rfl

@[simp] theorem parsedModel_texCoords (fs : String → ObjReader F) (m : Model F) :
    (parsedModel fs m).texCoords = m.texCoords := rfl

@[simp] theorem parsedModel_reader (fs : String → ObjReader F) (m : Model F) :
    (parsedModel fs m).reader = fs (m.objFilePath ++ m.objFileName) := rfl

@[simp] theorem parsedModel_console (fs : String → ObjReader F) (m : Model F) :
    (parsedModel fs m).console = m.console ++ parseOutput (fs (m.objFilePath ++ m.objFileName)) := rfl

@[simp] theorem clearGeometry_objFileName (m : Model F) : (clearGeometry m).objFileName = m.objFileName := rfl

@[simp] theorem clearGeometry_objFilePath (m : Model F) : (clearGeometry m).objFilePath = m.objFilePath := rfl

@[simp] theorem clearGeometry_latestObj (m : Model F) : (clearGeometry m).latestObj = m.latestObj := rfl

@[simp] theorem clearGeometry_modelMat (m : Model F) : (clearGeometry m).modelMat = m.modelMat := rfl

@[simp] theorem clearGeometry_textureFileName (m : Model F) : (clearGeometry m).textureFileName = m.textureFileName := rfl

@[simp] theorem clearGeometry_textureFilePath (m : Model F) : (clearGeometry m).textureFilePath = m.textureFilePath := rfl

@[simp] theorem clearGeometry_textureShow (m : Model F) : (clearGeometry m).textureShow = m.textureShow := rfl

@[simp] theorem clearGeometry_materialAmbient (m : Model F) : (clearGeometry m).materialAmbient = m.materialAmbient := rfl

@[simp] theorem clearGeometry_materialDiffuse (m : Model F) : (clearGeometry m).materialDiffuse = m.materialDiffuse := rfl

@[simp] theorem clearGeometry_materialSpecular (m : Model F) : (clearGeometry m).materialSpecular = m.materialSpecular := rfl

@[simp] theorem clearGeometry_materialShininess (m : Model F) : (clearGeometry m).materialShininess = m.materialShininess := rfl

@[simp] theorem clearGeometry_vertices (m : Model F) : (clearGeometry m).vertices = [] := rfl

@[simp] theorem clearGeometry_normals (m : Model F) : (clearGeometry m).normals = [] := rfl

@[simp] theorem clearGeometry_indices (m : Model F) : (clearGeometry m).indices = [] := rfl

@[simp] theorem clearGeometry_texCoords (m : Model F) : (clearGeometry m).texCoords = [] := rfl

@[simp] theorem clearGeometry_reader (m : Model F) : (clearGeometry m).reader = m.reader := rfl

@[simp] theorem clearGeometry_console (m : Model F) : (clearGeometry m).console = m.console := rfl

@[simp] theorem loadedModel_objFileName (M : MathFns F) (load_error : Bool) (m : Model F)
    (idx : List Nat) (ns : List (Vec3 F)) :
    (loadedModel M load_error m idx ns).objFileName = m.objFileName := rfl

@[simp] theorem loadedModel_objFilePath (M : MathFns F) (load_error : Bool) (m : Model F)
    (idx : List Nat) (ns : List (Vec3 F)) :
    (loadedModel M load_error m idx ns).objFilePath = m.objFilePath := rfl

@[simp] theorem loadedModel_latestObj (M : MathFns F) (load_error : Bool) (m : Model F)
    (idx : List Nat) (ns : List (Vec3 F)) :
    (loadedModel M load_error m idx ns).latestObj = m.latestObj := rfl

@[simp] theorem loadedModel_modelMat (M : MathFns F) (load_error : Bool) (m : Model F)
    (idx : List Nat) (ns : List (Vec3 F)) :
    (loadedModel M load_error m idx ns).modelMat = (insertVerticesLoop m.reader.attrib.vertices Extent.start m.vertices).1.scale.map (Mat4.scale Mat4.identity) := rfl

@[simp] theorem loadedModel_textureFileName (M : MathFns F) (load_error : Bool) (m : Model F)
    (idx : List Nat) (ns : List (Vec3 F)) :
    (loadedModel M load_error m idx ns).textureFileName = m.textureFileName := rfl

@[simp] theorem loadedModel_textureShow (M : MathFns F) (load_error : Bool) (m : Model F)
    (idx : List Nat) (ns : List (Vec3 F)) :
    (loadedModel M load_error m idx ns).textureShow = m.textureShow := rfl

@[simp] theorem loadedModel_materialAmbient (M : MathFns F) (load_error : Bool) (m : Model F)
    (idx : List Nat) (ns : List (Vec3 F)) :
    (loadedModel M load_error m idx ns).materialAmbient = m.materialAmbient := rfl

@[simp] theorem loadedModel_materialDiffuse (M : MathFns F) (load_error : Bool) (m : Model F)
    (idx : List Nat) (ns : List (Vec3 F)) :
    (loadedModel M load_error m idx ns).materialDiffuse = m.materialDiffuse := rfl

@[simp] theorem loadedModel_materialSpecular (M : MathFns F) (load_error : Bool) (m : Model F)
    (idx : List Nat) (ns : List (Vec3 F)) :
    (loadedModel M load_error m idx ns).materialSpecular = m.materialSpecular := rfl

@[simp] theorem loadedModel_materialShininess (M : MathFns F) (load_error : Bool) (m : Model F)
    (idx : List Nat) (ns : List (Vec3 F)) :
    (loadedModel M load_error m idx ns).materialShininess = m.materialShininess := rfl

@[simp] theorem loadedModel_vertices (M : MathFns F) (load_error : Bool) (m : Model F)
    (idx : List Nat) (ns : List (Vec3 F)) :
    (loadedModel M load_error m idx ns).vertices = (insertVerticesLoop m.reader.attrib.vertices Extent.start m.vertices).2 := rfl

@[simp] theorem loadedModel_normals (M : MathFns F) (load_error : Bool) (m : Model F)
    (idx : List Nat) (ns : List (Vec3 F)) :
    (loadedModel M load_error m idx ns).normals = ns := rfl

@[simp] theorem loadedModel_indices (M : MathFns F) (load_error : Bool) (m : Model F)
    (idx : List Nat) (ns : List (Vec3 F)) :
    (loadedModel M load_error m idx ns).indices = idx := rfl

@[simp] theorem loadedModel_reader (M : MathFns F) (load_error : Bool) (m : Model F)
    (idx : List Nat) (ns : List (Vec3 F)) :
    (loadedModel M load_error m idx ns).reader = m.reader := rfl

theorem loadedModel_texCoords_length (M : MathFns F) (load_error : Bool) (m : Model F)
    (idx : List Nat) (ns : List (Vec3 F)) :
    (loadedModel M load_error m idx ns).texCoords.length =
      m.texCoords.length + (insertVerticesLoop m.reader.attrib.vertices Extent.start m.vertices).2.length := by
  simp only [loadedModel]
  split <;> simp

theorem loadedModel_console (M : MathFns F) (load_error : Bool) (m : Model F)
    (idx : List Nat) (ns : List (Vec3 F)) :
    ∃ out, (loadedModel M load_error m idx ns).console =
      m.console ++ out ++ [if load_error then .failedToLoad m.objFileName
        else .loadedSuccessfully m.objFileName] :=
  ⟨readerStateOutput m.reader ++ [.handlingTexture
    ((if m.textureFilePath.length ≠ 0 then m.textureFilePath ++ "/"
      else m.textureFilePath) ++ m.textureFileName)], by simp [loadedModel]⟩

end Field

/-! ## The control flow of `loadGeometry` -/

section Field

variable {F : Type} [LinearOrderedField F]

/-- The second loop of `insertNormals` changes no entry. -/
theorem normalizePass_eq (M : MathFns F) (normals : List (Vec3 F)) :
    normalizePass M normals = normals := by
  simp [normalizePass]

/-- The pipeline of `loadGeometry` after `checkOBJ` succeeds exactly when the two index loops
stay inside their arrays, and then the loaded model is the one written out here. -/
theorem finishLoad_eq_ok_iff (M : MathFns F) (load_error : Bool) (m m1 : Model F) :
    finishLoad M load_error m = .ok m1 ↔
      ∃ shape rest idx ns, m.reader.shapes = shape :: rest ∧
        insertIndicesLoop shape.mesh.num_face_vertices shape.mesh.indices m.indices = .ok idx ∧
        insertNormalsLoop
          (insertVerticesLoop m.reader.attrib.vertices Extent.start m.vertices).2 idx
          (resize m.normals
            (insertVerticesLoop m.reader.attrib.vertices Extent.start m.vertices).2.length) =
          .ok ns ∧
        m1 = loadedModel M load_error m idx ns := by
  simp only [finishLoad, insertVertices, insertIndices, loadedModel]
  cases hsh : m.reader.shapes with
  | nil => simp
  | cons shape rest =>
    simp only
    cases hidx : insertIndicesLoop shape.mesh.num_face_vertices shape.mesh.indices m.indices with
    | error e => simp [hidx]
    | ok idx =>
      simp only [insertNormals, accumulateNormals, normalizePass_eq]
      cases hns : insertNormalsLoop
          (insertVerticesLoop m.reader.attrib.vertices Extent.start m.vertices).2 idx
          (resize m.normals
            (insertVerticesLoop m.reader.attrib.vertices Extent.start m.vertices).2.length) with
      | error e => simp [hidx, hns]
      | ok ns =>
        simp only [handleTextures, Model.print]
        by_cases htp : m.textureFilePath.length ≠ 0 <;> by_cases hle : load_error = true <;>
          simp [htp, hle, hidx, hns, eq_comm]

/-- The reader returned by `OBJLoaderInit` is the parse of `objFilePath + objFileName`. -/
theorem OBJLoaderInit_fst (fs : String → ObjReader F) (m : Model F) :
    (OBJLoaderInit fs m).1 = fs (m.objFilePath ++ m.objFileName) := rfl

/-- The method `OBJLoaderInit` changes nothing but the console. -/
theorem OBJLoaderInit_snd (fs : String → ObjReader F) (m : Model F) :
    (OBJLoaderInit fs m).2 =
      { m with console := m.console ++ parseOutput (fs (m.objFilePath ++ m.objFileName)) } := rfl

/-- When the reader has positions and a shape, `checkOBJ` returns true and changes nothing. -/
theorem checkOBJ_of_nonempty (M : MathFns F) (fs : String → ObjReader F) (fuel : Nat)
    (m : Model F) (hv : m.reader.attrib.vertices ≠ []) (hs : m.reader.shapes ≠ []) :
    checkOBJ M fs (fuel + 1) m = .ok (true, m) := by
  simp [checkOBJ, hv, hs]

/-- When the parse of `objFilePath + objFileName` has no error and yields positions and a shape,
`loadGeometry` runs the pipeline on that reader. -/
theorem loadGeometry_of_parsed (M : MathFns F) (fs : String → ObjReader F) (fuel : Nat)
    (m : Model F) (herr : (fs (m.objFilePath ++ m.objFileName)).error = "")
    (hv : (fs (m.objFilePath ++ m.objFileName)).attrib.vertices ≠ [])
    (hs : (fs (m.objFilePath ++ m.objFileName)).shapes ≠ []) :
    loadGeometry M fs (fuel + 2) m = finishLoad M false (parsedModel fs m) := by
  rw [loadGeometry]
  simp only [OBJLoaderInit_fst, OBJLoaderInit_snd, parsedModel, herr, ne_eq, not_true_eq_false, decide_False,
    Bool.false_eq_true, if_false]
  rw [checkOBJ_of_nonempty M fs fuel _ hv hs]

end Field

/-! ## The loops of `insertIndices` and `insertNormals` -/

section Field

variable {F : Type} [LinearOrderedField F]

theorem resize_length (normals : List (Vec3 F)) (n : Nat) : (resize normals n).length = n := by
  simp only [resize, List.length_append, List.length_take, List.length_replicate]
  omega

/-- With three entries per face the loop of `insertIndices` appends the converted entries. -/
theorem insertIndicesLoop_ok (faces : List Nat) (idxs : List index_t) (acc : List Nat)
    (h : 3 * faces.length ≤ idxs.length) :
    insertIndicesLoop faces idxs acc =
      .ok (acc ++ (idxs.take (3 * faces.length)).map (fun i => toUnsigned i.vertex_index)) := by
  induction faces generalizing idxs acc with
  | nil => simp [insertIndicesLoop]
  | cons f faces ih =>
    match idxs, h with
    | a :: b :: c :: rest, h =>
      simp only [List.length_cons] at h
      rw [insertIndicesLoop, ih rest _ (by omega)]
      have : 3 * (faces.length + 1) = 3 * faces.length + 3 := by ring
      simp [this, List.take_succ_cons]
    | [], h => simp at h
    | [_], h => simp at h; omega
    | [_, _], h => simp at h; omega

theorem addAt_ok (normals : List (Vec3 F)) (k : Nat) (fn : Vec3 F) (hk : k < normals.length) :
    addAt normals k fn = .ok (normals.set k ((normals.getD k Vec3.zero).add fn)) := by
  simp [addAt, List.getElem?_eq_getElem hk, List.getD_eq_getElem?_getD]

theorem addAt_eq_ok (normals ns : List (Vec3 F)) (k : Nat) (fn : Vec3 F)
    (h : addAt normals k fn = .ok ns) : k < normals.length ∧ ns.length = normals.length := by
  unfold addAt at h
  split at h
  · rename_i n hn
    have hk : k < normals.length := by
      by_contra hc
      rw [List.getElem?_eq_none (not_lt.mp hc)] at hn
      cases hn
    cases h
    exact ⟨hk, by simp⟩
  · cases h

theorem faceNormal_ok (vertices : List (Vec3 F)) (a b c : Nat) (ha : a < vertices.length)
    (hb : b < vertices.length) (hc : c < vertices.length) :
    faceNormal vertices a b c =
      .ok (((vertices.getD b Vec3.zero).sub (vertices.getD a Vec3.zero)).cross
        ((vertices.getD c Vec3.zero).sub (vertices.getD a Vec3.zero))) := by
  simp [faceNormal, List.getElem?_eq_getElem ha, List.getElem?_eq_getElem hb,
    List.getElem?_eq_getElem hc, List.getD_eq_getElem?_getD]

/-- The first loop of `insertNormals` keeps the length of `normals`. -/
theorem insertNormalsLoop_length (vertices : List (Vec3 F)) (n : Nat) :
    ∀ (idx : List Nat) (normals ns : List (Vec3 F)), idx.length ≤ n →
      insertNormalsLoop vertices idx normals = .ok ns → ns.length = normals.length := by
  induction n with
  | zero =>
    intro idx normals ns hlen h
    have : idx = [] := List.length_eq_zero.mp (Nat.le_zero.mp hlen)
    subst this
    simp [insertNormalsLoop] at h
    rw [h]
  | succ n ih =>
    intro idx normals ns hlen h
    match idx, hlen, h with
    | [], _, h => simp [insertNormalsLoop] at h; rw [h]
    | [_], _, h => simp [insertNormalsLoop] at h
    | [_, _], _, h => simp [insertNormalsLoop] at h
    | a :: b :: c :: rest, hlen, h =>
      rw [insertNormalsLoop] at h
      cases hf : faceNormal vertices a b c with
      | error e => simp [hf] at h
      | ok fn =>
        cases h1 : addAt normals a fn with
        | error e => simp [hf, h1] at h
        | ok n1 =>
          cases h2 : addAt n1 b fn with
          | error e => simp [hf, h1, h2] at h
          | ok n2 =>
            cases h3 : addAt n2 c fn with
            | error e => simp [hf, h1, h2, h3] at h
            | ok n3 =>
              simp only [hf, h1, h2, h3] at h
              have := ih rest n3 ns (by simp at hlen; omega) h
              rw [this, (addAt_eq_ok _ _ _ _ h3).2, (addAt_eq_ok _ _ _ _ h2).2,
                (addAt_eq_ok _ _ _ _ h1).2]

/-- The first loop of `insertNormals` stays inside its arrays when the indices come in triples
and each is below the number of vertices. -/
theorem insertNormalsLoop_ok (vertices : List (Vec3 F)) (n : Nat) :
    ∀ (idx : List Nat) (normals : List (Vec3 F)), idx.length = 3 * n →
      (∀ k ∈ idx, k < vertices.length) → normals.length = vertices.length →
      ∃ ns, insertNormalsLoop vertices idx normals = .ok ns ∧ ns.length = vertices.length := by
  induction n with
  | zero =>
    intro idx normals hlen _ hn
    have : idx = [] := List.length_eq_zero.mp (by omega)
    subst this
    exact ⟨normals, by simp [insertNormalsLoop], hn⟩
  | succ n ih =>
    intro idx normals hlen hval hn
    match idx, hlen, hval with
    | [], hlen, _ => simp at hlen
    | [_], hlen, _ => simp at hlen; omega
    | [_, _], hlen, _ => simp at hlen; omega
    | a :: b :: c :: rest, hlen, hval =>
      have ha : a < vertices.length := hval a (by simp)
      have hb : b < vertices.length := hval b (by simp)
      have hc : c < vertices.length := hval c (by simp)
      rw [insertNormalsLoop, faceNormal_ok vertices a b c ha hb hc]
      simp only
      rw [addAt_ok _ a _ (by omega)]
      simp only
      rw [addAt_ok _ b _ (by simp; omega)]
      simp only
      rw [addAt_ok _ c _ (by simp; omega)]
      simp only
      exact ih rest _ (by simp at hlen; omega) (fun k hk => hval k (by simp [hk])) (by simp [hn])

end Field

/-! ## The divisor of the normalisation scale -/

section Field

variable {F : Type} [LinearOrderedField F]

theorem Vec3.eq_iff_components (a b : Vec3 F) : a = b ↔ a.x = b.x ∧ a.y = b.y ∧ a.z = b.z := by
  cases a; cases b; simp

/-- The divisor of `insertVertices` is never negative on a non-empty mesh. -/
theorem scalar_nonneg (v0 : Vec3 F) (rest acc : List (Vec3 F)) :
    0 ≤ (insertVerticesLoop (positionsArray (v0 :: rest)) Extent.start acc).1.scalar := by
  rw [insertVerticesLoop_positionsArray]
  simp only [Extent.scalar]
  apply le_trans _ (le_max_left _ _)
  have h1 := foldl_max_ge_mem ((v0 :: rest).map (·.x)) (Extent.start : Extent F).xMax v0.x
    (List.mem_map_of_mem _ (List.mem_cons_self _ _))
  have h2 := foldl_min_le_mem ((v0 :: rest).map (·.x)) (Extent.start : Extent F).xMin v0.x
    (List.mem_map_of_mem _ (List.mem_cons_self _ _))
  linarith

/-- The divisor of `insertVertices` is zero exactly when all positions coincide. -/
theorem scalar_eq_zero_iff (v0 : Vec3 F) (rest acc : List (Vec3 F))
    (hrange : ∀ v ∈ v0 :: rest, InFloatRange v) :
    (insertVerticesLoop (positionsArray (v0 :: rest)) Extent.start acc).1.scalar = 0 ↔
      ∀ v ∈ v0 :: rest, v = v0 := by
  constructor
  · intro h0 v hv
    rw [insertVerticesLoop_positionsArray] at h0
    simp only [Extent.scalar] at h0
    have hx : _ ≤ (0 : F) := h0 ▸ le_max_left _ _
    have hy : _ ≤ (0 : F) := h0 ▸ le_trans (le_max_left _ _) (le_max_right _ _)
    have hz : _ ≤ (0 : F) := h0 ▸ le_trans (le_max_right _ _) (le_max_right _ _)
    have h0mem : v0 ∈ v0 :: rest := List.mem_cons_self _ _
    rw [Vec3.eq_iff_components]
    refine ⟨?_, ?_, ?_⟩
    · have a1 := foldl_max_ge_mem ((v0 :: rest).map (·.x)) (Extent.start : Extent F).xMax v.x
        (List.mem_map_of_mem _ hv)
      have a2 := foldl_min_le_mem ((v0 :: rest).map (·.x)) (Extent.start : Extent F).xMin v.x
        (List.mem_map_of_mem _ hv)
      have b1 := foldl_max_ge_mem ((v0 :: rest).map (·.x)) (Extent.start : Extent F).xMax v0.x
        (List.mem_map_of_mem _ h0mem)
      have b2 := foldl_min_le_mem ((v0 :: rest).map (·.x)) (Extent.start : Extent F).xMin v0.x
        (List.mem_map_of_mem _ h0mem)
      linarith
    · have a1 := foldl_max_ge_mem ((v0 :: rest).map (·.y)) (Extent.start : Extent F).yMax v.y
        (List.mem_map_of_mem _ hv)
      have a2 := foldl_min_le_mem ((v0 :: rest).map (·.y)) (Extent.start : Extent F).yMin v.y
        (List.mem_map_of_mem _ hv)
      have b1 := foldl_max_ge_mem ((v0 :: rest).map (·.y)) (Extent.start : Extent F).yMax v0.y
        (List.mem_map_of_mem _ h0mem)
      have b2 := foldl_min_le_mem ((v0 :: rest).map (·.y)) (Extent.start : Extent F).yMin v0.y
        (List.mem_map_of_mem _ h0mem)
      linarith
    · have a1 := foldl_max_ge_mem ((v0 :: rest).map (·.z)) (Extent.start : Extent F).zMax v.z
        (List.mem_map_of_mem _ hv)
      have a2 := foldl_min_le_mem ((v0 :: rest).map (·.z)) (Extent.start : Extent F).zMin v.z
        (List.mem_map_of_mem _ hv)
      have b1 := foldl_max_ge_mem ((v0 :: rest).map (·.z)) (Extent.start : Extent F).zMax v0.z
        (List.mem_map_of_mem _ h0mem)
      have b2 := foldl_min_le_mem ((v0 :: rest).map (·.z)) (Extent.start : Extent F).zMin v0.z
        (List.mem_map_of_mem _ h0mem)
      linarith
  · intro hall
    have hbox : IsBoundingBox (v0 :: rest) v0 v0 := by
      refine ⟨fun v hv => ?_, ⟨⟨v0, List.mem_cons_self _ _, rfl⟩, ⟨v0, List.mem_cons_self _ _, rfl⟩⟩,
        ⟨⟨v0, List.mem_cons_self _ _, rfl⟩, ⟨v0, List.mem_cons_self _ _, rfl⟩⟩,
        ⟨⟨v0, List.mem_cons_self _ _, rfl⟩, ⟨v0, List.mem_cons_self _ _, rfl⟩⟩⟩
      rw [hall v hv]; simp
    rw [extent_eq_of_isBoundingBox _ v0 v0 hrange hbox]
    simp [Extent.scalar]

end Field

section Field

variable {F : Type} [LinearOrderedField F]

/-- C6: on a non-empty mesh of finite positions the divisor `max(sizeX, sizeY, sizeZ)` of
`Model::insertVertices` is zero exactly when all positions are identical and positive as soon
as two differ; `loadGeometry` does not check for this: a mesh of one position passes `checkOBJ`,
is loaded and reported as loaded, and its model matrix comes from a division by zero. -/
theorem insertVertices_divisor_zero_iff (M : MathFns F) (fs : String → ObjReader F)
    (fuel : Nat) (m : Model F) (v0 : Vec3 F) (rest : List (Vec3 F))
    (hflat : m.reader.attrib.vertices = positionsArray (v0 :: rest))
    (hrange : ∀ v ∈ v0 :: rest, InFloatRange v) :
    ((insertVerticesLoop m.reader.attrib.vertices Extent.start m.vertices).1.scalar = 0 ↔
        ∀ v ∈ v0 :: rest, v = v0) ∧
      ((∃ a ∈ v0 :: rest, ∃ b ∈ v0 :: rest, a ≠ b) →
        0 < (insertVerticesLoop m.reader.attrib.vertices Extent.start m.vertices).1.scalar) ∧
      ((insertVertices m).2 = none ↔ ∀ v ∈ v0 :: rest, v = v0) ∧
      ∀ m1 : Model F, fs (m1.objFilePath ++ m1.objFileName) = meshReader [v0] [(0, 0, 0)] →
        ∃ m2, changeObject M fs (fuel + 3) m1 = .ok m2 ∧ m2.vertices = [v0] ∧
          m2.modelMat = none ∧ Output.loadedSuccessfully m1.objFileName ∈ m2.console := by
  have hiff := scalar_eq_zero_iff v0 rest m.vertices hrange
  rw [hflat]
  refine ⟨hiff, ?_, ?_, ?_⟩
  · rintro ⟨a, ha, b, hb, hab⟩
    apply lt_of_le_of_ne (scalar_nonneg v0 rest m.vertices)
    intro h0
    have hall := hiff.mp h0.symm
    exact hab ((hall a ha).trans (hall b hb).symm)
  · rw [← hiff]
    simp only [insertVertices, hflat, Extent.scale]
    split <;> simp_all
  · intro m1 hfs
    have hr0 : ∀ v ∈ [v0], InFloatRange v := fun v hv => by
      rw [List.mem_singleton.mp hv]; exact hrange v0 (List.mem_cons_self _ _)
    have hz := (scalar_eq_zero_iff v0 [] [] hr0).mpr (fun v hv => List.mem_singleton.mp hv)
    have hpath : (clearGeometry m1).objFilePath ++ (clearGeometry m1).objFileName =
        m1.objFilePath ++ m1.objFileName := rfl
    have hreader : (parsedModel fs (clearGeometry m1)).reader = meshReader [v0] [(0, 0, 0)] := hfs
    have hV : (insertVerticesLoop (parsedModel fs (clearGeometry m1)).reader.attrib.vertices
        Extent.start (parsedModel fs (clearGeometry m1)).vertices).2 = [v0] := by
      rw [hreader]
      exact congrArg Prod.snd (insertVerticesLoop_positionsArray [v0] (Extent.start : Extent F) [])
    have hidx : insertIndicesLoop [3]
        [⟨((0 : Nat) : Int), -1, -1⟩, ⟨((0 : Nat) : Int), -1, -1⟩, ⟨((0 : Nat) : Int), -1, -1⟩]
        (parsedModel fs (clearGeometry m1)).indices = .ok [0, 0, 0] := by
      simp [insertIndicesLoop, toUnsigned]
    obtain ⟨ns, hns, -⟩ := insertNormalsLoop_ok [v0] 1 [0, 0, 0] (resize [] 1) rfl
      (by simp) (resize_length _ _)
    rw [changeObject, loadGeometry_of_parsed M fs fuel _ (by rw [hpath, hfs]; rfl)
      (by rw [hpath, hfs]; simp [meshReader, positionsArray]) (by rw [hpath, hfs]; simp [meshReader])]
    refine ⟨_, (finishLoad_eq_ok_iff M false _ _).mpr ⟨_, [], [0, 0, 0], ns,
      by rw [hreader]; rfl, hidx, ?_, rfl⟩, ?_, ?_, ?_⟩
    · rw [hV]; exact hns
    · rw [loadedModel_vertices, hV]
    · rw [loadedModel_modelMat, hreader]
      simp only [meshReader, parsedModel_vertices, clearGeometry_vertices, Extent.scale, hz]; rfl
    · obtain ⟨out, hout⟩ := loadedModel_console M false (parsedModel fs (clearGeometry m1))
        [0, 0, 0] ns
      rw [hout]; simp

end Field

/-- A run of C6 on a mesh of two identical positions: the divisor is zero. -/
theorem insertVertices_divisor_zero_iff_witness :
    (insertVerticesLoop (meshModel [⟨1, 2, 3⟩, ⟨1, 2, 3⟩]).reader.attrib.vertices Extent.start
      (meshModel [⟨1, 2, 3⟩, ⟨1, 2, 3⟩]).vertices).1.scalar = 0 ∧
      (insertVertices (meshModel [⟨1, 2, 3⟩, ⟨1, 2, 3⟩])).2 = none :=
  have h := insertVertices_divisor_zero_iff sampleMath (fun _ => missingFile) 0
    (meshModel [⟨1, 2, 3⟩, ⟨1, 2, 3⟩]) ⟨1, 2, 3⟩ [⟨1, 2, 3⟩] rfl
    (by simp [InFloatRange, floatLowest, floatMax]; norm_num)
  ⟨h.1.mpr (by simp), h.2.2.1.mpr (by simp)⟩

/-! ## Accumulated normals -/

section Field

variable {F : Type} [LinearOrderedField F]

theorem getD_set_of_lt (l : List (Vec3 F)) (k i : Nat) (v d : Vec3 F) (hk : k < l.length) :
    (l.set k v).getD i d = if k = i then v else l.getD i d := by
  by_cases h : k = i
  · subst h
    rw [if_pos rfl, List.getD_eq_getElem?_getD, List.getElem?_set_self hk]; rfl
  · rw [if_neg h, List.getD_eq_getElem?_getD, List.getD_eq_getElem?_getD,
      List.getElem?_set_ne h]

/-- What one iteration of the first loop of `insertNormals` adds to the entry `i`. -/
theorem foldl_add_corner (x fn : Vec3 F) (a b c i : Nat) (rest : List (Vec3 F)) :
    List.foldl Vec3.add x
        ((if a = i then [fn] else []) ++ (if b = i then [fn] else []) ++
          (if c = i then [fn] else []) ++ rest) =
      List.foldl Vec3.add
        (if c = i then (if b = i then (if a = i then x.add fn else x).add fn
            else (if a = i then x.add fn else x)).add fn
          else (if b = i then (if a = i then x.add fn else x).add fn
            else (if a = i then x.add fn else x))) rest := by
  by_cases ha : a = i <;> by_cases hb : b = i <;> by_cases hc : c = i <;> simp [ha, hb, hc]

/-- The first loop of `insertNormals` adds to every entry the cross products of the corners
that are this vertex, in the order of the triangles. -/
theorem insertNormalsLoop_trianglesArray (vertices : List (Vec3 F))
    (tris : List (Nat × Nat × Nat)) :
    ∀ normals : List (Vec3 F), (∀ k ∈ trianglesArray tris, k < vertices.length) →
      normals.length = vertices.length →
      ∃ ns, insertNormalsLoop vertices (trianglesArray tris) normals = .ok ns ∧
        ns.length = vertices.length ∧
        ∀ i, ns.getD i Vec3.zero =
          List.foldl Vec3.add (normals.getD i Vec3.zero) (cornerNormals vertices i tris) := by
  induction tris with
  | nil =>
    intro normals _ hn
    exact ⟨normals, by simp [trianglesArray, insertNormalsLoop], hn, by simp [cornerNormals]⟩
  | cons t ts ih =>
    intro normals hval hn
    obtain ⟨a, b, c⟩ := t
    have ha : a < vertices.length := hval a (by simp [trianglesArray])
    have hb : b < vertices.length := hval b (by simp [trianglesArray])
    have hc : c < vertices.length := hval c (by simp [trianglesArray])
    simp only [trianglesArray]
    rw [insertNormalsLoop, faceNormal_ok vertices a b c ha hb hc]
    simp only
    have hl1 : (normals.set a ((normals.getD a Vec3.zero).add (triangleCross vertices (a, b, c)))).length
        = vertices.length := by rw [List.length_set, hn]
    have hl2 : ∀ x, ((normals.set a ((normals.getD a Vec3.zero).add
        (triangleCross vertices (a, b, c)))).set b x).length = vertices.length :=
      fun x => by rw [List.length_set, hl1]
    have hl3 : ∀ x y, (((normals.set a ((normals.getD a Vec3.zero).add
        (triangleCross vertices (a, b, c)))).set b x).set c y).length = vertices.length :=
      fun x y => by rw [List.length_set, hl2]
    rw [show ((vertices.getD b Vec3.zero).sub (vertices.getD a Vec3.zero)).cross
      ((vertices.getD c Vec3.zero).sub (vertices.getD a Vec3.zero)) =
      triangleCross vertices (a, b, c) from rfl]
    rw [addAt_ok _ a _ (by omega)]
    simp only
    rw [addAt_ok _ b _ (by rw [hl1]; exact hb)]
    simp only
    rw [addAt_ok _ c _ (by rw [hl2]; exact hc)]
    simp only
    obtain ⟨ns, hns, hlen, hget⟩ := ih _ (fun k hk => hval k (by simp [trianglesArray, hk]))
      (hl3 _ _)
    refine ⟨ns, hns, hlen, fun i => ?_⟩
    rw [hget i, cornerNormals, foldl_add_corner]
    congr 1
    have e3 : ∀ (l : List (Vec3 F)) (k : Nat) (v : Vec3 F), l.length = vertices.length →
        k < vertices.length → (l.set k v).getD i Vec3.zero = if k = i then v else l.getD i Vec3.zero :=
      fun l k v hl hk => getD_set_of_lt l k i v _ (by rw [hl]; exact hk)
    rw [e3 _ c _ (hl2 _) hc, e3 _ b _ hl1 hb, e3 _ a _ hn ha]
    by_cases hai : a = i <;> by_cases hbi : b = i <;> by_cases hci : c = i <;>
      simp [hai, hbi, hci] <;> simp_all

theorem cornerNormals_eq_nil (vertices : List (Vec3 F)) (i : Nat)
    (tris : List (Nat × Nat × Nat)) (h : ∀ t ∈ tris, t.1 ≠ i ∧ t.2.1 ≠ i ∧ t.2.2 ≠ i) :
    cornerNormals vertices i tris = [] := by
  induction tris with
  | nil => rfl
  | cons t ts ih =>
    have ht := h t (List.mem_cons_self _ _)
    simp [cornerNormals, ht.1, ht.2.1, ht.2.2, ih (fun u hu => h u (List.mem_cons_of_mem _ hu))]

/-- C3: on a model whose `normals` are empty and whose index array is a list of triangles with
valid corners, the first loop of `Model::insertNormals` ends, and for every vertex `i` the
accumulated `normals[i]` is the sum, over the triangles `(a, b, c)` and their corners equal to
`i`, of the cross product `(v[b] - v[a]) x (v[c] - v[a])`; a vertex of no triangle keeps the
zero vector. -/
theorem accumulateNormals_eq_corner_sum (m : Model F) (tris : List (Nat × Nat × Nat))
    (hn : m.normals = []) (hidx : m.indices = trianglesArray tris)
    (hval : ∀ k ∈ m.indices, k < m.vertices.length) :
    ∃ acc, accumulateNormals m = .ok acc ∧ acc.length = m.vertices.length ∧
      (∀ i, i < m.vertices.length →
        acc[i]? = some (Vec3.sum (cornerNormals m.vertices i tris))) ∧
      (∀ i, i < m.vertices.length → (∀ t ∈ tris, t.1 ≠ i ∧ t.2.1 ≠ i ∧ t.2.2 ≠ i) →
        acc[i]? = some Vec3.zero) := by
  obtain ⟨acc, hacc, hlen, hget⟩ := insertNormalsLoop_trianglesArray m.vertices tris
    (resize m.normals m.vertices.length) (hidx ▸ hval) (resize_length _ _)
  have hsum : ∀ i, i < m.vertices.length →
      acc[i]? = some (Vec3.sum (cornerNormals m.vertices i tris)) := by
    intro i hi
    have h := hget i
    rw [List.getD_eq_getElem?_getD, List.getElem?_eq_getElem (by omega)] at h
    rw [List.getElem?_eq_getElem (by omega)]
    simp only [Option.getD_some] at h
    rw [h, Vec3.sum]
    congr 2
    simp [hn, resize, List.getD_eq_getElem?_getD, List.getElem?_replicate, hi]
  refine ⟨acc, ?_, hlen, hsum, fun i hi hno => ?_⟩
  · rw [accumulateNormals, hidx]; exact hacc
  · rw [hsum i hi, cornerNormals_eq_nil _ _ _ hno]; rfl

end Field

/-- A run of C3 on two triangles that share the corner 0. -/
theorem accumulateNormals_eq_corner_sum_witness :
    ∃ acc, accumulateNormals ({ (meshModel []) with
        vertices := [⟨0, 0, 0⟩, ⟨1, 0, 0⟩, ⟨0, 1, 0⟩, ⟨0, 0, 1⟩, ⟨5, 5, 5⟩]
        indices := [0, 1, 2, 0, 2, 3] } : Model ℚ) = .ok acc ∧
      acc[0]? = some ⟨1, 0, 1⟩ ∧ acc[1]? = some ⟨0, 0, 1⟩ ∧ acc[4]? = some ⟨0, 0, 0⟩ := by
  obtain ⟨acc, hacc, -, hsum, hzero⟩ := accumulateNormals_eq_corner_sum
    ({ (meshModel []) with
        vertices := [⟨0, 0, 0⟩, ⟨1, 0, 0⟩, ⟨0, 1, 0⟩, ⟨0, 0, 1⟩, ⟨5, 5, 5⟩]
        indices := [0, 1, 2, 0, 2, 3] } : Model ℚ)
    [(0, 1, 2), (0, 2, 3)] rfl rfl (by simp)
  refine ⟨acc, hacc, ?_, ?_, ?_⟩
  · rw [hsum 0 (by simp)]
    simp [cornerNormals, triangleCross, Vec3.sum, Vec3.add, Vec3.sub, Vec3.cross, Vec3.zero]
  · rw [hsum 1 (by simp)]
    simp [cornerNormals, triangleCross, Vec3.sum, Vec3.add, Vec3.sub, Vec3.cross, Vec3.zero]
  · rw [hzero 4 (by simp) (by simp)]; rfl

/-! ## Normals after a load -/

section Field

variable {F : Type} [LinearOrderedField F]

/-- C2 fails on the code: the value of every `glm::normalize` call in `Model::insertNormals`
is discarded, so the second loop changes nothing, and after `changeObject` has loaded the
triangle `(0,0,0) (2,0,0) (0,2,0)` every normal is `(0, 0, 4)`, of squared length 16. -/
theorem changeObject_normals_not_unit (M : MathFns F) (m0 : Model F) :
    (∀ ns : List (Vec3 F), normalizePass M ns = ns) ∧
      ∃ m, changeObject M
          (fun _ => meshReader [⟨0, 0, 0⟩, ⟨2, 0, 0⟩, ⟨0, 2, 0⟩] [(0, 1, 2)]) 3 m0 = .ok m ∧
        m.vertices = [⟨0, 0, 0⟩, ⟨2, 0, 0⟩, ⟨0, 2, 0⟩] ∧
        m.normals = [⟨0, 0, 4⟩, ⟨0, 0, 4⟩, ⟨0, 0, 4⟩] ∧
        ∀ n ∈ m.normals, n.normSq = 16 ∧ n.normSq ≠ 1 := by
  refine ⟨normalizePass_eq M, ?_⟩
  have hV : ∀ acc : List (Vec3 F), (insertVerticesLoop
      (positionsArray [(⟨0, 0, 0⟩ : Vec3 F), ⟨2, 0, 0⟩, ⟨0, 2, 0⟩]) Extent.start acc).2 =
      acc ++ [⟨0, 0, 0⟩, ⟨2, 0, 0⟩, ⟨0, 2, 0⟩] := fun acc => by
    rw [insertVerticesLoop_positionsArray]
  rw [changeObject, loadGeometry_of_parsed M _ 0 _ rfl (by simp [meshReader, positionsArray])
    (by simp [meshReader])]
  refine ⟨_, (finishLoad_eq_ok_iff M false _ _).mpr
    ⟨_, [], [0, 1, 2], [⟨0, 0, 4⟩, ⟨0, 0, 4⟩, ⟨0, 0, 4⟩], rfl, ?_, ?_, rfl⟩, ?_, ?_, ?_⟩
  · simp [meshReader, insertIndicesLoop, toUnsigned]
  · simp only [parsedModel_reader, parsedModel_vertices, parsedModel_normals,
      clearGeometry_vertices, clearGeometry_normals, meshReader, hV]
    simp [resize, insertNormalsLoop, faceNormal, addAt, Vec3.sub, Vec3.cross, Vec3.add,
      Vec3.zero]
    norm_num
  · simp only [loadedModel_vertices, parsedModel_reader, parsedModel_vertices,
      clearGeometry_vertices, meshReader, hV, List.nil_append]
  · rfl
  · intro n hn
    simp only [loadedModel_normals, List.mem_cons, List.mem_singleton, List.not_mem_nil,
      or_false, or_self] at hn
    subst hn
    norm_num [Vec3.normSq, Vec3.dot]

end Field

/-! ## The check of the reader -/

section Field

variable {F : Type} [LinearOrderedField F]

/-- Without positions `checkOBJ` reports it, resets the file name and reloads. -/
theorem checkOBJ_of_no_vertices (M : MathFns F) (fs : String → ObjReader F) (fuel : Nat)
    (m : Model F) (hv : m.reader.attrib.vertices = []) :
    checkOBJ M fs (fuel + 1) m =
      (changeObject M fs fuel
        { m.print (.noVertices m.latestObj) with objFileName := m.latestObj }).map
        (fun m2 => (false, m2)) := by
  rw [checkOBJ]
  simp only [hv, List.isEmpty_nil, if_true, Model.print]
  cases changeObject M fs fuel _ <;> rfl

/-- With positions and without a shape `checkOBJ` reports it, resets the file name and
reloads. -/
theorem checkOBJ_of_no_shapes (M : MathFns F) (fs : String → ObjReader F) (fuel : Nat)
    (m : Model F) (hv : m.reader.attrib.vertices ≠ []) (hs : m.reader.shapes = []) :
    checkOBJ M fs (fuel + 1) m =
      (changeObject M fs fuel
        { m.print (.noIndices m.latestObj) with objFileName := m.latestObj }).map
        (fun m2 => (false, m2)) := by
  rw [checkOBJ]
  simp only [List.isEmpty_eq_true, hv, hs, if_true, if_false, Model.print]
  cases changeObject M fs fuel _ <;> rfl

/-- A result of `checkOBJ` is true exactly when the reader has positions and a shape. -/
theorem checkOBJ_true_iff (M : MathFns F) (fs : String → ObjReader F) (fuel : Nat)
    (m m1 : Model F) (b : Bool) (h : checkOBJ M fs fuel m = .ok (b, m1)) :
    b = true ↔ m.reader.attrib.vertices ≠ [] ∧ m.reader.shapes ≠ [] := by
  cases fuel with
  | zero => simp [checkOBJ] at h
  | succ fuel =>
    by_cases hv : m.reader.attrib.vertices = []
    · rw [checkOBJ_of_no_vertices M fs fuel m hv] at h
      cases hc : changeObject M fs fuel
          { m.print (.noVertices m.latestObj) with objFileName := m.latestObj } with
      | error e => rw [hc] at h; cases h
      | ok m2 =>
        rw [hc] at h
        cases h
        simp [hv]
    · by_cases hs : m.reader.shapes = []
      · rw [checkOBJ_of_no_shapes M fs fuel m hv hs] at h
        cases hc : changeObject M fs fuel
            { m.print (.noIndices m.latestObj) with objFileName := m.latestObj } with
        | error e => rw [hc] at h; cases h
        | ok m2 =>
          rw [hc] at h
          cases h
          simp [hs]
      · rw [checkOBJ_of_nonempty M fs fuel m hv hs] at h
        cases h
        simp [hv, hs]

/-- C8: `Model::checkOBJ` returns true if and only if the reader has positions and a shape,
and then it changes nothing; without positions it writes "No vertices could be read", with
positions and without a shape "No indices could be read", and in both cases it sets
`objFileName` to `latestObj` and reloads through `changeObject` before it returns false. -/
theorem checkOBJ_spec (M : MathFns F) (fs : String → ObjReader F) (fuel : Nat) (m : Model F) :
    (∀ b m1, checkOBJ M fs fuel m = .ok (b, m1) →
        (b = true ↔ m.reader.attrib.vertices ≠ [] ∧ m.reader.shapes ≠ [])) ∧
      (m.reader.attrib.vertices ≠ [] → m.reader.shapes ≠ [] →
        checkOBJ M fs (fuel + 1) m = .ok (true, m)) ∧
      (m.reader.attrib.vertices = [] →
        checkOBJ M fs (fuel + 1) m =
          (changeObject M fs fuel
            { m.print (.noVertices m.latestObj) with objFileName := m.latestObj }).map
            (fun m2 => (false, m2))) ∧
      (m.reader.attrib.vertices ≠ [] → m.reader.shapes = [] →
        checkOBJ M fs (fuel + 1) m =
          (changeObject M fs fuel
            { m.print (.noIndices m.latestObj) with objFileName := m.latestObj }).map
            (fun m2 => (false, m2))) :=
  ⟨fun b m1 h => checkOBJ_true_iff M fs fuel m m1 b h, checkOBJ_of_nonempty M fs fuel m,
    checkOBJ_of_no_vertices M fs fuel m, checkOBJ_of_no_shapes M fs fuel m⟩

end Field

/-! ## Parallel arrays -/

section Field

variable {F : Type} [LinearOrderedField F]

/-- One step of `loadGeometry`: parse, `checkOBJ`, and the pipeline when the check passes. -/
theorem loadGeometry_succ (M : MathFns F) (fs : String → ObjReader F) (fuel : Nat)
    (m : Model F) :
    loadGeometry M fs (fuel + 1) m =
      match checkOBJ M fs fuel (checkedModel fs m) with
      | .error e => .error e
      | .ok (false, m3) => .ok m3
      | .ok (true, m3) =>
        finishLoad M (decide ((fs (m.objFilePath ++ m.objFileName)).error ≠ "")) m3 := by
  rw [loadGeometry]
  by_cases h : (fs (m.objFilePath ++ m.objFileName)).error = ""
  · simp [checkedModel, parsedModel, OBJLoaderInit, h]
  · simp [checkedModel, parsedModel, OBJLoaderInit, h]

theorem checkedModel_vertices (fs : String → ObjReader F) (m : Model F) :
    (checkedModel fs m).vertices = m.vertices := by
  unfold checkedModel; split <;> rfl

theorem checkedModel_normals (fs : String → ObjReader F) (m : Model F) :
    (checkedModel fs m).normals = m.normals := by
  unfold checkedModel; split <;> rfl

theorem checkedModel_indices (fs : String → ObjReader F) (m : Model F) :
    (checkedModel fs m).indices = m.indices := by
  unfold checkedModel; split <;> rfl

theorem checkedModel_texCoords (fs : String → ObjReader F) (m : Model F) :
    (checkedModel fs m).texCoords = m.texCoords := by
  unfold checkedModel; split <;> rfl

theorem checkedModel_reader (fs : String → ObjReader F) (m : Model F) :
    (checkedModel fs m).reader = fs (m.objFilePath ++ m.objFileName) := by
  unfold checkedModel; split <;> rfl

theorem checkedModel_latestObj (fs : String → ObjReader F) (m : Model F) :
    (checkedModel fs m).latestObj = m.latestObj := by
  unfold checkedModel; split <;> rfl

theorem checkedModel_objFilePath (fs : String → ObjReader F) (m : Model F) :
    (checkedModel fs m).objFilePath = m.objFilePath := by
  unfold checkedModel; split <;> rfl

/-- A true result of `checkOBJ` leaves the model as it was. -/
theorem checkOBJ_eq_ok_true (M : MathFns F) (fs : String → ObjReader F) (fuel : Nat)
    (m m1 : Model F) (h : checkOBJ M fs fuel m = .ok (true, m1)) :
    m1 = m ∧ m.reader.attrib.vertices ≠ [] ∧ m.reader.shapes ≠ [] := by
  have hne := (checkOBJ_true_iff M fs fuel m m1 true h).mp rfl
  cases fuel with
  | zero => simp [checkOBJ] at h
  | succ fuel =>
    rw [checkOBJ_of_nonempty M fs fuel m hne.1 hne.2] at h
    cases h
    exact ⟨rfl, hne⟩

/-- A false result of `checkOBJ` is the result of the reload through `changeObject`, entered
with `objFileName` set to `latestObj`. -/
theorem checkOBJ_eq_ok_false (M : MathFns F) (fs : String → ObjReader F) (fuel : Nat)
    (m m1 : Model F) (h : checkOBJ M fs fuel m = .ok (false, m1)) :
    ∃ fuel1 o, fuel = fuel1 + 1 ∧ (o = .noVertices m.latestObj ∨ o = .noIndices m.latestObj) ∧
      changeObject M fs fuel1 { m.print o with objFileName := m.latestObj } = .ok m1 := by
  have hne := (checkOBJ_true_iff M fs fuel m m1 false h).not.mp (by simp)
  cases fuel with
  | zero => simp [checkOBJ] at h
  | succ fuel =>
    by_cases hv : m.reader.attrib.vertices = []
    · rw [checkOBJ_of_no_vertices M fs fuel m hv] at h
      refine ⟨fuel, _, rfl, Or.inl rfl, ?_⟩
      cases hc : changeObject M fs fuel
          { m.print (.noVertices m.latestObj) with objFileName := m.latestObj } with
      | error e => rw [hc] at h; cases h
      | ok m2 => rw [hc] at h; cases h; rfl
    · have hs : m.reader.shapes = [] := by
        by_contra hs; exact hne ⟨hv, hs⟩
      rw [checkOBJ_of_no_shapes M fs fuel m hv hs] at h
      refine ⟨fuel, _, rfl, Or.inr rfl, ?_⟩
      cases hc : changeObject M fs fuel
          { m.print (.noIndices m.latestObj) with objFileName := m.latestObj } with
      | error e => rw [hc] at h; cases h
      | ok m2 => rw [hc] at h; cases h; rfl

/-- The pipeline of `loadGeometry`, entered without texture coordinates, leaves one normal and
one texture coordinate per vertex. -/
theorem finishLoad_parallel (M : MathFns F) (load_error : Bool) (m m1 : Model F)
    (ht : m.texCoords = []) (h : finishLoad M load_error m = .ok m1) :
    m1.normals.length = m1.vertices.length ∧ m1.vertices.length = m1.texCoords.length := by
  obtain ⟨shape, rest, idx, ns, -, -, hns, rfl⟩ := (finishLoad_eq_ok_iff M load_error m m1).mp h
  have hlen := insertNormalsLoop_length _ idx.length idx _ ns le_rfl hns
  rw [resize_length] at hlen
  refine ⟨hlen, ?_⟩
  rw [loadedModel_texCoords_length, ht]
  simp

/-- The parallel-array invariant after `loadGeometry` and after `changeObject`. -/
theorem load_parallel (M : MathFns F) (fs : String → ObjReader F) (fuel : Nat) :
    ∀ m m1 : Model F,
      (m.texCoords = [] → loadGeometry M fs fuel m = .ok m1 →
        m1.normals.length = m1.vertices.length ∧ m1.vertices.length = m1.texCoords.length) ∧
      (changeObject M fs fuel m = .ok m1 →
        m1.normals.length = m1.vertices.length ∧ m1.vertices.length = m1.texCoords.length) := by
  induction fuel using Nat.strong_induction_on with
  | _ fuel ih =>
    intro m m1
    cases fuel with
    | zero => exact ⟨fun _ h => by simp [loadGeometry] at h, fun h => by simp [changeObject] at h⟩
    | succ fuel =>
      refine ⟨fun ht h => ?_, fun h => ?_⟩
      · rw [loadGeometry_succ] at h
        cases hc : checkOBJ M fs fuel (checkedModel fs m) with
        | error e => rw [hc] at h; cases h
        | ok r =>
          obtain ⟨b, m3⟩ := r
          rw [hc] at h
          cases b with
          | false =>
            cases h
            obtain ⟨fuel1, o, rfl, -, hch⟩ := checkOBJ_eq_ok_false M fs fuel _ _ hc
            exact (ih fuel1 (by omega) _ _).2 hch
          | true =>
            obtain ⟨rfl, -, -⟩ := checkOBJ_eq_ok_true M fs fuel _ _ hc
            exact finishLoad_parallel M _ _ _ (by rw [checkedModel_texCoords, ht]) h
      · rw [changeObject] at h
        exact (ih fuel (by omega) _ _).1 rfl h

/-- C4: after the initial `loadGeometry`, after `Model::changeObject` and after
`Model::changeTextures`, whenever the operation completes, `normals`, `vertices` and
`texCoords` have the same length. -/
theorem parallel_arrays_after_load (M : MathFns F) (fs : String → ObjReader F) (fuel : Nat)
    (m m1 : Model F) :
    (loadGeometry M fs fuel Model.init = .ok m1 →
        m1.normals.length = m1.vertices.length ∧ m1.vertices.length = m1.texCoords.length) ∧
      (changeObject M fs fuel m = .ok m1 →
        m1.normals.length = m1.vertices.length ∧ m1.vertices.length = m1.texCoords.length) ∧
      (changeTextures M fs fuel m = .ok m1 →
        m1.normals.length = m1.vertices.length ∧ m1.vertices.length = m1.texCoords.length) :=
  ⟨(load_parallel M fs fuel Model.init m1).1 rfl, (load_parallel M fs fuel m m1).2,
    (load_parallel M fs fuel { m with texCoords := [] } m1).1 rfl⟩

end Field

/-! ## Validity of the indices -/

section Field

variable {F : Type} [LinearOrderedField F]

/-- The loop of `insertVertices` appends one position for every three entries. -/
theorem insertVerticesLoop_length (n : Nat) :
    ∀ (flat : List F) (e : Extent F) (acc : List (Vec3 F)), flat.length ≤ n →
      (insertVerticesLoop flat e acc).2.length = acc.length + flat.length / 3 := by
  induction n with
  | zero =>
    intro flat e acc h
    have : flat = [] := List.length_eq_zero.mp (Nat.le_zero.mp h)
    subst this
    simp [insertVerticesLoop]
  | succ n ih =>
    intro flat e acc h
    match flat, h with
    | [], _ => simp [insertVerticesLoop]
    | [_], _ => simp [insertVerticesLoop]
    | [_, _], _ => simp [insertVerticesLoop]
    | vx :: vy :: vz :: rest, h =>
      rw [insertVerticesLoop, ih rest _ _ (by simp at h; omega)]
      simp only [List.length_append, List.length_cons, List.length_nil]
      omega

/-- The conversion to `unsigned int` keeps a non-negative index below its bound. -/
theorem toUnsigned_lt (i : Int) (n : Nat) (h0 : 0 ≤ i) (hn : i < n) : toUnsigned i < n := by
  unfold toUnsigned
  omega

/-- A load of a well-formed parse completes: when the model holds whole triangles with valid
indices, the parse has no error and yields positions, and the first shape has three index
entries for every face, each within the positions, the pipeline runs to its end, appends the
converted entries and leaves only valid indices. -/
theorem loadGeometry_of_wellformed (M : MathFns F) (fs : String → ObjReader F) (fuel : Nat)
    (m : Model F) (shape : shape_t) (rest : List shape_t)
    (herr : (fs (m.objFilePath ++ m.objFileName)).error = "")
    (hv : (fs (m.objFilePath ++ m.objFileName)).attrib.vertices ≠ [])
    (hs : (fs (m.objFilePath ++ m.objFileName)).shapes = shape :: rest)
    (hfaces : 3 * shape.mesh.num_face_vertices.length ≤ shape.mesh.indices.length)
    (hrange : ∀ i ∈ shape.mesh.indices, 0 ≤ i.vertex_index ∧
      i.vertex_index < ((fs (m.objFilePath ++ m.objFileName)).attrib.vertices.length / 3 : Nat))
    (hentry : ∀ k ∈ m.indices, k < m.vertices.length) (hentry3 : 3 ∣ m.indices.length) :
    ∃ ns, loadGeometry M fs (fuel + 2) m =
        .ok (loadedModel M false (parsedModel fs m)
          (m.indices ++ (shape.mesh.indices.take (3 * shape.mesh.num_face_vertices.length)).map
            (fun i => toUnsigned i.vertex_index)) ns) ∧
      ∀ k ∈ m.indices ++ (shape.mesh.indices.take
          (3 * shape.mesh.num_face_vertices.length)).map (fun i => toUnsigned i.vertex_index),
        k < (insertVerticesLoop (fs (m.objFilePath ++ m.objFileName)).attrib.vertices
          Extent.start m.vertices).2.length := by
  have hVlen := insertVerticesLoop_length _ (fs (m.objFilePath ++ m.objFileName)).attrib.vertices
    Extent.start m.vertices le_rfl
  have hidx := insertIndicesLoop_ok shape.mesh.num_face_vertices shape.mesh.indices m.indices
    hfaces
  have hvalid : ∀ k ∈ m.indices ++ (shape.mesh.indices.take
      (3 * shape.mesh.num_face_vertices.length)).map (fun i => toUnsigned i.vertex_index),
      k < (insertVerticesLoop (fs (m.objFilePath ++ m.objFileName)).attrib.vertices
        Extent.start m.vertices).2.length := by
    intro k hk
    rw [hVlen]
    rcases List.mem_append.mp hk with h | h
    · exact Nat.lt_of_lt_of_le (hentry k h) (Nat.le_add_right _ _)
    · obtain ⟨i, hi, rfl⟩ := List.mem_map.mp h
      have hr := hrange i (List.mem_of_mem_take hi)
      exact Nat.lt_of_lt_of_le (toUnsigned_lt _ _ hr.1 hr.2) (Nat.le_add_left _ _)
  obtain ⟨q, hq⟩ := hentry3
  obtain ⟨ns, hns, -⟩ := insertNormalsLoop_ok
    (insertVerticesLoop (fs (m.objFilePath ++ m.objFileName)).attrib.vertices
      Extent.start m.vertices).2 (q + shape.mesh.num_face_vertices.length) _
    (resize m.normals _)
    (by simp only [List.length_append, List.length_map, List.length_take, hq]; omega)
    hvalid (resize_length _ _)
  rw [loadGeometry_of_parsed M fs fuel m herr hv (by rw [hs]; simp)]
  exact ⟨ns, (finishLoad_eq_ok_iff M false _ _).mpr ⟨shape, rest, _, ns, hs, hidx, hns, rfl⟩,
    hvalid⟩

/-- C5 (amended): when the model holds whole triangles with valid indices, the parse has no
error and yields positions, and the first shape has three index entries for every face, each
with `0 <= vertex_index < attrib.vertices.size() / 3`, then `loadGeometry` completes, so every
access of `insertNormals` is in bounds, and afterwards every element of `indices` is below
`vertices.size()`. -/
theorem loadGeometry_indices_valid (M : MathFns F) (fs : String → ObjReader F) (fuel : Nat)
    (m : Model F) (shape : shape_t) (rest : List shape_t)
    (herr : (fs (m.objFilePath ++ m.objFileName)).error = "")
    (hv : (fs (m.objFilePath ++ m.objFileName)).attrib.vertices ≠ [])
    (hs : (fs (m.objFilePath ++ m.objFileName)).shapes = shape :: rest)
    (hfaces : 3 * shape.mesh.num_face_vertices.length ≤ shape.mesh.indices.length)
    (hrange : ∀ i ∈ shape.mesh.indices, 0 ≤ i.vertex_index ∧
      i.vertex_index < ((fs (m.objFilePath ++ m.objFileName)).attrib.vertices.length / 3 : Nat))
    (hentry : ∀ k ∈ m.indices, k < m.vertices.length) (hentry3 : 3 ∣ m.indices.length) :
    ∃ m1, loadGeometry M fs (fuel + 2) m = .ok m1 ∧ ∀ k ∈ m1.indices, k < m1.vertices.length := by
  obtain ⟨ns, hload, hvalid⟩ := loadGeometry_of_wellformed M fs fuel m shape rest herr hv hs
    hfaces hrange hentry hentry3
  exact ⟨_, hload, hvalid⟩

end Field

/-- A run of the amended C5 on the triangle `(0,0,0) (2,0,0) (0,2,0)`. -/
theorem loadGeometry_indices_valid_witness :
    ∃ m1, loadGeometry sampleMath
        (fun _ => meshReader [⟨0, 0, 0⟩, ⟨2, 0, 0⟩, ⟨0, 2, 0⟩] [(0, 1, 2)]) 2 Model.init =
          .ok m1 ∧ ∀ k ∈ m1.indices, k < m1.vertices.length :=
  loadGeometry_indices_valid sampleMath
    (fun _ => meshReader [⟨0, 0, 0⟩, ⟨2, 0, 0⟩, ⟨0, 2, 0⟩] [(0, 1, 2)]) 0 Model.init
    _ [] rfl (by simp [meshReader, positionsArray]) rfl (by simp)
    (by simp [meshReader, positionsArray]) (by simp [Model.init]) (by simp [Model.init])

/-- C5 as stated fails: the parse of `v 0 0 0` / `f 1 2 3` has one position and one face with
the indices 0, 1, 2; it passes `checkOBJ`, `insertIndices` stores the index 1 although
`vertices` has one element, `insertNormals` reads outside `vertices`, and no load completes. -/
theorem loadGeometry_indices_invalid :
    checkOBJ sampleMath (fun _ => meshReader [⟨0, 0, 0⟩] [(0, 1, 2)]) 1
        (parsedModel (fun _ => meshReader [⟨0, 0, 0⟩] [(0, 1, 2)]) Model.init) =
      .ok (true, parsedModel (fun _ => meshReader [⟨0, 0, 0⟩] [(0, 1, 2)]) Model.init) ∧
    (∃ m2, insertIndices (insertVertices
        (parsedModel (fun _ => meshReader [⟨0, 0, 0⟩] [(0, 1, 2)]) Model.init)).1 = .ok m2 ∧
      m2.vertices = [⟨0, 0, 0⟩] ∧ m2.indices = [0, 1, 2] ∧
      (¬ ∀ k ∈ m2.indices, k < m2.vertices.length) ∧
      insertNormals sampleMath m2 = .error .outOfBounds) ∧
    ¬ ∃ fuel m1, loadGeometry sampleMath (fun _ => meshReader [⟨0, 0, 0⟩] [(0, 1, 2)]) fuel
      Model.init = .ok m1 := by
  refine ⟨rfl, ⟨_, rfl, rfl, rfl, by decide, rfl⟩, ?_⟩
  rintro ⟨fuel, m1, h⟩
  match fuel, h with
  | 0, h => simp [loadGeometry] at h
  | 1, h => rw [loadGeometry_succ] at h; simp [checkOBJ] at h
  | fuel + 2, h =>
    rw [loadGeometry_of_parsed sampleMath _ fuel _ rfl (by simp [meshReader, positionsArray])
      (by simp [meshReader])] at h
    obtain ⟨shape, rest, idx, ns, hs, hidx, hns, -⟩ := (finishLoad_eq_ok_iff _ _ _ _).mp h
    simp [meshReader] at hs
    obtain ⟨rfl, -⟩ := hs
    simp [insertIndicesLoop, toUnsigned] at hidx
    subst hidx
    simp [meshReader, positionsArray, insertVerticesLoop, resize, insertNormalsLoop, faceNormal,
      Model.init] at hns

/-! ## Fallback to the previous mesh -/

section Field

variable {F : Type} [LinearOrderedField F]

/-- When no file under the model's path yields positions, neither `loadGeometry` nor
`changeObject` completes, whatever the budget: every reload fails in the same way. -/
theorem load_never_completes (M : MathFns F) (fs : String → ObjReader F) (path : String)
    (hbad : ∀ name, (fs (path ++ name)).attrib.vertices = []) (fuel : Nat) :
    ∀ m : Model F, m.objFilePath = path →
      (∀ m1, loadGeometry M fs fuel m ≠ .ok m1) ∧ (∀ m1, changeObject M fs fuel m ≠ .ok m1) := by
  induction fuel using Nat.strong_induction_on with
  | _ fuel ih =>
    intro m hpath
    cases fuel with
    | zero => exact ⟨fun m1 h => by simp [loadGeometry] at h, fun m1 h => by simp [changeObject] at h⟩
    | succ fuel =>
      refine ⟨fun m1 h => ?_, fun m1 h => ?_⟩
      · rw [loadGeometry_succ] at h
        cases hc : checkOBJ M fs fuel (checkedModel fs m) with
        | error e => rw [hc] at h; cases h
        | ok r =>
          obtain ⟨b, m3⟩ := r
          rw [hc] at h
          cases b with
          | false =>
            obtain ⟨fuel1, o, rfl, -, hch⟩ := checkOBJ_eq_ok_false M fs fuel _ _ hc
            exact (ih fuel1 (by omega) _ (by
              show (checkedModel fs m).objFilePath = path
              rw [checkedModel_objFilePath, hpath])).2 _ hch
          | true =>
            obtain ⟨-, hv, -⟩ := checkOBJ_eq_ok_true M fs fuel _ _ hc
            rw [checkedModel_reader, hpath] at hv
            exact hv (hbad _)
      · rw [changeObject] at h
        exact (ih fuel (by omega) (clearGeometry m) hpath).1 _ h

/-- The fallback of `Model::changeObject`: when the requested file fails to parse (reader
error, no positions) and `latestObj` parses, under the model's path, to a well-formed mesh,
the reload through `checkOBJ` completes and the model holds that mesh. -/
theorem changeObject_fallback (M : MathFns F) (fs : String → ObjReader F) (fuel : Nat)
    (m : Model F) (shape : shape_t) (rest : List shape_t)
    (hbad_valid : (fs (m.objFilePath ++ m.objFileName)).valid = false)
    (hbad_err : (fs (m.objFilePath ++ m.objFileName)).error ≠ "")
    (hbad_v : (fs (m.objFilePath ++ m.objFileName)).attrib.vertices = [])
    (herr : (fs (m.objFilePath ++ m.latestObj)).error = "")
    (hv : (fs (m.objFilePath ++ m.latestObj)).attrib.vertices ≠ [])
    (hs : (fs (m.objFilePath ++ m.latestObj)).shapes = shape :: rest)
    (hfaces : 3 * shape.mesh.num_face_vertices.length ≤ shape.mesh.indices.length)
    (hrange : ∀ i ∈ shape.mesh.indices, 0 ≤ i.vertex_index ∧
      i.vertex_index < ((fs (m.objFilePath ++ m.latestObj)).attrib.vertices.length / 3 : Nat)) :
    ∃ m1, changeObject M fs (fuel + 6) m = .ok m1 ∧
      checkOBJ M fs (fuel + 4) (checkedModel fs (clearGeometry m)) = .ok (false, m1) ∧
      m1.vertices.length = (fs (m.objFilePath ++ m.latestObj)).attrib.vertices.length / 3 ∧
      m1.indices.length = 3 * shape.mesh.num_face_vertices.length ∧
      m1.objFileName = m.latestObj ∧
      Output.readerError (fs (m.objFilePath ++ m.objFileName)).error ∈ m1.console ∧
      Output.noVertices m.latestObj ∈ m1.console := by
  have hcv : (checkedModel fs (clearGeometry m)).reader.attrib.vertices = [] := by
    rw [checkedModel_reader]; exact hbad_v
  have hlatest : (checkedModel fs (clearGeometry m)).latestObj = m.latestObj := by
    rw [checkedModel_latestObj]; rfl
  have hcpath : (checkedModel fs (clearGeometry m)).objFilePath = m.objFilePath := by
    rw [checkedModel_objFilePath]; rfl
  have hconsole : (checkedModel fs (clearGeometry m)).console =
      m.console ++ parseOutput (fs (m.objFilePath ++ m.objFileName)) ++
        parseOutput (fs (m.objFilePath ++ m.latestObj)) := by
    unfold checkedModel
    rw [if_pos (by exact hbad_err)]
    rfl
  obtain ⟨X, hX⟩ : ∃ X, X = clearGeometry { (checkedModel fs (clearGeometry m)).print
      (.noVertices (checkedModel fs (clearGeometry m)).latestObj) with
    objFileName := (checkedModel fs (clearGeometry m)).latestObj } := ⟨_, rfl⟩
  have hXpath : X.objFilePath = m.objFilePath := by rw [hX]; exact hcpath
  have hXname : X.objFileName = m.latestObj := by rw [hX]; exact hlatest
  have hXv : X.vertices = [] := by rw [hX]; rfl
  have hXi : X.indices = [] := by rw [hX]; rfl
  have hXc : X.console = m.console ++ parseOutput (fs (m.objFilePath ++ m.objFileName)) ++
      parseOutput (fs (m.objFilePath ++ m.latestObj)) ++ [.noVertices m.latestObj] := by
    rw [hX, ← hconsole, ← hlatest]; rfl
  obtain ⟨ns, hload, -⟩ := loadGeometry_of_wellformed M fs fuel X shape rest
    (by rw [hXpath, hXname]; exact herr) (by rw [hXpath, hXname]; exact hv)
    (by rw [hXpath, hXname]; exact hs) hfaces (by rw [hXpath, hXname]; exact hrange)
    (by rw [hXi]; simp) (by rw [hXi]; simp)
  have hcheck : checkOBJ M fs (fuel + 4) (checkedModel fs (clearGeometry m)) =
      .ok (false, loadedModel M false (parsedModel fs X)
        (X.indices ++ (shape.mesh.indices.take (3 * shape.mesh.num_face_vertices.length)).map
          (fun i => toUnsigned i.vertex_index)) ns) := by
    rw [checkOBJ_of_no_vertices M fs (fuel + 3) _ hcv, changeObject, ← hX, hload]
    rfl
  refine ⟨_, ?_, hcheck, ?_, ?_, ?_, ?_, ?_⟩
  · rw [changeObject, loadGeometry_succ, hcheck]
  · rw [loadedModel_vertices, insertVerticesLoop_length _ _ _ _ le_rfl, parsedModel_reader,
      parsedModel_vertices, hXv, hXpath, hXname]
    simp
  · rw [loadedModel_indices, hXi]
    simp only [List.nil_append, List.length_map, List.length_take]
    omega
  · rw [loadedModel_objFileName, parsedModel_objFileName, hXname]
  · obtain ⟨out, hout⟩ := loadedModel_console M false (parsedModel fs X)
      (X.indices ++ (shape.mesh.indices.take (3 * shape.mesh.num_face_vertices.length)).map
        (fun i => toUnsigned i.vertex_index)) ns
    rw [hout, parsedModel_console, hXc]
    simp [parseOutput, hbad_valid, hbad_err]
  · obtain ⟨out, hout⟩ := loadedModel_console M false (parsedModel fs X)
      (X.indices ++ (shape.mesh.indices.take (3 * shape.mesh.num_face_vertices.length)).map
        (fun i => toUnsigned i.vertex_index)) ns
    rw [hout, parsedModel_console, hXc]
    simp

end Field

section Field

variable {F : Type} [LinearOrderedField F]

/-- The fallback of `GeometryRender::changeObject` where it works: when the requested file
fails to parse (reader error, no positions) and the previously loaded name still parses under
the requested path to the well-formed mesh of `N` positions and `K` index entries that the model
holds, then `changeObject` completes with `N` vertices and `K` indices again and `objFileName`
reset to the previous name, and the failure is reported: the console holds the reader's error
and "No vertices could be read", and the nested `checkOBJ` returns false. -/
theorem renderChangeObject_restores_previous_mesh (M : MathFns F) (fs : String → ObjReader F)
    (fuel : Nat) (g : GeometryRender F) (shape : shape_t) (rest : List shape_t)
    (hbad_valid : (fs (g.objFilePath ++ g.objFileName)).valid = false)
    (hbad_err : (fs (g.objFilePath ++ g.objFileName)).error ≠ "")
    (hbad_v : (fs (g.objFilePath ++ g.objFileName)).attrib.vertices = [])
    (herr : (fs (g.objFilePath ++ g.object.objFileName)).error = "")
    (hv : (fs (g.objFilePath ++ g.object.objFileName)).attrib.vertices ≠ [])
    (hs : (fs (g.objFilePath ++ g.object.objFileName)).shapes = shape :: rest)
    (hfaces : 3 * shape.mesh.num_face_vertices.length ≤ shape.mesh.indices.length)
    (hrange : ∀ i ∈ shape.mesh.indices, 0 ≤ i.vertex_index ∧ i.vertex_index <
      ((fs (g.objFilePath ++ g.object.objFileName)).attrib.vertices.length / 3 : Nat))
    (hN : g.object.vertices.length =
      (fs (g.objFilePath ++ g.object.objFileName)).attrib.vertices.length / 3)
    (hK : g.object.indices.length = 3 * shape.mesh.num_face_vertices.length) :
    ∃ g1, GeometryRender.changeObject M fs (fuel + 6) g = .ok g1 ∧
      g1.object.vertices.length = g.object.vertices.length ∧
      g1.object.indices.length = g.object.indices.length ∧
      g1.object.objFileName = g.object.objFileName ∧
      Output.readerError (fs (g.objFilePath ++ g.objFileName)).error ∈ g1.object.console ∧
      Output.noVertices g.object.objFileName ∈ g1.object.console ∧
      checkOBJ M fs (fuel + 4) (checkedModel fs (clearGeometry { g.object with
        latestObj := g.object.objFileName
        objFilePath := g.objFilePath
        objFileName := g.objFileName })) = .ok (false, g1.object) := by
  obtain ⟨m1, hch, hcheck, hlenV, hlenI, hname, herrOut, hnoV⟩ := changeObject_fallback M fs fuel
    { g.object with
      latestObj := g.object.objFileName
      objFilePath := g.objFilePath
      objFileName := g.objFileName } shape rest hbad_valid hbad_err hbad_v herr hv hs hfaces hrange
  refine ⟨{ g with firstRun := true, object := m1, camera := g.camera.init M }, ?_,
    hlenV.trans hN.symm, hlenI.trans hK.symm, hname, herrOut, hnoV, hcheck⟩
  simp only [GeometryRender.changeObject, hch]

end Field

theorem sampleFiles_gui_path (name : String) : sampleFiles ("./OBJs" ++ name) = missingFile := by
  have h : "./OBJs" ++ name ≠ "OBJs/sphere_large.obj" := by
    intro h
    have := congrArg String.data h
    simp at this
  simp [sampleFiles, h]

/-- A run of the fallback: the request for a missing file under the path of the previous
load. -/
theorem renderChangeObject_restores_previous_mesh_witness :
    ∃ g1, GeometryRender.changeObject sampleMath sampleFiles 6
        (sampleRender { (Model.init : Model ℚ) with
          vertices := [⟨0, 0, 0⟩, ⟨2, 0, 0⟩, ⟨0, 2, 0⟩], indices := [0, 1, 2] }
          "OBJs/" "nonexistent.obj") = .ok g1 ∧
      g1.object.vertices.length = 3 ∧ g1.object.indices.length = 3 ∧
      g1.object.objFileName = "sphere_large.obj" := by
  obtain ⟨g1, h, hV, hI, hname, -⟩ := renderChangeObject_restores_previous_mesh sampleMath
    sampleFiles 0
    (sampleRender { (Model.init : Model ℚ) with
      vertices := [⟨0, 0, 0⟩, ⟨2, 0, 0⟩, ⟨0, 2, 0⟩], indices := [0, 1, 2] }
      "OBJs/" "nonexistent.obj")
    ⟨"", ⟨[⟨0, -1, -1⟩, ⟨1, -1, -1⟩, ⟨2, -1, -1⟩], [3]⟩⟩ [] rfl (by decide) rfl rfl
    (by decide) rfl (by decide) (by decide) rfl rfl
  exact ⟨g1, h, hV, hI, hname⟩

/-- C7, the defect: the fallback of `GeometryRender::changeObject` reloads the previous name
under the path of the failed request.  The initial load reads `OBJs/sphere_large.obj` (3
vertices, 3 indices); the GUI then requests a missing file under its own path `./OBJs`, which
lacks the separator, so the previous name does not parse under it either: `changeObject` calls
itself again with the same arguments and never returns, and the model is not restored to its 3
vertices and 3 indices. -/
theorem renderChangeObject_never_returns :
    ∃ obj, loadGeometry sampleMath sampleFiles 2 Model.init = .ok obj ∧
      obj.vertices.length = 3 ∧ obj.indices.length = 3 ∧ obj.objFileName = "sphere_large.obj" ∧
      (sampleFiles ("./OBJs" ++ "nonexistent.obj")).error ≠ "" ∧
      (sampleFiles ("./OBJs" ++ "nonexistent.obj")).attrib.vertices = [] ∧
      ¬ ∃ fuel g1, GeometryRender.changeObject sampleMath sampleFiles fuel
        (sampleRender obj "./OBJs" "nonexistent.obj") = .ok g1 := by
  obtain ⟨ns, hload, -⟩ := loadGeometry_of_wellformed sampleMath sampleFiles 0 Model.init
    ⟨"", ⟨[⟨0, -1, -1⟩, ⟨1, -1, -1⟩, ⟨2, -1, -1⟩], [3]⟩⟩ [] rfl (by decide) rfl (by decide)
    (by decide) (by simp [Model.init]) (by simp [Model.init])
  refine ⟨_, hload, ?_, ?_, rfl, ?_, ?_, ?_⟩
  · rw [loadedModel_vertices, insertVerticesLoop_length _ _ _ _ le_rfl]; rfl
  · rfl
  · rw [sampleFiles_gui_path]; decide
  · rw [sampleFiles_gui_path]; rfl
  · rintro ⟨fuel, g1, h⟩
    simp only [GeometryRender.changeObject] at h
    split at h
    · cases h
    · rename_i m1 hm1
      exact (load_never_completes sampleMath sampleFiles "./OBJs"
        (fun name => by rw [sampleFiles_gui_path]; rfl) fuel _ rfl).2 m1 hm1

/-! ## Spherical texture coordinates -/

/-- C10 fails on the code: `calculateSphereTexCoord` divides by `2.0 * 3.14` and by `3.14`,
not by `2 * pi` and `pi`.  Over the reals its `u` is `0.5 + atan2(z, x) / (2 * pi)` only when
`atan2(z, x) = 0` and its `v` is `0.5 - asin(y) / pi` only when `asin(y) = 0`; at the vertex
`(0, 1, 0)`, with `asin 1 = pi / 2`, the claimed `v` is 0 and the computed `v` is negative. -/
theorem calculateSphereTexCoord_divides_by_314 (M : MathFns ℝ) (vertex : Vec3 ℝ) :
    ((calculateSphereTexCoord M vertex).x = 1 / 2 + M.atan2 vertex.z vertex.x / (2 * Real.pi) ↔
        M.atan2 vertex.z vertex.x = 0) ∧
      ((calculateSphereTexCoord M vertex).y = 1 / 2 - M.asin vertex.y / Real.pi ↔
        M.asin vertex.y = 0) ∧
      (M.asin 1 = Real.arcsin 1 →
        1 / 2 - M.asin 1 / Real.pi = 0 ∧ (calculateSphereTexCoord M ⟨0, 1, 0⟩).y < 0) := by
  have hpi : (314 / 100 : ℝ) < Real.pi := by
    have := Real.pi_gt_d2
    norm_num at this ⊢
    linarith
  have hpos : (0 : ℝ) < Real.pi := Real.pi_pos
  refine ⟨?_, ?_, ?_⟩
  · simp only [calculateSphereTexCoord]
    constructor
    · intro h
      have h2 : M.atan2 vertex.z vertex.x / (2 * (314 / 100)) =
          M.atan2 vertex.z vertex.x / (2 * Real.pi) := by linarith
      rw [div_eq_div_iff (by norm_num) (by positivity)] at h2
      have h3 : M.atan2 vertex.z vertex.x * (2 * Real.pi - 2 * (314 / 100)) = 0 := by linarith
      rcases mul_eq_zero.mp h3 with h4 | h4
      · exact h4
      · exfalso; linarith
    · intro h; rw [h]; simp
  · simp only [calculateSphereTexCoord]
    constructor
    · intro h
      have h2 : M.asin vertex.y / (314 / 100) = M.asin vertex.y / Real.pi := by linarith
      rw [div_eq_div_iff (by norm_num) (by positivity)] at h2
      have h3 : M.asin vertex.y * (Real.pi - 314 / 100) = 0 := by linarith
      rcases mul_eq_zero.mp h3 with h4 | h4
      · exact h4
      · exfalso; linarith
    · intro h; rw [h]; simp
  · intro h
    simp only [calculateSphereTexCoord]
    rw [h, Real.arcsin_one]
    constructor
    · field_simp
    · have : Real.pi / 2 / (314 / 100) > 1 / 2 := by
        rw [gt_iff_lt, lt_div_iff₀ (by norm_num)]
        linarith
      linarith

/-! ## Texture coordinates -/

section Field

variable {F : Type} [LinearOrderedField F]

/-- C13: `invertHCoordinate` is an involution, it never changes `v`, it fixes a coordinate
only when `u = 1/2`, and it is not idempotent: applied twice to `(0, 0)` it gives `(0, 0)`,
applied once `(1, 0)`. -/
theorem invertHCoordinate_involution (c : Vec2 F) :
    invertHCoordinate (invertHCoordinate c) = c ∧ (invertHCoordinate c).y = c.y ∧
      (invertHCoordinate c = c ↔ c.x = 1 / 2) ∧
      invertHCoordinate (invertHCoordinate (⟨0, 0⟩ : Vec2 F)) ≠ invertHCoordinate ⟨0, 0⟩ := by
  obtain ⟨u, v⟩ := c
  refine ⟨by simp [invertHCoordinate], rfl, ?_, by simp [invertHCoordinate]⟩
  simp only [invertHCoordinate, Vec2.mk.injEq, and_true]
  constructor
  · intro h; linarith
  · intro h; rw [h]; norm_num

end Field

section Field

variable {F : Type} [LinearOrderedField F]

/-- The texture coordinate that `loadGeometry` generates for a position of a mesh with the
given file name, after the inversion of line 373. -/
theorem finishLoad_texCoords (M : MathFns F) (load_error : Bool) (m m1 : Model F)
    (ht : m.texCoords = []) (h : finishLoad M load_error m = .ok m1) :
    m1.texCoords = m1.vertices.map (fun v => invertHCoordinate
      (if m1.objFileName = "sphere_large.obj" ∨ m1.objFileName = "sphere.obj"
        then calculateSphereTexCoord M v else ⟨v.x, v.y⟩)) := by
  obtain ⟨shape, rest, idx, ns, -, -, -, rfl⟩ := (finishLoad_eq_ok_iff M load_error m m1).mp h
  rw [loadedModel_vertices, loadedModel_objFileName]
  simp only [loadedModel, ht, List.nil_append]
  split <;> simp [List.map_map, Function.comp_def]

/-- The stored texture coordinates after `loadGeometry` and after `changeObject`. -/
theorem load_texCoords (M : MathFns F) (fs : String → ObjReader F) (fuel : Nat) :
    ∀ m m1 : Model F,
      (m.texCoords = [] → loadGeometry M fs fuel m = .ok m1 →
        m1.texCoords = m1.vertices.map (fun v => invertHCoordinate
          (if m1.objFileName = "sphere_large.obj" ∨ m1.objFileName = "sphere.obj"
            then calculateSphereTexCoord M v else ⟨v.x, v.y⟩))) ∧
      (changeObject M fs fuel m = .ok m1 →
        m1.texCoords = m1.vertices.map (fun v => invertHCoordinate
          (if m1.objFileName = "sphere_large.obj" ∨ m1.objFileName = "sphere.obj"
            then calculateSphereTexCoord M v else ⟨v.x, v.y⟩))) := by
  induction fuel using Nat.strong_induction_on with
  | _ fuel ih =>
    intro m m1
    cases fuel with
    | zero => exact ⟨fun _ h => by simp [loadGeometry] at h, fun h => by simp [changeObject] at h⟩
    | succ fuel =>
      refine ⟨fun ht h => ?_, fun h => ?_⟩
      · rw [loadGeometry_succ] at h
        cases hc : checkOBJ M fs fuel (checkedModel fs m) with
        | error e => rw [hc] at h; cases h
        | ok r =>
          obtain ⟨b, m3⟩ := r
          rw [hc] at h
          cases b with
          | false =>
            cases h
            obtain ⟨fuel1, o, rfl, -, hch⟩ := checkOBJ_eq_ok_false M fs fuel _ _ hc
            exact (ih fuel1 (by omega) _ _).2 hch
          | true =>
            obtain ⟨rfl, -, -⟩ := checkOBJ_eq_ok_true M fs fuel _ _ hc
            exact finishLoad_texCoords M _ _ _ (by rw [checkedModel_texCoords, ht]) h
      · rw [changeObject] at h
        exact (ih fuel (by omega) _ _).1 rfl h

/-- C12: after a `loadGeometry` entered with empty `texCoords` every stored texture coordinate
is the generated `(u, v)` of its vertex inverted once, `(1 - u, v)`; for a mesh that is not
`sphere_large.obj` or `sphere.obj` it is `(1 - x, y)` of the vertex `(x, y, z)`. -/
theorem texCoords_inverted_once (M : MathFns F) (fs : String → ObjReader F) (fuel : Nat)
    (m m1 : Model F) (ht : m.texCoords = []) (h : loadGeometry M fs fuel m = .ok m1) :
    m1.texCoords.length = m1.vertices.length ∧
      ((m1.objFileName = "sphere_large.obj" ∨ m1.objFileName = "sphere.obj") →
        m1.texCoords = m1.vertices.map (fun v =>
          ⟨1 - (calculateSphereTexCoord M v).x, (calculateSphereTexCoord M v).y⟩)) ∧
      (¬ (m1.objFileName = "sphere_large.obj" ∨ m1.objFileName = "sphere.obj") →
        m1.texCoords = m1.vertices.map (fun v => ⟨1 - v.x, v.y⟩)) := by
  have key := (load_texCoords M fs fuel m m1).1 ht h
  refine ⟨by rw [key, List.length_map], fun hs => ?_, fun hs => ?_⟩
  · rw [key]; simp only [if_pos hs, invertHCoordinate]
  · rw [key]; simp only [if_neg hs, invertHCoordinate]

end Field

/-- A run of C12 on the triangle `(0,0,0) (2,0,0) (0,2,0)` loaded as `cube.obj`. -/
theorem texCoords_inverted_once_witness :
    ∃ m1, loadGeometry sampleMath
        (fun _ => meshReader [⟨0, 0, 0⟩, ⟨2, 0, 0⟩, ⟨0, 2, 0⟩] [(0, 1, 2)]) 2
        { (Model.init : Model ℚ) with objFileName := "cube.obj" } = .ok m1 ∧
      m1.texCoords = [⟨1, 0⟩, ⟨-1, 0⟩, ⟨1, 2⟩] := by
  obtain ⟨ns, hload, -⟩ := loadGeometry_of_wellformed sampleMath
    (fun _ => meshReader [⟨0, 0, 0⟩, ⟨2, 0, 0⟩, ⟨0, 2, 0⟩] [(0, 1, 2)]) 0
    { (Model.init : Model ℚ) with objFileName := "cube.obj" }
    ⟨"", ⟨[⟨0, -1, -1⟩, ⟨1, -1, -1⟩, ⟨2, -1, -1⟩], [3]⟩⟩ [] rfl (by decide) rfl (by decide)
    (by decide) (by simp [Model.init]) (by simp [Model.init])
  refine ⟨_, hload, ?_⟩
  rw [(texCoords_inverted_once sampleMath _ 2 _ _ rfl hload).2.2 (by simp)]
  rw [loadedModel_vertices]
  simp [meshReader, positionsArray, insertVerticesLoop, Model.init]
  norm_num

/-- C11 fails on the code, by the constant of C10: with the real `atan2` and `asin` the vertex
`(-1, 0, 0)` of the unit sphere gets `u = 1 - (0.5 + pi / 6.28) < 0`, and the vertex
`(0, 1, 0)` gets `v = 0.5 - (pi / 2) / 3.14 < 0`. -/
theorem sphere_texCoord_outside_unit_square :
    (⟨-1, 0, 0⟩ : Vec3 ℝ).normSq = 1 ∧
      (invertHCoordinate (calculateSphereTexCoord
        ⟨Real.sqrt, Real.sin, Real.cos, Real.tan, Real.arcsin,
          fun y x => Complex.arg ⟨x, y⟩, fun x => (⌊x⌋ : ℤ)⟩ ⟨-1, 0, 0⟩)).x < 0 ∧
      (⟨0, 1, 0⟩ : Vec3 ℝ).normSq = 1 ∧
      (invertHCoordinate (calculateSphereTexCoord
        ⟨Real.sqrt, Real.sin, Real.cos, Real.tan, Real.arcsin,
          fun y x => Complex.arg ⟨x, y⟩, fun x => (⌊x⌋ : ℤ)⟩ ⟨0, 1, 0⟩)).y < 0 := by
  have hpi : (314 / 100 : ℝ) < Real.pi := by
    have := Real.pi_gt_d2
    norm_num at this ⊢
    linarith
  have harg : Complex.arg ⟨-1, 0⟩ = Real.pi := by
    have h : (⟨-1, 0⟩ : ℂ) = -1 := by apply Complex.ext <;> simp
    rw [h, Complex.arg_neg_one]
  refine ⟨by norm_num [Vec3.normSq, Vec3.dot], ?_, by norm_num [Vec3.normSq, Vec3.dot], ?_⟩
  · simp only [invertHCoordinate, calculateSphereTexCoord, harg]
    have : Real.pi / (2 * (314 / 100)) > 1 / 2 := by
      rw [gt_iff_lt, lt_div_iff₀ (by norm_num)]
      linarith
    linarith
  · simp only [invertHCoordinate, calculateSphereTexCoord, Real.arcsin_one]
    have : Real.pi / 2 / (314 / 100) > 1 / 2 := by
      rw [gt_iff_lt, lt_div_iff₀ (by norm_num)]
      linarith
    linarith

/-! ## Projection matrices -/

section Field

variable {F : Type} [LinearOrderedField F]

theorem Mat4.identity_mul (m : Mat4 F) : Mat4.identity.mul m = m := by
  obtain ⟨⟨a0, a1, a2, a3⟩, ⟨b0, b1, b2, b3⟩, ⟨c0, c1, c2, c3⟩, ⟨d0, d1, d2, d3⟩⟩ := m
  simp [Mat4.mul, Mat4.mulVec, Mat4.identity, Vec4.smul, Vec4.add]

theorem Mat4.mul_assoc (a b c : Mat4 F) : (a.mul b).mul c = a.mul (b.mul c) := by
  obtain ⟨⟨a00, a01, a02, a03⟩, ⟨a10, a11, a12, a13⟩, ⟨a20, a21, a22, a23⟩,
    ⟨a30, a31, a32, a33⟩⟩ := a
  obtain ⟨⟨b00, b01, b02, b03⟩, ⟨b10, b11, b12, b13⟩, ⟨b20, b21, b22, b23⟩,
    ⟨b30, b31, b32, b33⟩⟩ := b
  obtain ⟨⟨c00, c01, c02, c03⟩, ⟨c10, c11, c12, c13⟩, ⟨c20, c21, c22, c23⟩,
    ⟨c30, c31, c32, c33⟩⟩ := c
  simp only [Mat4.mul, Mat4.mulVec, Vec4.smul, Vec4.add, Mat4.mk.injEq, Vec4.mk.injEq]
  refine ⟨⟨?_, ?_, ?_, ?_⟩, ⟨?_, ?_, ?_, ?_⟩, ⟨?_, ?_, ?_, ?_⟩, ⟨?_, ?_, ?_, ?_⟩⟩ <;> ring

/-- Two shears of `Camera::sendProj` compose to the shear of twice the scale. -/
theorem shearMatrix_mul_self (M : MathFns F) (scale angle : F) :
    (shearMatrix M scale angle).mul (shearMatrix M scale angle) =
      shearMatrix M (2 * scale) angle := by
  simp only [shearMatrix, Mat4.mul, Mat4.mulVec, Mat4.identity, Vec4.smul, Vec4.add,
    Mat4.mk.injEq, Vec4.mk.injEq]
  refine ⟨⟨?_, ?_, ?_, ?_⟩, ⟨?_, ?_, ?_, ?_⟩, ⟨?_, ?_, ?_, ?_⟩, ⟨?_, ?_, ?_, ?_⟩⟩ <;> ring

/-- The projection of `Camera::sendProj` in parallel mode with `obliqueScale = 0`. -/
theorem sendProj_parallel_of_scale_eq_zero (M : MathFns F) (width height projmode : Int)
    (c : Camera F) (hscale : c.obliqueScale = 0) (hmode : projmode ≠ 0) :
    (c.sendProj M width height projmode).projectionMatrix =
      ortho (-c.top) c.top (-c.top) c.top (1 / 10) c.farplane := by
  cases ho : ortho (-c.top) c.top (-c.top) c.top (1 / 10) c.farplane with
  | none => simp only [one_div] at ho; simp [Camera.sendProj, hmode, hscale, ho]
  | some O =>
    simp only [one_div] at ho; simp [Camera.sendProj, hmode, hscale, ho, Mat4.identity_mul]

/-- The projection of `Camera::sendProj` in parallel mode with `obliqueScale != 0`. -/
theorem sendProj_parallel_of_scale_ne_zero (M : MathFns F) (width height projmode : Int)
    (c : Camera F) (hscale : c.obliqueScale ≠ 0) (hmode : projmode ≠ 0) :
    (c.sendProj M width height projmode).projectionMatrix =
      (ortho (-c.top) c.top (-c.top) c.top (1 / 10) c.farplane).map
        (fun O => (shearMatrix M c.obliqueScale c.obliqueAngleRad).mul
          ((shearMatrix M c.obliqueScale c.obliqueAngleRad).mul O)) := by
  cases ho : ortho (-c.top) c.top (-c.top) c.top (1 / 10) c.farplane with
  | none => simp only [one_div] at ho; simp [Camera.sendProj, hmode, hscale, ho]
  | some O => simp only [one_div] at ho; simp [Camera.sendProj, hmode, hscale, ho]

/-- The orthographic matrix of `Camera::sendProj` is finite when `top` is not zero and
`farplane` is not `0.1`. -/
theorem ortho_symmetric_eq_some (top farplane : F) (htop : top ≠ 0)
    (hfar : farplane ≠ 1 / 10) :
    ortho (-top) top (-top) top (1 / 10) farplane =
      some ⟨⟨2 / (top - -top), 0, 0, 0⟩, ⟨0, 2 / (top - -top), 0, 0⟩,
        ⟨0, 0, -(2 / (farplane - 1 / 10)), 0⟩,
        ⟨-((top + -top) / (top - -top)), -((top + -top) / (top - -top)),
          -((farplane + 1 / 10) / (farplane - 1 / 10)), 1⟩⟩ := by
  have h1 : top - -top ≠ 0 := by
    intro h
    apply htop
    linarith
  have h2 : farplane - 1 / 10 ≠ 0 := sub_ne_zero.mpr hfar
  unfold ortho
  rw [if_neg (by push_neg; exact ⟨h1, h1, h2⟩)]

/-- C14: for `top != 0`, `farplane != 0.1` and `obliqueScale = 0`, `Camera::sendProj` in
parallel mode sets `projectionMatrix` to the plain orthographic matrix
`ortho(-top, top, -top, top, 0.1, farplane)`, whatever the oblique angle. -/
theorem sendProj_parallel_zero_scale (M : MathFns F) (width height projmode : Int)
    (c : Camera F) (htop : c.top ≠ 0) (hfar : c.farplane ≠ 1 / 10) (hscale : c.obliqueScale = 0)
    (hmode : projmode ≠ 0) :
    ∃ O, ortho (-c.top) c.top (-c.top) c.top (1 / 10) c.farplane = some O ∧
      (c.sendProj M width height projmode).projectionMatrix = some O :=
  ⟨_, ortho_symmetric_eq_some c.top c.farplane htop hfar,
    (sendProj_parallel_of_scale_eq_zero M width height projmode c hscale hmode).trans
      (ortho_symmetric_eq_some c.top c.farplane htop hfar)⟩

/-- C15: for `obliqueScale != 0`, `Camera::sendProj` in parallel mode sets `projectionMatrix`
to `S * S * O` with `O` the orthographic matrix and `S` the identity with
`S[2][0] = scale * cos(angle)` and `S[2][1] = scale * sin(angle)`; `S * S` is the shear of twice
the scale, so the result is that single shear times `O`. -/
theorem sendProj_parallel_double_shear (M : MathFns F) (width height projmode : Int)
    (c : Camera F) (hscale : c.obliqueScale ≠ 0) (hmode : projmode ≠ 0) :
    (c.sendProj M width height projmode).projectionMatrix =
        (ortho (-c.top) c.top (-c.top) c.top (1 / 10) c.farplane).map
          (fun O => ((shearMatrix M c.obliqueScale c.obliqueAngleRad).mul
            (shearMatrix M c.obliqueScale c.obliqueAngleRad)).mul O) ∧
      (shearMatrix M c.obliqueScale c.obliqueAngleRad).mul
          (shearMatrix M c.obliqueScale c.obliqueAngleRad) =
        { (Mat4.identity : Mat4 F) with
          c2 := ⟨2 * c.obliqueScale * M.cos c.obliqueAngleRad,
            2 * c.obliqueScale * M.sin c.obliqueAngleRad, 1, 0⟩ } ∧
      (c.sendProj M width height projmode).projectionMatrix =
        (ortho (-c.top) c.top (-c.top) c.top (1 / 10) c.farplane).map
          (fun O => (shearMatrix M (2 * c.obliqueScale) c.obliqueAngleRad).mul O) := by
  have h := sendProj_parallel_of_scale_ne_zero M width height projmode c hscale hmode
  refine ⟨?_, ?_, ?_⟩
  · rw [h]; simp only [Mat4.mul_assoc]
  · rw [shearMatrix_mul_self]; rfl
  · rw [h]; simp only [← Mat4.mul_assoc, shearMatrix_mul_self]

end Field

/-- A run of C14 on the camera of `Camera::init`. -/
theorem sendProj_parallel_zero_scale_witness :
    ∃ O, ortho (-1 : ℚ) 1 (-1) 1 (1 / 10) 500 = some O ∧
      ((sampleCamera.init sampleMath).sendProj sampleMath 800 600 1).projectionMatrix = some O :=
  sendProj_parallel_zero_scale sampleMath 800 600 1 (sampleCamera.init sampleMath)
    (by simp [Camera.init]) (by norm_num [Camera.init]) rfl (by decide)

/-- A run of C15 with `obliqueScale = 1/2`. -/
theorem sendProj_parallel_double_shear_witness :
    ({ sampleCamera.init sampleMath with obliqueScale := 1 / 2 }.sendProj sampleMath 800 600
        1).projectionMatrix =
      (ortho (-1 : ℚ) 1 (-1) 1 (1 / 10) 500).map
        (fun O => (shearMatrix sampleMath (2 * (1 / 2)) (radians 45)).mul O) :=
  (sendProj_parallel_double_shear sampleMath 800 600 1
    { sampleCamera.init sampleMath with obliqueScale := 1 / 2 } (by norm_num)
    (by decide)).2.2

section Field

variable {F : Type} [LinearOrderedField F]

/-- The projection of `Camera::sendProj` in perspective mode. -/
theorem sendProj_perspective_eq (M : MathFns F) (width height : Int) (c : Camera F)
    (hh : height ≠ 0) :
    (c.sendProj M width height 0).projectionMatrix =
      perspective M (radians (c.fov * ((width : F) / (height : F)))) ((width : F) / (height : F))
        (1 / 10) c.farplane := by
  simp [Camera.sendProj, hh]

/-- The perspective matrix is finite when its divisors are not zero. -/
theorem perspective_eq_some (M : MathFns F) (fovy aspect zNear zFar : F) (ha : aspect ≠ 0)
    (ht : M.tan (fovy / 2) ≠ 0) (hz : zFar ≠ zNear) :
    perspective M fovy aspect zNear zFar =
      some ⟨⟨1 / (aspect * M.tan (fovy / 2)), 0, 0, 0⟩, ⟨0, 1 / M.tan (fovy / 2), 0, 0⟩,
        ⟨0, 0, -((zFar + zNear) / (zFar - zNear)), -1⟩,
        ⟨0, 0, -((2 * zFar * zNear) / (zFar - zNear)), 0⟩⟩ := by
  unfold perspective
  simp only
  rw [if_neg (by push_neg; exact ⟨mul_ne_zero ha ht, ht, sub_ne_zero.mpr hz⟩)]

/-- The perspective matrix is not finite when the tangent of half the angle is zero. -/
theorem perspective_eq_none (M : MathFns F) (fovy aspect zNear zFar : F)
    (ht : M.tan (fovy / 2) = 0) : perspective M fovy aspect zNear zFar = none := by
  unfold perspective
  simp only
  rw [if_pos (Or.inr (Or.inl ht))]

/-- Two perspective matrices with the same aspect and planes agree exactly when the tangents
of their half angles agree. -/
theorem perspective_eq_iff (M : MathFns F) (fovy1 fovy2 aspect zNear zFar : F)
    (ha : aspect ≠ 0) (hz : zFar ≠ zNear) :
    perspective M fovy1 aspect zNear zFar = perspective M fovy2 aspect zNear zFar ↔
      M.tan (fovy1 / 2) = M.tan (fovy2 / 2) := by
  constructor
  · intro h
    by_cases h1 : M.tan (fovy1 / 2) = 0
    · by_cases h2 : M.tan (fovy2 / 2) = 0
      · rw [h1, h2]
      · rw [perspective_eq_none M fovy1 aspect zNear zFar h1,
          perspective_eq_some M fovy2 aspect zNear zFar ha h2 hz] at h
        cases h
    · by_cases h2 : M.tan (fovy2 / 2) = 0
      · rw [perspective_eq_none M fovy2 aspect zNear zFar h2,
          perspective_eq_some M fovy1 aspect zNear zFar ha h1 hz] at h
        cases h
      · rw [perspective_eq_some M fovy1 aspect zNear zFar ha h1 hz,
          perspective_eq_some M fovy2 aspect zNear zFar ha h2 hz] at h
        simp only [Option.some.injEq, Mat4.mk.injEq, Vec4.mk.injEq, and_true, true_and] at h
        have h3 := h.2
        field_simp at h3
        exact h3.symm
  · intro h
    unfold perspective
    simp only [h]

/-- The perspective projection for any field and any maths library: for `width > 0` and
`height > 0`, `Camera::sendProj` sets `projectionMatrix` to
`perspective(radians(fov * aspect), aspect, 0.1, farplane)` with `aspect = width / height`; when
the matrix is finite its entry `[1][1]` is `1 / tan(radians(fov * aspect) / 2)` and its entry
`[0][0]` is `[1][1] / aspect`; it equals the standard
`perspective(radians(fov), aspect, 0.1, farplane)` when `aspect = 1`, and for `farplane != 0.1`
exactly when the two half angles have the same tangent. -/
theorem sendProj_perspective (M : MathFns F) (width height : Int) (c : Camera F)
    (hw : 0 < width) (hh : 0 < height) :
    (c.sendProj M width height 0).projectionMatrix =
        perspective M (radians (c.fov * ((width : F) / (height : F))))
          ((width : F) / (height : F)) (1 / 10) c.farplane ∧
      (M.tan (radians (c.fov * ((width : F) / (height : F))) / 2) ≠ 0 → c.farplane ≠ 1 / 10 →
        ∃ P, (c.sendProj M width height 0).projectionMatrix = some P ∧
          P.c1.y = 1 / M.tan (radians (c.fov * ((width : F) / (height : F))) / 2) ∧
          P.c0.x = P.c1.y / ((width : F) / (height : F))) ∧
      ((width : F) / (height : F) = 1 →
        (c.sendProj M width height 0).projectionMatrix =
          perspective M (radians c.fov) ((width : F) / (height : F)) (1 / 10) c.farplane) ∧
      (c.farplane ≠ 1 / 10 →
        ((c.sendProj M width height 0).projectionMatrix =
            perspective M (radians c.fov) ((width : F) / (height : F)) (1 / 10) c.farplane ↔
          M.tan (radians (c.fov * ((width : F) / (height : F))) / 2) =
            M.tan (radians c.fov / 2))) := by
  have hw0 : (width : F) ≠ 0 := by exact_mod_cast (ne_of_gt hw)
  have hh0 : (height : F) ≠ 0 := by exact_mod_cast (ne_of_gt hh)
  have ha : (width : F) / (height : F) ≠ 0 := div_ne_zero hw0 hh0
  have hp := sendProj_perspective_eq M width height c (ne_of_gt hh)
  refine ⟨hp, fun ht hfar => ?_, fun h1 => ?_, fun hfar => ?_⟩
  · rw [hp, perspective_eq_some M _ _ _ _ ha ht hfar]
    refine ⟨_, rfl, rfl, ?_⟩
    simp only
    field_simp
    ring
  · rw [hp, h1, mul_one]
  · rw [hp]
    exact perspective_eq_iff M _ _ _ _ _ ha hfar

end Field

/-- The projection of the camera of `Camera::init` in a window of 800 by 600. -/
theorem sendProj_perspective_witness :
    ((sampleCamera.init sampleMath).sendProj sampleMath 800 600 0).projectionMatrix =
      perspective sampleMath (radians ((60 : ℚ) * (((800 : ℤ) : ℚ) / ((600 : ℤ) : ℚ))))
        (((800 : ℤ) : ℚ) / ((600 : ℤ) : ℚ)) (1 / 10) 500 :=
  (sendProj_perspective sampleMath 800 600 (sampleCamera.init sampleMath) (by decide)
    (by decide)).1

section Field

variable {F : Type} [LinearOrderedField F]

theorem Vec3.add_sub_cancel_left (e f : Vec3 F) : (e.add f).sub e = f := by
  obtain ⟨a, b, c⟩ := e
  obtain ⟨x, y, z⟩ := f
  simp [Vec3.add, Vec3.sub]

/-- The forward vector has squared length 1 when `sin^2 + cos^2 = 1`. -/
theorem forwardVector_normSq (M : MathFns F)
    (hpyth : ∀ x, M.sin x * M.sin x + M.cos x * M.cos x = 1) (yaw pitch : F) :
    (forwardVector M yaw pitch).normSq = 1 := by
  have hy := hpyth (radians yaw)
  have hp := hpyth (radians pitch)
  simp only [forwardVector, Vec3.normSq, Vec3.dot]
  linear_combination (M.cos (radians pitch) * M.cos (radians pitch)) * hy + hp

/-- The normalisation of `calculateCameraDirection` does not change the forward vector. -/
theorem forwardVector_normalize (M : MathFns F)
    (hpyth : ∀ x, M.sin x * M.sin x + M.cos x * M.cos x = 1) (hsqrt : M.sqrt 1 = 1)
    (yaw pitch : F) :
    (forwardVector M yaw pitch).normalize M = forwardVector M yaw pitch := by
  have h := forwardVector_normSq M hpyth yaw pitch
  unfold Vec3.normSq at h
  simp [Vec3.normalize, h, hsqrt, Vec3.smul]

/-- The camera after `calculateCameraDirection`. -/
theorem calculateCameraDirection_camera (M : MathFns F) (g : GeometryRender F) :
    (g.calculateCameraDirection M).camera =
      { g.camera with
        center := g.camera.eye.add ((forwardVector M g.camera.yaw g.camera.pitch).normalize M)
        up := (((forwardVector M g.camera.yaw g.camera.pitch).normalize M).cross
          ⟨0, 1, 0⟩).cross ((forwardVector M g.camera.yaw g.camera.pitch).normalize M) } := rfl

/-- After `calculateCameraDirection` the camera looks along the forward vector of its yaw and
pitch. -/
theorem calculateCameraDirection_forward (M : MathFns F)
    (hpyth : ∀ x, M.sin x * M.sin x + M.cos x * M.cos x = 1) (hsqrt : M.sqrt 1 = 1)
    (g : GeometryRender F) :
    (g.calculateCameraDirection M).camera.center.sub (g.calculateCameraDirection M).camera.eye =
      forwardVector M g.camera.yaw g.camera.pitch := by
  rw [calculateCameraDirection_camera]
  simp only [forwardVector_normalize M hpyth hsqrt, Vec3.add_sub_cancel_left]

/-- C17 (amended): in exact arithmetic, for `sin` and `cos` with `sin^2 + cos^2 = 1` and
`sqrt 1 = 1` (the real functions), after each of
`rotateCameraUp`, `rotateCameraDown`, `rotateCameraLeft` and `rotateCameraRight` the vector
`center - eye` is `f = (cos(yaw) cos(pitch), sin(pitch), sin(yaw) cos(pitch))` of the updated
yaw and pitch, `f` has length 1 and the normalisation is the identity on `f`. -/
theorem rotateCamera_forward (M : MathFns F)
    (hpyth : ∀ x, M.sin x * M.sin x + M.cos x * M.cos x = 1) (hsqrt : M.sqrt 1 = 1)
    (g : GeometryRender F) (d : F) :
    ((g.rotateCameraUp M d).camera.pitch = glmMod M (g.camera.pitch - d) 360 ∧
        (g.rotateCameraUp M d).camera.yaw = g.camera.yaw ∧
        (g.rotateCameraUp M d).camera.center.sub (g.rotateCameraUp M d).camera.eye =
          forwardVector M (g.rotateCameraUp M d).camera.yaw
            (g.rotateCameraUp M d).camera.pitch) ∧
      ((g.rotateCameraDown M d).camera.pitch = glmMod M (g.camera.pitch + d) 360 ∧
        (g.rotateCameraDown M d).camera.yaw = g.camera.yaw ∧
        (g.rotateCameraDown M d).camera.center.sub (g.rotateCameraDown M d).camera.eye =
          forwardVector M (g.rotateCameraDown M d).camera.yaw
            (g.rotateCameraDown M d).camera.pitch) ∧
      ((g.rotateCameraLeft M d).camera.yaw = glmMod M (g.camera.yaw + d) 360 ∧
        (g.rotateCameraLeft M d).camera.pitch = g.camera.pitch ∧
        (g.rotateCameraLeft M d).camera.center.sub (g.rotateCameraLeft M d).camera.eye =
          forwardVector M (g.rotateCameraLeft M d).camera.yaw
            (g.rotateCameraLeft M d).camera.pitch) ∧
      ((g.rotateCameraRight M d).camera.yaw = glmMod M (g.camera.yaw - d) 360 ∧
        (g.rotateCameraRight M d).camera.pitch = g.camera.pitch ∧
        (g.rotateCameraRight M d).camera.center.sub (g.rotateCameraRight M d).camera.eye =
          forwardVector M (g.rotateCameraRight M d).camera.yaw
            (g.rotateCameraRight M d).camera.pitch) ∧
      (∀ yaw pitch : F, (forwardVector M yaw pitch).normSq = 1 ∧
        (forwardVector M yaw pitch).normalize M = forwardVector M yaw pitch) := by
  refine ⟨⟨rfl, rfl, ?_⟩, ⟨rfl, rfl, ?_⟩, ⟨rfl, rfl, ?_⟩, ⟨rfl, rfl, ?_⟩, fun yaw pitch =>
    ⟨forwardVector_normSq M hpyth yaw pitch, forwardVector_normalize M hpyth hsqrt yaw pitch⟩⟩
  · exact calculateCameraDirection_forward M hpyth hsqrt _
  · exact calculateCameraDirection_forward M hpyth hsqrt _
  · exact calculateCameraDirection_forward M hpyth hsqrt _
  · exact calculateCameraDirection_forward M hpyth hsqrt _

end Field

/-- A run of the amended C17 with the real `sin`, `cos` and `sqrt`: the forward vector of yaw 30 and
pitch 70 has length 1. -/
theorem rotateCamera_forward_witness :
    (forwardVector (⟨Real.sqrt, Real.sin, Real.cos, Real.tan, Real.arcsin,
      fun y x => Complex.arg ⟨x, y⟩, fun x => (⌊x⌋ : ℤ)⟩ : MathFns ℝ) 30 70).normSq = 1 :=
  ((rotateCamera_forward
    (⟨Real.sqrt, Real.sin, Real.cos, Real.tan, Real.arcsin,
      fun y x => Complex.arg ⟨x, y⟩, fun x => (⌊x⌋ : ℤ)⟩ : MathFns ℝ)
    (fun x => by
      have := Real.sin_sq_add_cos_sq x
      simp only [sq] at this
      exact this)
    Real.sqrt_one
    (GeometryRender.start ⟨Real.sqrt, Real.sin, Real.cos, Real.tan, Real.arcsin,
      fun y x => Complex.arg ⟨x, y⟩, fun x => (⌊x⌋ : ℤ)⟩) 30).2.2.2.2 30 70).1

section Field

variable {F : Type} [LinearOrderedField F]

/-- The vector `cross(cross(f, w), f)` is orthogonal to `f`. -/
theorem Vec3.dot_cross_cross_self (f w : Vec3 F) : ((f.cross w).cross f).dot f = 0 := by
  obtain ⟨a, b, c⟩ := f
  obtain ⟨x, y, z⟩ := w
  simp only [Vec3.cross, Vec3.dot]
  ring

theorem Vec3.add_sub_add_right (a b m : Vec3 F) : (a.add m).sub (b.add m) = a.sub b := by
  obtain ⟨a0, a1, a2⟩ := a
  obtain ⟨b0, b1, b2⟩ := b
  obtain ⟨m0, m1, m2⟩ := m
  simp [Vec3.add, Vec3.sub]

/-- After `calculateCameraDirection`, `up` is orthogonal to `center - eye`. -/
theorem calculateCameraDirection_up_dot (M : MathFns F) (g : GeometryRender F) :
    (g.calculateCameraDirection M).camera.up.dot
      ((g.calculateCameraDirection M).camera.center.sub
        (g.calculateCameraDirection M).camera.eye) = 0 := by
  rw [calculateCameraDirection_camera]
  simp only [Vec3.add_sub_cancel_left, Vec3.dot_cross_cross_self]

/-- A translation of the camera keeps `up` and `center - eye`. -/
theorem translateCamera_up_dot (movement : Vec3 F) (g : GeometryRender F) :
    (GeometryRender.translateCamera movement g).camera.up.dot
        ((GeometryRender.translateCamera movement g).camera.center.sub
          (GeometryRender.translateCamera movement g).camera.eye) =
      g.camera.up.dot (g.camera.center.sub g.camera.eye) := by
  simp only [GeometryRender.translateCamera, Vec3.add_sub_add_right]

/-- Every camera operation leaves `up` orthogonal to `center - eye` when it was. -/
theorem applyCameraOp_up_dot (M : MathFns F) (g : GeometryRender F) (op : CameraOp F)
    (h : g.camera.up.dot (g.camera.center.sub g.camera.eye) = 0) :
    (g.applyCameraOp M op).camera.up.dot
      ((g.applyCameraOp M op).camera.center.sub (g.applyCameraOp M op).camera.eye) = 0 := by
  cases op with
  | rotateCameraUp dy => exact calculateCameraDirection_up_dot M _
  | rotateCameraDown dy => exact calculateCameraDirection_up_dot M _
  | rotateCameraLeft dx => exact calculateCameraDirection_up_dot M _
  | rotateCameraRight dx => exact calculateCameraDirection_up_dot M _
  | moveCameraUp => exact (translateCamera_up_dot _ g).trans h
  | moveCameraDown => exact (translateCamera_up_dot _ g).trans h
  | moveCameraLeft => exact (translateCamera_up_dot _ g).trans h
  | moveCameraRight => exact (translateCamera_up_dot _ g).trans h
  | moveCameraForwards => exact (translateCamera_up_dot _ g).trans h
  | moveCameraBackwards => exact (translateCamera_up_dot _ g).trans h

theorem applyCameraOps_up_dot (M : MathFns F) (ops : List (CameraOp F)) :
    ∀ g : GeometryRender F, g.camera.up.dot (g.camera.center.sub g.camera.eye) = 0 →
      (g.applyCameraOps M ops).camera.up.dot
        ((g.applyCameraOps M ops).camera.center.sub (g.applyCameraOps M ops).camera.eye) = 0 := by
  induction ops with
  | nil => intro g h; exact h
  | cons op ops ih =>
    intro g h
    exact ih (g.applyCameraOp M op) (applyCameraOp_up_dot M g op h)

/-- C18 (amended): in exact arithmetic, in every state reached from `Camera::init` by a
sequence of `rotateCamera*` calls (and `moveCamera*` calls), `camera.up` is orthogonal to
`center - eye`: their dot product is 0. -/
theorem camera_up_orthogonal_forward (M : MathFns F) (g : GeometryRender F)
    (ops : List (CameraOp F)) :
    (({ g with camera := g.camera.init M }).applyCameraOps M ops).camera.up.dot
      ((({ g with camera := g.camera.init M }).applyCameraOps M ops).camera.center.sub
        (({ g with camera := g.camera.init M }).applyCameraOps M ops).camera.eye) = 0 :=
  applyCameraOps_up_dot M ops _ (by simp [Camera.init, Vec3.dot, Vec3.sub])

/-- The squared length of `up` after `calculateCameraDirection` is `cos(pitch)^2`. -/
theorem calculateCameraDirection_up_normSq (M : MathFns F)
    (hpyth : ∀ x, M.sin x * M.sin x + M.cos x * M.cos x = 1) (hsqrt : M.sqrt 1 = 1)
    (g : GeometryRender F) :
    (g.calculateCameraDirection M).camera.up.normSq =
      M.cos (radians g.camera.pitch) * M.cos (radians g.camera.pitch) := by
  have hy := hpyth (radians g.camera.yaw)
  have hp := hpyth (radians g.camera.pitch)
  rw [calculateCameraDirection_camera]
  simp only [forwardVector_normalize M hpyth hsqrt]
  simp only [forwardVector, Vec3.normSq, Vec3.dot, Vec3.cross]
  linear_combination
    ((M.cos (radians g.camera.pitch) * M.cos (radians g.camera.pitch)) ^ 2 *
        (M.sin (radians g.camera.yaw) * M.sin (radians g.camera.yaw) +
          M.cos (radians g.camera.yaw) * M.cos (radians g.camera.yaw)) +
      M.cos (radians g.camera.pitch) * M.cos (radians g.camera.pitch)) * hy +
    ((M.cos (radians g.camera.pitch) * M.cos (radians g.camera.pitch)) *
      (M.sin (radians g.camera.yaw) * M.sin (radians g.camera.yaw) +
        M.cos (radians g.camera.yaw) * M.cos (radians g.camera.yaw))) * hp

end Field

/-- C19 fails on the code: `calculateCameraDirection` normalises `front` and not `up`, so the
length of `up` is `|cos(pitch)|`.  With the real `sin`, `cos`, `sqrt` and `floor`, after
`rotateCameraDown(60)` from the state of `Camera::init` the pitch is 60 and the squared length
of `up` is `cos^2` of 60 degrees, which is below 1. -/
theorem rotateCameraDown_up_not_unit :
    ((GeometryRender.start (⟨Real.sqrt, Real.sin, Real.cos, Real.tan, Real.arcsin,
        fun y x => Complex.arg ⟨x, y⟩, fun x => (⌊x⌋ : ℤ)⟩ : MathFns ℝ)).rotateCameraDown
        ⟨Real.sqrt, Real.sin, Real.cos, Real.tan, Real.arcsin,
          fun y x => Complex.arg ⟨x, y⟩, fun x => (⌊x⌋ : ℤ)⟩ 60).camera.pitch = 60 ∧
      ((GeometryRender.start (⟨Real.sqrt, Real.sin, Real.cos, Real.tan, Real.arcsin,
        fun y x => Complex.arg ⟨x, y⟩, fun x => (⌊x⌋ : ℤ)⟩ : MathFns ℝ)).rotateCameraDown
        ⟨Real.sqrt, Real.sin, Real.cos, Real.tan, Real.arcsin,
          fun y x => Complex.arg ⟨x, y⟩, fun x => (⌊x⌋ : ℤ)⟩ 60).camera.up.normSq =
        Real.cos (radians 60) * Real.cos (radians 60) ∧
      ((GeometryRender.start (⟨Real.sqrt, Real.sin, Real.cos, Real.tan, Real.arcsin,
        fun y x => Complex.arg ⟨x, y⟩, fun x => (⌊x⌋ : ℤ)⟩ : MathFns ℝ)).rotateCameraDown
        ⟨Real.sqrt, Real.sin, Real.cos, Real.tan, Real.arcsin,
          fun y x => Complex.arg ⟨x, y⟩, fun x => (⌊x⌋ : ℤ)⟩ 60).camera.up.normSq < 1 := by
  have hpyth : ∀ x : ℝ, Real.sin x * Real.sin x + Real.cos x * Real.cos x = 1 := fun x => by
    have := Real.sin_sq_add_cos_sq x
    simp only [sq] at this
    exact this
  have hfloor : (⌊((0 : ℝ) + 60) / 360⌋ : ℤ) = 0 := by
    rw [Int.floor_eq_iff]
    norm_num
  have hpitch : glmMod (⟨Real.sqrt, Real.sin, Real.cos, Real.tan, Real.arcsin,
      fun y x => Complex.arg ⟨x, y⟩, fun x => (⌊x⌋ : ℤ)⟩ : MathFns ℝ) ((0 : ℝ) + 60) 360 = 60 := by
    simp only [glmMod, hfloor]
    norm_num
  have hsq := calculateCameraDirection_up_normSq
    (⟨Real.sqrt, Real.sin, Real.cos, Real.tan, Real.arcsin,
      fun y x => Complex.arg ⟨x, y⟩, fun x => (⌊x⌋ : ℤ)⟩ : MathFns ℝ) hpyth Real.sqrt_one
  have hval : ((GeometryRender.start (⟨Real.sqrt, Real.sin, Real.cos, Real.tan, Real.arcsin,
        fun y x => Complex.arg ⟨x, y⟩, fun x => (⌊x⌋ : ℤ)⟩ : MathFns ℝ)).rotateCameraDown
        ⟨Real.sqrt, Real.sin, Real.cos, Real.tan, Real.arcsin,
          fun y x => Complex.arg ⟨x, y⟩, fun x => (⌊x⌋ : ℤ)⟩ 60).camera.up.normSq =
        Real.cos (radians 60) * Real.cos (radians 60) := by
    have h := hsq { GeometryRender.start (⟨Real.sqrt, Real.sin, Real.cos, Real.tan, Real.arcsin,
        fun y x => Complex.arg ⟨x, y⟩, fun x => (⌊x⌋ : ℤ)⟩ : MathFns ℝ) with
      camera := { (GeometryRender.start (⟨Real.sqrt, Real.sin, Real.cos, Real.tan, Real.arcsin,
        fun y x => Complex.arg ⟨x, y⟩, fun x => (⌊x⌋ : ℤ)⟩ : MathFns ℝ)).camera with
          pitch := 60 } }
    rw [← h]
    simp only [GeometryRender.rotateCameraDown, GeometryRender.start, Camera.init, hpitch]
  have hsin : 0 < Real.sin (radians (60 : ℝ)) := by
    apply Real.sin_pos_of_pos_of_lt_pi
    · unfold radians; norm_num
    · have := Real.pi_gt_d2
      unfold radians
      norm_num at this ⊢
      linarith
  refine ⟨?_, hval, ?_⟩
  · simp only [GeometryRender.rotateCameraDown, GeometryRender.start, Camera.init,
      GeometryRender.calculateCameraDirection, hpitch]
  · rw [hval]
    have := hpyth (radians 60)
    nlinarith [mul_pos hsin hsin]

/-! ## Range of yaw and pitch -/

section Field

variable {F : Type} [LinearOrderedField F]

/-- The value of `glm::mod(x, 360)` lies in `[0, 360)` when `floor` is a floor. -/
theorem glmMod_360_range (M : MathFns F)
    (hfloor : ∀ x, M.floor x ≤ x ∧ x < M.floor x + 1) (x : F) :
    0 ≤ glmMod M x 360 ∧ glmMod M x 360 < 360 := by
  have h := hfloor (x / 360)
  have h1 : M.floor (x / 360) * 360 ≤ x := by
    have := mul_le_mul_of_nonneg_right h.1 (by norm_num : (0 : F) ≤ 360)
    rwa [div_mul_cancel₀ x (by norm_num : (360 : F) ≠ 0)] at this
  have h2 : x < (M.floor (x / 360) + 1) * 360 := by
    have := mul_lt_mul_of_pos_right h.2 (by norm_num : (0 : F) < 360)
    rwa [div_mul_cancel₀ x (by norm_num : (360 : F) ≠ 0)] at this
  unfold glmMod
  constructor <;> linarith

/-- The pitch and yaw after one camera operation. -/
theorem applyCameraOp_angles (M : MathFns F) (g : GeometryRender F) (op : CameraOp F) :
    ((g.applyCameraOp M op).camera.pitch = g.camera.pitch ∨
        ∃ x, (g.applyCameraOp M op).camera.pitch = glmMod M x 360) ∧
      (op.turnsYaw = true → ∃ x, (g.applyCameraOp M op).camera.yaw = glmMod M x 360) ∧
      (op.turnsYaw = false → (g.applyCameraOp M op).camera.yaw = g.camera.yaw) := by
  cases op with
  | rotateCameraUp dy => exact ⟨Or.inr ⟨_, rfl⟩, (fun h => by cases h), fun _ => rfl⟩
  | rotateCameraDown dy => exact ⟨Or.inr ⟨_, rfl⟩, (fun h => by cases h), fun _ => rfl⟩
  | rotateCameraLeft dx => exact ⟨Or.inl rfl, fun _ => ⟨_, rfl⟩, (fun h => by cases h)⟩
  | rotateCameraRight dx => exact ⟨Or.inl rfl, fun _ => ⟨_, rfl⟩, (fun h => by cases h)⟩
  | moveCameraUp => exact ⟨Or.inl rfl, (fun h => by cases h), fun _ => rfl⟩
  | moveCameraDown => exact ⟨Or.inl rfl, (fun h => by cases h), fun _ => rfl⟩
  | moveCameraLeft => exact ⟨Or.inl rfl, (fun h => by cases h), fun _ => rfl⟩
  | moveCameraRight => exact ⟨Or.inl rfl, (fun h => by cases h), fun _ => rfl⟩
  | moveCameraForwards => exact ⟨Or.inl rfl, (fun h => by cases h), fun _ => rfl⟩
  | moveCameraBackwards => exact ⟨Or.inl rfl, (fun h => by cases h), fun _ => rfl⟩

/-- A pitch in `[0, 360)` stays there under every sequence of camera operations. -/
theorem applyCameraOps_pitch_range (M : MathFns F)
    (hfloor : ∀ x, M.floor x ≤ x ∧ x < M.floor x + 1) (ops : List (CameraOp F)) :
    ∀ g : GeometryRender F, (0 ≤ g.camera.pitch ∧ g.camera.pitch < 360) →
      0 ≤ (g.applyCameraOps M ops).camera.pitch ∧ (g.applyCameraOps M ops).camera.pitch < 360 := by
  induction ops with
  | nil => intro g h; exact h
  | cons op ops ih =>
    intro g h
    apply ih (g.applyCameraOp M op)
    rcases (applyCameraOp_angles M g op).1 with h1 | ⟨x, h1⟩
    · rw [h1]; exact h
    · rw [h1]; exact glmMod_360_range M hfloor x

/-- A yaw in `[0, 360)` stays there under every sequence of camera operations. -/
theorem applyCameraOps_yaw_range (M : MathFns F)
    (hfloor : ∀ x, M.floor x ≤ x ∧ x < M.floor x + 1) (ops : List (CameraOp F)) :
    ∀ g : GeometryRender F, (0 ≤ g.camera.yaw ∧ g.camera.yaw < 360) →
      0 ≤ (g.applyCameraOps M ops).camera.yaw ∧ (g.applyCameraOps M ops).camera.yaw < 360 := by
  induction ops with
  | nil => intro g h; exact h
  | cons op ops ih =>
    intro g h
    apply ih (g.applyCameraOp M op)
    cases hop : op.turnsYaw with
    | true =>
      obtain ⟨x, hx⟩ := (applyCameraOp_angles M g op).2.1 hop
      rw [hx]; exact glmMod_360_range M hfloor x
    | false => rw [(applyCameraOp_angles M g op).2.2 hop]; exact h

/-- Once an operation has turned the yaw, the yaw lies in `[0, 360)`. -/
theorem applyCameraOps_yaw_range_of_turn (M : MathFns F)
    (hfloor : ∀ x, M.floor x ≤ x ∧ x < M.floor x + 1) (ops : List (CameraOp F)) :
    ∀ g : GeometryRender F, (∃ op ∈ ops, op.turnsYaw = true) →
      0 ≤ (g.applyCameraOps M ops).camera.yaw ∧ (g.applyCameraOps M ops).camera.yaw < 360 := by
  induction ops with
  | nil => intro g h; obtain ⟨op, hop, -⟩ := h; simp at hop
  | cons op ops ih =>
    intro g h
    cases hop : op.turnsYaw with
    | true =>
      obtain ⟨x, hx⟩ := (applyCameraOp_angles M g op).2.1 hop
      exact applyCameraOps_yaw_range M hfloor ops (g.applyCameraOp M op)
        (by rw [hx]; exact glmMod_360_range M hfloor x)
    | false =>
      apply ih (g.applyCameraOp M op)
      obtain ⟨op1, hmem, h1⟩ := h
      rcases List.mem_cons.mp hmem with heq | hin
      · rw [heq, hop] at h1; cases h1
      · exact ⟨op1, hin, h1⟩

/-- Operations that do not turn the yaw leave it as it is. -/
theorem applyCameraOps_yaw_of_no_turn (M : MathFns F) (ops : List (CameraOp F)) :
    ∀ g : GeometryRender F, (∀ op ∈ ops, op.turnsYaw = false) →
      (g.applyCameraOps M ops).camera.yaw = g.camera.yaw := by
  induction ops with
  | nil => intro g _; rfl
  | cons op ops ih =>
    intro g h
    have h1 := ih (g.applyCameraOp M op) (fun o ho => h o (List.mem_cons_of_mem _ ho))
    exact h1.trans ((applyCameraOp_angles M g op).2.2 (h op (List.mem_cons_self _ _)))

/-- C20 (amended): in exact arithmetic, with the exact `floor` in `glm::mod`, in every camera
state reached from `Camera::init` by a sequence of `rotateCamera*` and `moveCamera*` operations
the pitch lies in `[0, 360)`; the yaw lies in `[0, 360)` once `rotateCameraLeft` or
`rotateCameraRight` has been applied, and is the -90 of `Camera::init` until then. -/
theorem camera_angles_range (M : MathFns F)
    (hfloor : ∀ x, M.floor x ≤ x ∧ x < M.floor x + 1) (g : GeometryRender F)
    (ops : List (CameraOp F)) :
    (0 ≤ (({ g with camera := g.camera.init M }).applyCameraOps M ops).camera.pitch ∧
        (({ g with camera := g.camera.init M }).applyCameraOps M ops).camera.pitch < 360) ∧
      ((∃ op ∈ ops, op.turnsYaw = true) →
        0 ≤ (({ g with camera := g.camera.init M }).applyCameraOps M ops).camera.yaw ∧
          (({ g with camera := g.camera.init M }).applyCameraOps M ops).camera.yaw < 360) ∧
      ((∀ op ∈ ops, op.turnsYaw = false) →
        (({ g with camera := g.camera.init M }).applyCameraOps M ops).camera.yaw = -90) :=
  ⟨applyCameraOps_pitch_range M hfloor ops _ (by simp [Camera.init]),
    applyCameraOps_yaw_range_of_turn M hfloor ops _,
    fun h => applyCameraOps_yaw_of_no_turn M ops _ h⟩

end Field

/-- A run of the amended C20: after `rotateCameraUp(10)` and `rotateCameraLeft(100)` the pitch
is 350 and the yaw is 10. -/
theorem camera_angles_range_witness :
    ((GeometryRender.start floorMath).applyCameraOps floorMath
        [.rotateCameraUp 10, .rotateCameraLeft 100]).camera.pitch = 350 ∧
      ((GeometryRender.start floorMath).applyCameraOps floorMath
        [.rotateCameraUp 10, .rotateCameraLeft 100]).camera.yaw = 10 ∧
      (0 ≤ ((GeometryRender.start floorMath).applyCameraOps floorMath
          [.rotateCameraUp 10, .rotateCameraLeft 100]).camera.pitch ∧
        ((GeometryRender.start floorMath).applyCameraOps floorMath
          [.rotateCameraUp 10, .rotateCameraLeft 100]).camera.pitch < 360) := by
  have h := camera_angles_range floorMath
    (fun x => ⟨Int.floor_le x, Int.lt_floor_add_one x⟩) (GeometryRender.start floorMath)
    [.rotateCameraUp 10, .rotateCameraLeft 100]
  have hf1 : (⌊((0 : ℚ) - 10) / 360⌋ : ℤ) = -1 := by
    rw [Int.floor_eq_iff]; norm_num
  have hf2 : (⌊((-90 : ℚ) + 100) / 360⌋ : ℤ) = 0 := by
    rw [Int.floor_eq_iff]; norm_num
  refine ⟨?_, ?_, h.1⟩
  · simp only [GeometryRender.applyCameraOps, List.foldl, GeometryRender.applyCameraOp,
      GeometryRender.rotateCameraUp, GeometryRender.rotateCameraLeft,
      GeometryRender.calculateCameraDirection, GeometryRender.start, Camera.init, glmMod,
      floorMath, hf1]
    norm_num
  · simp only [GeometryRender.applyCameraOps, List.foldl, GeometryRender.applyCameraOp,
      GeometryRender.rotateCameraUp, GeometryRender.rotateCameraLeft,
      GeometryRender.calculateCameraDirection, GeometryRender.start, Camera.init, glmMod,
      floorMath, hf2]
    norm_num

/-- The yaw before the first turn, in exact arithmetic: `Camera::init` sets the yaw to -90, and
only `rotateCameraLeft` and `rotateCameraRight` wrap it; after `moveCameraForwards` and
`rotateCameraUp(10)` the yaw is still -90, outside `[0, 360)`. -/
theorem camera_yaw_negative_after_init :
    (Camera.init floorMath Camera.blank).yaw = -90 ∧
      ((GeometryRender.start floorMath).applyCameraOps floorMath
        [.moveCameraForwards, .rotateCameraUp 10]).camera.yaw = -90 ∧
      ¬ (0 ≤ ((GeometryRender.start floorMath).applyCameraOps floorMath
          [.moveCameraForwards, .rotateCameraUp 10]).camera.yaw ∧
        ((GeometryRender.start floorMath).applyCameraOps floorMath
          [.moveCameraForwards, .rotateCameraUp 10]).camera.yaw < 360) := by
  have h : ((GeometryRender.start floorMath).applyCameraOps floorMath
      [.moveCameraForwards, .rotateCameraUp 10]).camera.yaw = -90 := rfl
  refine ⟨rfl, h, ?_⟩
  rw [h]
  norm_num

/-! ## The blocks of `display` -/

section Field

variable {F : Type} [LinearOrderedField F]

/-- The method `Camera::sendProj` changes nothing but the projection matrix. -/
theorem sendProj_eq (M : MathFns F) (width height projmode : Int) (c : Camera F) :
    c.sendProj M width height projmode =
      { c with projectionMatrix := (c.sendProj M width height projmode).projectionMatrix } := by
  unfold Camera.sendProj
  simp only
  split_ifs <;> rfl

/-- The frame as the sequence of its blocks. -/
theorem display_eq_blocks (M : MathFns F) (width height : Int) (g : GeometryRender F) :
    g.display M width height =
      (((((g.displayEarth M).displayFirstRun M width height).1.displayModel.1.displayView
          M).1.handleProjection M width height).1,
        ((g.displayEarth M).displayFirstRun M width height).2 ++
          ((g.displayEarth M).displayFirstRun M width height).1.displayModel.2 ++
          [.useTexture
            ((g.displayEarth M).displayFirstRun M width
              height).1.displayModel.1.object.textureShow] ++
          (((g.displayEarth M).displayFirstRun M width height).1.displayModel.1.displayView M).2 ++
          ((((g.displayEarth M).displayFirstRun M width height).1.displayModel.1.displayView
            M).1.handleProjection M width height).2 ++
          [.drawElements (((((g.displayEarth M).displayFirstRun M width
            height).1.displayModel.1.displayView M).1.handleProjection M width
            height).1.object.getIndices)]) := by
  simp only [GeometryRender.display, GeometryRender.displayEarth, GeometryRender.displayFirstRun,
    GeometryRender.displayModel, GeometryRender.displayView, List.append_assoc]

end Field

section Field

variable {F : Type} [LinearOrderedField F]

namespace GeometryRender

/-- The renderer after `handleMaterial`: the model holds the material of the GUI. -/
theorem handleMaterial_state (g : GeometryRender F) :
    g.handleMaterial.2.1 =
      { g with object := { g.object with
          materialDiffuse := g.materialDiffuse
          materialAmbient := g.materialAmbient
          materialSpecular := g.materialSpecular
          materialShininess := g.materialShininess } } := by
  obtain ⟨a1, a2, a3, a4, a5, a6, a7, a8, a9, a10, a11, a12, mA, mD, mS, mSh, a17, object, a19,
    a20, a21, a22, a23⟩ := g
  obtain ⟨b1, b2, b3, b4, b5, b6, b7, oA, oD, oS, oSh, b12, b13, b14, b15, b16, b17⟩ := object
  simp only [handleMaterial]
  by_cases h1 : oD = mD <;> by_cases h2 : oA = mA <;> by_cases h3 : oS = mS <;>
    by_cases h4 : oSh = mSh <;> simp [h1, h2, h3, h4]

/-- The flag returned by `handleMaterial`. -/
theorem handleMaterial_flag (g : GeometryRender F) :
    g.handleMaterial.1 = true ↔ g.materialDiffers := by
  simp only [handleMaterial, materialDiffers]
  by_cases h1 : g.object.materialDiffuse = g.materialDiffuse <;>
    by_cases h2 : g.object.materialAmbient = g.materialAmbient <;>
    by_cases h3 : g.object.materialSpecular = g.materialSpecular <;>
    by_cases h4 : g.object.materialShininess = g.materialShininess <;> simp [h1, h2, h3, h4]

/-- The uploads of `handleMaterial`: the material and the model matrix, when the flag is set. -/
theorem handleMaterial_uploads (g : GeometryRender F) :
    g.handleMaterial.2.2 =
      if g.handleMaterial.1 = true then g.handleMaterial.2.1.object.sendModel true else [] := by
  simp only [handleMaterial]

end GeometryRender

end Field

section Field

variable {F : Type} [LinearOrderedField F]

namespace GeometryRender

/-- The renderer after `handleProjection`: the camera holds the five parameters of the GUI, and
a new projection matrix when one of them differed. -/
theorem handleProjection_state (M : MathFns F) (width height : Int) (g : GeometryRender F) :
    (g.handleProjection M width height).1 =
      { g with camera := { g.guiCamera with
          projectionMatrix :=
            if g.projectionDiffers
            then (g.guiCamera.sendProj M width height g.projMode).projectionMatrix
            else g.camera.projectionMatrix } } := by
  obtain ⟨a1, a2, a3, a4, gfov, gfar, gtop, gscale, gangle, a10, a11, a12, a13, a14, a15, a16,
    a17, a18, camera, a20, a21, a22, a23⟩ := g
  obtain ⟨b1, b2, b3, b4, b5, cfov, cfar, ctop, cscale, cangle, b11, b12⟩ := camera
  simp only [handleProjection, projectionDiffers, guiCamera, Camera.sendProjUpload]
  by_cases h1 : cfov = gfov <;> by_cases h2 : cfar = gfar <;> by_cases h3 : ctop = gtop <;>
    by_cases h4 : cangle = gangle <;> by_cases h5 : cscale = gscale <;>
    simp [h1, h2, h3, h4, h5] <;> rw [sendProj_eq]

/-- The uploads of `handleProjection`: the projection matrix, when a parameter differed. -/
theorem handleProjection_uploads (M : MathFns F) (width height : Int) (g : GeometryRender F) :
    (g.handleProjection M width height).2 =
      if g.projectionDiffers
      then [.projection (g.guiCamera.sendProj M width height g.projMode).projectionMatrix]
      else [] := by
  obtain ⟨a1, a2, a3, a4, gfov, gfar, gtop, gscale, gangle, a10, a11, a12, a13, a14, a15, a16,
    a17, a18, camera, a20, a21, a22, a23⟩ := g
  obtain ⟨b1, b2, b3, b4, b5, cfov, cfar, ctop, cscale, cangle, b11, b12⟩ := camera
  simp only [handleProjection, projectionDiffers, guiCamera, Camera.sendProjUpload]
  by_cases h1 : cfov = gfov <;> by_cases h2 : cfar = gfar <;> by_cases h3 : ctop = gtop <;>
    by_cases h4 : cangle = gangle <;> by_cases h5 : cscale = gscale <;>
    simp [h1, h2, h3, h4, h5]

end GeometryRender

end Field

section Field

variable {F : Type} [LinearOrderedField F]

namespace GeometryRender

/-- The renderer after lines 297-298 of `display`. -/
theorem displayEarth_state (M : MathFns F) (g : GeometryRender F) :
    g.displayEarth M =
      { g with
        object := { g.object with
          modelMat := if g.showsEarth
            then g.object.modelMat.map (fun m => Mat4.rotate M m (radians (4 / 10)) ⟨0, 1, 0⟩)
            else g.object.modelMat }
        modelChanged := if g.showsEarth then true else g.modelChanged } := by
  by_cases h : g.showsEarth
  · have h1 := h
    unfold showsEarth at h1
    simp [displayEarth, rotateEarth, h, h1]
  · have h1 := h
    unfold showsEarth at h1
    simp only [displayEarth, if_neg h1, if_neg h]

/-- The renderer after lines 304-311 of `display`. -/
theorem displayFirstRun_state (M : MathFns F) (width height : Int) (g : GeometryRender F) :
    (g.displayFirstRun M width height).1 =
      { g with
        firstRun := false
        camera := { g.camera with
          viewMatrix := if g.firstRun = true
            then lookAt M g.camera.eye g.camera.center g.camera.up else g.camera.viewMatrix
          projectionMatrix := if g.firstRun = true
            then (g.camera.sendProj M width height g.projMode).projectionMatrix
            else g.camera.projectionMatrix } } := by
  by_cases h : g.firstRun = true
  · simp only [displayFirstRun, h, if_true, Camera.sendProjUpload, Camera.sendView]
    rw [sendProj_eq]
  · have h0 : g.firstRun = false := by simpa using h
    simp only [displayFirstRun, if_neg h]
    obtain ⟨a1, a2, a3, a4, gfov, gfar, gtop, gscale, gangle, a10, a11, a12, a13, a14, a15,
      a16, a17, a18, camera, a20, a21, a22, a23⟩ := g
    simp only at h0
    subst h0
    rfl

/-- The uploads of lines 304-311 of `display`. -/
theorem displayFirstRun_uploads (M : MathFns F) (width height : Int) (g : GeometryRender F) :
    (g.displayFirstRun M width height).2 =
      if g.firstRun = true then
        [.projection (g.camera.sendProj M width height g.projMode).projectionMatrix,
          .view (lookAt M g.camera.eye g.camera.center g.camera.up), .eye g.camera.eye,
          .ambientColor g.world.ambientColor, .lightColor g.world.lightColor,
          .lightPos g.world.lightPos, .materialDiffuse g.object.materialDiffuse,
          .materialAmbient g.object.materialAmbient,
          .materialSpecular g.object.materialSpecular,
          .materialShininess g.object.materialShininess, .model g.object.modelMat]
      else [] := by
  by_cases h : g.firstRun = true
  · simp only [displayFirstRun, h, if_true, Camera.sendProjUpload, Camera.sendView,
      Scene.sendScene, Model.sendModel]
    rw [sendProj_eq]
    rfl
  · simp only [displayFirstRun, if_neg h]

/-- The renderer after lines 313-320 of `display`. -/
theorem displayModel_state (g : GeometryRender F) :
    g.displayModel.1 =
      { g with
        object := { g.object with
          materialDiffuse := g.materialDiffuse
          materialAmbient := g.materialAmbient
          materialSpecular := g.materialSpecular
          materialShininess := g.materialShininess }
        modelChanged := false } := by
  simp only [displayModel, handleMaterial_state]
  by_cases h : g.modelChanged = true
  · simp only [h, if_true]
  · have h0 : g.modelChanged = false := by simpa using h
    simp only [if_neg h]
    obtain ⟨a1, a2, a3, a4, gfov, gfar, gtop, gscale, gangle, a10, a11, a12, a13, a14, a15,
      a16, a17, a18, camera, a20, a21, a22, a23⟩ := g
    simp only at h0
    subst h0
    rfl

/-- The uploads of lines 313-320 of `display`: with a differing material the material and the
model matrix, otherwise the model matrix when `modelChanged` is set, otherwise nothing. -/
theorem displayModel_uploads (g : GeometryRender F) :
    g.displayModel.2 =
      if g.materialDiffers then
        [.materialDiffuse g.materialDiffuse, .materialAmbient g.materialAmbient,
          .materialSpecular g.materialSpecular, .materialShininess g.materialShininess,
          .model g.object.modelMat]
      else if g.modelChanged = true then [.model g.object.modelMat] else [] := by
  have hflag := handleMaterial_flag g
  simp only [displayModel, handleMaterial_uploads, handleMaterial_state]
  by_cases hd : g.materialDiffers
  · have h1 : g.handleMaterial.1 = true := hflag.mpr hd
    by_cases hm : g.modelChanged = true <;> simp [h1, hd, hm, Model.sendModel]
  · have h1 : g.handleMaterial.1 = false := by
      cases hb : g.handleMaterial.1
      · rfl
      · exact absurd (hflag.mp hb) hd
    by_cases hm : g.modelChanged = true <;> simp [h1, hd, hm, Model.sendModel]

/-- The renderer after lines 333-336 of `display`. -/
theorem displayView_state (M : MathFns F) (g : GeometryRender F) :
    (g.displayView M).1 =
      { g with
        camera := { g.camera with
          viewMatrix := if g.viewChanged = true
            then lookAt M g.camera.eye g.camera.center g.camera.up else g.camera.viewMatrix }
        viewChanged := false } := by
  by_cases h : g.viewChanged = true
  · simp only [displayView, h, if_true, Camera.sendView]
  · have h0 : g.viewChanged = false := by simpa using h
    simp only [displayView, if_neg h]
    obtain ⟨a1, a2, a3, a4, gfov, gfar, gtop, gscale, gangle, a10, a11, a12, a13, a14, a15,
      a16, a17, a18, camera, a20, a21, a22, a23⟩ := g
    simp only at h0
    subst h0
    rfl

/-- The uploads of lines 333-336 of `display`. -/
theorem displayView_uploads (M : MathFns F) (g : GeometryRender F) :
    (g.displayView M).2 =
      if g.viewChanged = true
      then [.view (lookAt M g.camera.eye g.camera.center g.camera.up), .eye g.camera.eye]
      else [] := by
  by_cases h : g.viewChanged = true
  · simp only [displayView, h, if_true, Camera.sendView]
  · simp only [displayView, if_neg h]

end GeometryRender

end Field

section Field

variable {F : Type} [LinearOrderedField F]

namespace GeometryRender

/-- The flags after a frame are all cleared. -/
theorem display_flags (M : MathFns F) (width height : Int) (g : GeometryRender F) :
    (g.display M width height).1.firstRun = false ∧
      (g.display M width height).1.viewChanged = false ∧
      (g.display M width height).1.modelChanged = false := by
  simp only [display_eq_blocks, handleProjection_state, displayView_state, displayModel_state,
    displayFirstRun_state, displayEarth_state, and_self]

/-- A frame changes neither the scene nor the values of the GUI. -/
theorem display_frame (M : MathFns F) (width height : Int) (g : GeometryRender F) :
    (g.display M width height).1.world = g.world ∧
      (g.display M width height).1.projMode = g.projMode ∧
      (g.display M width height).1.fov = g.fov ∧
      (g.display M width height).1.farplane = g.farplane ∧
      (g.display M width height).1.top = g.top ∧
      (g.display M width height).1.obliqueScale = g.obliqueScale ∧
      (g.display M width height).1.obliqueAngleRad = g.obliqueAngleRad := by
  simp only [display_eq_blocks, handleProjection_state, displayView_state, displayModel_state,
    displayFirstRun_state, displayEarth_state, and_self]

/-- The camera after a frame: `eye`, `center` and `up` are kept, the five projection
parameters are those of the GUI, and the view matrix is recomputed when `firstRun` or
`viewChanged` was set. -/
theorem display_camera (M : MathFns F) (width height : Int) (g : GeometryRender F) :
    (g.display M width height).1.camera.eye = g.camera.eye ∧
      (g.display M width height).1.camera.center = g.camera.center ∧
      (g.display M width height).1.camera.up = g.camera.up ∧
      (g.display M width height).1.camera.fov = g.fov ∧
      (g.display M width height).1.camera.farplane = g.farplane ∧
      (g.display M width height).1.camera.top = g.top ∧
      (g.display M width height).1.camera.obliqueScale = g.obliqueScale ∧
      (g.display M width height).1.camera.obliqueAngleRad = g.obliqueAngleRad ∧
      (g.display M width height).1.camera.viewMatrix =
        if g.firstRun = true ∨ g.viewChanged = true
        then lookAt M g.camera.eye g.camera.center g.camera.up else g.camera.viewMatrix := by
  simp only [display_eq_blocks, handleProjection_state, displayView_state, displayModel_state,
    displayFirstRun_state, displayEarth_state, guiCamera, true_and]
  by_cases h1 : g.firstRun = true <;> by_cases h2 : g.viewChanged = true <;> simp [h1, h2]

end GeometryRender

end Field

section Field

variable {F : Type} [LinearOrderedField F]

/-- The matrix set by `Camera::sendProj` depends on the five projection parameters only. -/
theorem sendProj_projectionMatrix_congr (M : MathFns F) (width height projmode : Int)
    (c c1 : Camera F) (hfov : c.fov = c1.fov) (hfar : c.farplane = c1.farplane)
    (htop : c.top = c1.top) (hscale : c.obliqueScale = c1.obliqueScale)
    (hangle : c.obliqueAngleRad = c1.obliqueAngleRad) :
    (c.sendProj M width height projmode).projectionMatrix =
      (c1.sendProj M width height projmode).projectionMatrix := by
  obtain ⟨b1, b2, b3, b4, b5, cfov, cfar, ctop, cscale, cangle, b11, b12⟩ := c
  obtain ⟨d1, d2, d3, d4, d5, dfov, dfar, dtop, dscale, dangle, d11, d12⟩ := c1
  simp only at hfov hfar htop hscale hangle
  subst hfov hfar htop hscale hangle
  by_cases hp : projmode = 0
  · simp [Camera.sendProj, hp]
  · simp only [Camera.sendProj, hp, if_false, ne_eq, not_false_eq_true, if_true]
    split_ifs <;> rfl

namespace GeometryRender

/-- The uploads of a frame, block by block: the block of the first frame, the material and the
model matrix, the texture flag, the view, the projection, the draw call. -/
theorem display_uploads (M : MathFns F) (width height : Int) (g : GeometryRender F) :
    (g.display M width height).2 =
      (if g.firstRun = true then
        [.projection (g.camera.sendProj M width height g.projMode).projectionMatrix,
          .view (lookAt M g.camera.eye g.camera.center g.camera.up), .eye g.camera.eye,
          .ambientColor g.world.ambientColor, .lightColor g.world.lightColor,
          .lightPos g.world.lightPos, .materialDiffuse g.object.materialDiffuse,
          .materialAmbient g.object.materialAmbient,
          .materialSpecular g.object.materialSpecular,
          .materialShininess g.object.materialShininess,
          .model (g.displayEarth M).object.modelMat]
      else []) ++
      ((if g.materialDiffers then
        [.materialDiffuse g.materialDiffuse, .materialAmbient g.materialAmbient,
          .materialSpecular g.materialSpecular, .materialShininess g.materialShininess,
          .model (g.displayEarth M).object.modelMat]
      else if g.modelChanged = true ∨ g.showsEarth
        then [.model (g.displayEarth M).object.modelMat] else []) ++
      ([.useTexture g.object.textureShow] ++
      ((if g.viewChanged = true
        then [.view (lookAt M g.camera.eye g.camera.center g.camera.up), .eye g.camera.eye]
        else []) ++
      ((if g.projectionDiffers
        then [.projection (g.guiCamera.sendProj M width height g.projMode).projectionMatrix]
        else []) ++
      [.drawElements g.object.getIndices])))) := by
  have hproj : ∀ vm pm, (Camera.sendProj M width height g.projMode
      { g.guiCamera with viewMatrix := vm, projectionMatrix := pm }).projectionMatrix =
      (g.guiCamera.sendProj M width height g.projMode).projectionMatrix := fun vm pm =>
    sendProj_projectionMatrix_congr M width height g.projMode _ _ rfl rfl rfl rfl rfl
  rw [display_eq_blocks]
  simp only [handleProjection_uploads, handleProjection_state, displayView_uploads,
    displayView_state, displayModel_uploads, displayModel_state, displayFirstRun_uploads,
    displayFirstRun_state, List.append_assoc]
  simp only [displayEarth_state, materialDiffers, projectionDiffers, guiCamera, Model.getIndices]
  simp only [guiCamera] at hproj
  by_cases he : g.showsEarth <;> by_cases hm : g.modelChanged = true <;>
    simp [he, hm, hproj]

end GeometryRender

end Field

section Field

variable {F : Type} [LinearOrderedField F]

namespace GeometryRender

/-- The projection matrix after a frame: recomputed from the parameters of the GUI when
`firstRun` was set or a parameter differed, otherwise kept. -/
theorem display_projectionMatrix (M : MathFns F) (width height : Int) (g : GeometryRender F) :
    (g.display M width height).1.camera.projectionMatrix =
      if g.firstRun = true ∨ g.projectionDiffers
      then (g.guiCamera.sendProj M width height g.projMode).projectionMatrix
      else g.camera.projectionMatrix := by
  have hproj : ∀ vm pm, (Camera.sendProj M width height g.projMode
      { g.guiCamera with viewMatrix := vm, projectionMatrix := pm }).projectionMatrix =
      (g.guiCamera.sendProj M width height g.projMode).projectionMatrix := fun vm pm =>
    sendProj_projectionMatrix_congr M width height g.projMode _ _ rfl rfl rfl rfl rfl
  have hsame : ¬ g.projectionDiffers →
      (g.camera.sendProj M width height g.projMode).projectionMatrix =
        (g.guiCamera.sendProj M width height g.projMode).projectionMatrix := by
    intro hd
    simp only [projectionDiffers, not_or, not_not] at hd
    exact sendProj_projectionMatrix_congr M width height g.projMode _ _ hd.1 hd.2.1 hd.2.2.1
      hd.2.2.2.2 hd.2.2.2.1
  simp only [display_eq_blocks, handleProjection_state, displayView_state, displayModel_state,
    displayFirstRun_state, displayEarth_state]
  by_cases hd : g.projectionDiffers
  · have hd1 := hd
    simp only [projectionDiffers] at hd1
    simp only [guiCamera] at hproj
    simp [projectionDiffers, guiCamera, hd1, hproj]
  · have hd1 := hd
    simp only [projectionDiffers] at hd1
    have hs := hsame hd
    by_cases hf : g.firstRun = true
    · simp [projectionDiffers, guiCamera, hd1, hd, hf, hs]
    · simp [projectionDiffers, guiCamera, hd1, hd, hf]

/-- After a frame the camera holds the projection parameters of the GUI. -/
theorem display_not_projectionDiffers (M : MathFns F) (width height : Int)
    (g : GeometryRender F) : ¬ (g.display M width height).1.projectionDiffers := by
  have hc := display_camera M width height g
  have hf := display_frame M width height g
  simp only [projectionDiffers, not_or, not_not]
  exact ⟨hc.2.2.2.1.trans hf.2.2.1.symm, hc.2.2.2.2.1.trans hf.2.2.2.1.symm,
    hc.2.2.2.2.2.1.trans hf.2.2.2.2.1.symm, hc.2.2.2.2.2.2.2.1.trans hf.2.2.2.2.2.2.symm,
    hc.2.2.2.2.2.2.1.trans hf.2.2.2.2.2.1.symm⟩

/-- Every camera operation sets `viewChanged`. -/
theorem applyCameraOp_viewChanged (M : MathFns F) (g : GeometryRender F) (op : CameraOp F) :
    (g.applyCameraOp M op).viewChanged = true := by
  cases op <;> rfl

/-- The method `Camera::init` recomputes the view matrix. -/
theorem init_viewMatrix (M : MathFns F) (c : Camera F) :
    (c.init M).viewMatrix = lookAt M (c.init M).eye (c.init M).center (c.init M).up := rfl

/-- A completed `GeometryRender::changeObject` has set `firstRun` and run `Camera::init`. -/
theorem renderChangeObject_ok (M : MathFns F) (fs : String → ObjReader F) (fuel : Nat)
    (g g1 : GeometryRender F) (h : GeometryRender.changeObject M fs fuel g = .ok g1) :
    g1.firstRun = true ∧ g1.camera = g.camera.init M := by
  simp only [GeometryRender.changeObject] at h
  split at h
  · cases h
  · cases h
    exact ⟨rfl, rfl⟩

/-- A completed `GeometryRender::initialize` has set `firstRun` and has run `Camera::init` and
`Camera::sendProj`. -/
theorem initialize_ok (M : MathFns F) (fs : String → ObjReader F) (fuel : Nat)
    (width height : Int) (g g1 : GeometryRender F)
    (h : GeometryRender.initialize M fs fuel width height g = .ok g1) :
    g1.firstRun = true ∧
      g1.camera = ((Camera.blank : Camera F).init M).sendProj M width height g.projMode := by
  simp only [ GeometryRender.initialize] at h
  split at h
  · cases h
  · cases h
    exact ⟨rfl, rfl⟩

/-- After a frame entered with the view matrix current or a flag set, the view matrix is
`lookAt(eye, center, up)`. -/
theorem display_viewMatrix (M : MathFns F) (width height : Int) (g : GeometryRender F)
    (h : g.ViewCurrent M) :
    (g.display M width height).1.camera.viewMatrix =
      lookAt M (g.display M width height).1.camera.eye (g.display M width height).1.camera.center
        (g.display M width height).1.camera.up := by
  obtain ⟨he, hc, hu, -, -, -, -, -, hv⟩ := display_camera M width height g
  rw [he, hc, hu, hv]
  rcases h with h | h | h
  · simp [h]
  · simp [h]
  · split_ifs
    · rfl
    · exact h

/-- Every step keeps the view matrix current or sets a flag. -/
theorem step_viewCurrent (M : MathFns F) (fs : String → ObjReader F) (fuel : Nat)
    (width height : Int) (g g1 : GeometryRender F) (s : Step F) (h : g.ViewCurrent M)
    (hs : g.step M fs fuel width height s = .ok g1) : g1.ViewCurrent M := by
  cases s with
  | camera op =>
    simp only [step, Except.ok.injEq] at hs
    subst hs
    exact Or.inr (Or.inl (applyCameraOp_viewChanged M g op))
  | changeObject objFilePath objFileName =>
    simp only [step] at hs
    exact Or.inl (renderChangeObject_ok M fs fuel _ _ hs).1
  | display =>
    simp only [step, Except.ok.injEq] at hs
    subst hs
    exact Or.inr (Or.inr (display_viewMatrix M width height g h))

/-- Every run keeps the view matrix current or sets a flag. -/
theorem run_viewCurrent (M : MathFns F) (fs : String → ObjReader F) (fuel : Nat)
    (width height : Int) (steps : List (Step F)) :
    ∀ g g1 : GeometryRender F, g.ViewCurrent M →
      GeometryRender.run M fs fuel width height g steps = .ok g1 → g1.ViewCurrent M := by
  induction steps with
  | nil =>
    intro g g1 h hr
    simp only [run, Except.ok.injEq] at hr
    subst hr
    exact h
  | cons s rest ih =>
    intro g g1 h hr
    simp only [run] at hr
    cases hs : g.step M fs fuel width height s with
    | error e => rw [hs] at hr; cases hr
    | ok g2 =>
      rw [hs] at hr
      exact ih g2 g1 (step_viewCurrent M fs fuel width height g g2 s h hs) hr

/-- A run that ends with a frame ends with the frame of the state that the steps before it
reach. -/
theorem run_append_display (M : MathFns F) (fs : String → ObjReader F) (fuel : Nat)
    (width height : Int) (steps : List (Step F)) :
    ∀ g g1 : GeometryRender F,
      GeometryRender.run M fs fuel width height g (steps ++ [.display]) = .ok g1 →
      ∃ g2, GeometryRender.run M fs fuel width height g steps = .ok g2 ∧
        g1 = (g2.display M width height).1 := by
  induction steps with
  | nil =>
    intro g g1 hr
    simp only [List.nil_append, run, step, Except.ok.injEq] at hr
    exact ⟨g, rfl, hr.symm⟩
  | cons s rest ih =>
    intro g g1 hr
    simp only [List.cons_append, run] at hr ⊢
    cases hs : g.step M fs fuel width height s with
    | error e => rw [hs] at hr; cases hr
    | ok g2 =>
      rw [hs] at hr
      exact ih g2 g1 hr

/-- At the end of every frame of a run that starts after `initialize`, the view matrix is
`lookAt(eye, center, up)`. -/
theorem run_display_viewMatrix (M : MathFns F) (fs : String → ObjReader F) (fuel : Nat)
    (width height : Int) (g0 g g1 : GeometryRender F) (steps : List (Step F))
    (hinit : GeometryRender.initialize M fs fuel width height g0 = .ok g)
    (hrun : GeometryRender.run M fs fuel width height g (steps ++ [.display]) = .ok g1) :
    g1.camera.viewMatrix = lookAt M g1.camera.eye g1.camera.center g1.camera.up := by
  obtain ⟨g2, hr, rfl⟩ := run_append_display M fs fuel width height steps g g1 hrun
  exact display_viewMatrix M width height g2
    (run_viewCurrent M fs fuel width height steps g g2
      (Or.inl (initialize_ok M fs fuel width height g0 g hinit).1) hr)

/-- The common end of the `moveCamera*` methods moves `eye` and `center` by one offset. -/
theorem translateCamera_rigid (movement : Vec3 F) (g : GeometryRender F) :
    RigidMove g (translateCamera movement g) :=
  ⟨⟨movement, rfl, rfl⟩, Vec3.add_sub_add_right _ _ _, rfl, rfl, rfl, rfl, rfl, rfl, rfl, rfl,
    rfl, rfl⟩

end GeometryRender

end Field

/-! ## The frame -/

section Field

variable {F : Type} [LinearOrderedField F]

/-- A request for a well-formed file completes: `GeometryRender::changeObject` returns when the
file that the GUI asks for parses without error to positions and a first shape with three
index entries for every face, each within the positions. -/
theorem renderChangeObject_of_wellformed (M : MathFns F) (fs : String → ObjReader F)
    (fuel : Nat) (g : GeometryRender F) (shape : shape_t) (rest : List shape_t)
    (herr : (fs (g.objFilePath ++ g.objFileName)).error = "")
    (hv : (fs (g.objFilePath ++ g.objFileName)).attrib.vertices ≠ [])
    (hs : (fs (g.objFilePath ++ g.objFileName)).shapes = shape :: rest)
    (hfaces : 3 * shape.mesh.num_face_vertices.length ≤ shape.mesh.indices.length)
    (hrange : ∀ i ∈ shape.mesh.indices, 0 ≤ i.vertex_index ∧
      i.vertex_index < ((fs (g.objFilePath ++ g.objFileName)).attrib.vertices.length / 3 : Nat)) :
    ∃ g1, GeometryRender.changeObject M fs (fuel + 3) g = .ok g1 := by
  obtain ⟨ns, hload, -⟩ := loadGeometry_of_wellformed M fs fuel
    (clearGeometry { g.object with
      latestObj := g.object.objFileName
      objFilePath := g.objFilePath
      objFileName := g.objFileName }) shape rest herr hv hs hfaces hrange
    (by simp [clearGeometry]) (by simp [clearGeometry])
  have hch : changeObject M fs (fuel + 3) { g.object with
      latestObj := g.object.objFileName
      objFilePath := g.objFilePath
      objFileName := g.objFileName } = .ok (loadedModel M false
        (parsedModel fs (clearGeometry { g.object with
          latestObj := g.object.objFileName
          objFilePath := g.objFilePath
          objFileName := g.objFileName }))
        ((clearGeometry { g.object with
          latestObj := g.object.objFileName
          objFilePath := g.objFilePath
          objFileName := g.objFileName }).indices ++
          (shape.mesh.indices.take (3 * shape.mesh.num_face_vertices.length)).map
            (fun i => toUnsigned i.vertex_index)) ns) := by
    rw [changeObject]
    exact hload
  simp only [GeometryRender.changeObject, hch]
  exact ⟨_, rfl⟩

/-- C21 (amended): in exact arithmetic each of `moveCameraUp`, `moveCameraDown`,
`moveCameraLeft`, `moveCameraRight`, `moveCameraForwards` and `moveCameraBackwards` adds one and
the same offset to `eye` and to `center`, so `center - eye` is unchanged, and leaves `up`,
`yaw`, `pitch`, the five projection parameters, the projection matrix and the projection mode
unchanged. -/
theorem moveCamera_rigid (M : MathFns F) (g : GeometryRender F) :
    RigidMove g g.moveCameraUp ∧ RigidMove g g.moveCameraDown ∧
      RigidMove g (g.moveCameraLeft M) ∧ RigidMove g (g.moveCameraRight M) ∧
      RigidMove g (g.moveCameraForwards M) ∧ RigidMove g (g.moveCameraBackwards M) :=
  ⟨GeometryRender.translateCamera_rigid _ g, GeometryRender.translateCamera_rigid _ g,
    GeometryRender.translateCamera_rigid _ g, GeometryRender.translateCamera_rigid _ g,
    GeometryRender.translateCamera_rigid _ g, GeometryRender.translateCamera_rigid _ g⟩

/-- C23: in every run that starts after `initialize` and interleaves `moveCamera*`,
`rotateCamera*`, `changeObject` and frames, at the end of every `display` the view matrix is
`lookAt(eye, center, up)` of the camera's current `eye`, `center` and `up`; every camera
operation sets `viewChanged`, and a completed `changeObject` has set `firstRun` and recomputed
the view matrix. -/
theorem display_view_matrix_current (M : MathFns F) (fs : String → ObjReader F) (fuel : Nat)
    (width height : Int) (g0 g g1 : GeometryRender F) (steps : List (Step F))
    (hinit : GeometryRender.initialize M fs fuel width height g0 = .ok g)
    (hrun : GeometryRender.run M fs fuel width height g (steps ++ [.display]) = .ok g1) :
    g1.camera.viewMatrix = lookAt M g1.camera.eye g1.camera.center g1.camera.up ∧
      (∀ (g2 : GeometryRender F) (op : CameraOp F), (g2.applyCameraOp M op).viewChanged = true) ∧
      (∀ g2 g3 : GeometryRender F, GeometryRender.changeObject M fs fuel g2 = .ok g3 →
        g3.firstRun = true ∧
          g3.camera.viewMatrix = lookAt M g3.camera.eye g3.camera.center g3.camera.up) := by
  refine ⟨GeometryRender.run_display_viewMatrix M fs fuel width height g0 g g1 steps hinit hrun,
    GeometryRender.applyCameraOp_viewChanged M, fun g2 g3 h => ?_⟩
  obtain ⟨hf, hc⟩ := GeometryRender.renderChangeObject_ok M fs fuel g2 g3 h
  rw [hc]
  exact ⟨hf, rfl⟩

/-- C24: a frame entered with `firstRun = true` uploads, in this order, the projection matrix,
the view matrix and the eye, the three lighting uniforms of the scene, the four material
uniforms and the model matrix, whatever `viewChanged`, `modelChanged` and the material of the
GUI are, and `firstRun` is false afterwards; a completed `initialize` and a completed
`changeObject` leave `firstRun = true`. -/
theorem display_first_frame_uploads (M : MathFns F) (width height : Int) (g : GeometryRender F)
    (hfirst : g.firstRun = true) :
    (∃ rest, (g.display M width height).2 =
      [.projection (g.camera.sendProj M width height g.projMode).projectionMatrix,
        .view (lookAt M g.camera.eye g.camera.center g.camera.up), .eye g.camera.eye,
        .ambientColor g.world.ambientColor, .lightColor g.world.lightColor,
        .lightPos g.world.lightPos, .materialDiffuse g.object.materialDiffuse,
        .materialAmbient g.object.materialAmbient,
        .materialSpecular g.object.materialSpecular,
        .materialShininess g.object.materialShininess,
        .model (g.displayEarth M).object.modelMat] ++ rest) ∧
      (g.display M width height).1.firstRun = false ∧
      (∀ (fs : String → ObjReader F) (fuel : Nat) (g0 g1 : GeometryRender F),
        GeometryRender.initialize M fs fuel width height g0 = .ok g1 → g1.firstRun = true) ∧
      (∀ (fs : String → ObjReader F) (fuel : Nat) (g0 g1 : GeometryRender F),
        GeometryRender.changeObject M fs fuel g0 = .ok g1 → g1.firstRun = true) := by
  refine ⟨?_, (GeometryRender.display_flags M width height g).1,
    fun fs fuel g0 g1 h => (GeometryRender.initialize_ok M fs fuel width height g0 g1 h).1,
    fun fs fuel g0 g1 h => (GeometryRender.renderChangeObject_ok M fs fuel g0 g1 h).1⟩
  rw [GeometryRender.display_uploads, if_pos hfirst]
  exact ⟨_, rfl⟩

/-- C25: in a frame entered with `firstRun = false` the model matrix is uploaded at most once,
and exactly once if and only if the material of the GUI differs from the model's, or
`modelChanged` is set, or the earth turns (which sets `modelChanged`); `modelChanged` is false
when `display` returns. -/
theorem display_model_upload_once (M : MathFns F) (width height : Int) (g : GeometryRender F)
    (hfirst : g.firstRun = false) :
    (g.display M width height).2.countP Upload.isModel ≤ 1 ∧
      ((g.display M width height).2.countP Upload.isModel = 1 ↔
        g.materialDiffers ∨ g.modelChanged = true ∨ g.showsEarth) ∧
      (g.display M width height).1.modelChanged = false := by
  refine ⟨?_, ?_, (GeometryRender.display_flags M width height g).2.2⟩
  · rw [GeometryRender.display_uploads]
    by_cases hd : g.materialDiffers <;> by_cases hm : g.modelChanged = true <;>
      by_cases he : g.showsEarth <;> by_cases hv : g.viewChanged = true <;>
      by_cases hp : g.projectionDiffers <;>
      simp [hfirst, hd, hm, he, hv, hp, List.countP_cons, Upload.isModel]
  · rw [GeometryRender.display_uploads]
    by_cases hd : g.materialDiffers <;> by_cases hm : g.modelChanged = true <;>
      by_cases he : g.showsEarth <;> by_cases hv : g.viewChanged = true <;>
      by_cases hp : g.projectionDiffers <;>
      simp [hfirst, hd, hm, he, hv, hp, List.countP_cons, Upload.isModel]

/-- C26: `handleProjection` uploads the projection matrix if and only if one of `fov`,
`farplane`, `top`, `obliqueAngleRad`, `obliqueScale` differs between the GUI and the camera
(and then it uploads the matrix it has just set); afterwards the camera holds the five values
of the GUI and a second call uploads nothing.  After any frame, a frame in which only
`projMode` has changed uploads no projection matrix and leaves `projectionMatrix` as it was. -/
theorem handleProjection_spec (M : MathFns F) (width height : Int) (g : GeometryRender F)
    (projMode : Int) :
    ((g.handleProjection M width height).2 ≠ [] ↔ g.projectionDiffers) ∧
      (g.projectionDiffers → (g.handleProjection M width height).2 =
        [.projection (g.handleProjection M width height).1.camera.projectionMatrix]) ∧
      (¬ g.projectionDiffers → (g.handleProjection M width height).1 = g) ∧
      ((g.handleProjection M width height).1.camera.fov = g.fov ∧
        (g.handleProjection M width height).1.camera.farplane = g.farplane ∧
        (g.handleProjection M width height).1.camera.top = g.top ∧
        (g.handleProjection M width height).1.camera.obliqueAngleRad = g.obliqueAngleRad ∧
        (g.handleProjection M width height).1.camera.obliqueScale = g.obliqueScale) ∧
      ((g.handleProjection M width height).1.handleProjection M width height).2 = [] ∧
      (({ (g.display M width height).1 with projMode := projMode }).display M width
          height).1.camera.projectionMatrix =
        (g.display M width height).1.camera.projectionMatrix ∧
      ∀ u ∈ (({ (g.display M width height).1 with projMode := projMode }).display M width
          height).2, u.isProjection = false := by
  have hafter : ¬ (g.handleProjection M width height).1.projectionDiffers := by
    simp [GeometryRender.handleProjection_state, GeometryRender.projectionDiffers,
      GeometryRender.guiCamera]
  have hframe : ¬ ({ (g.display M width height).1 with
      projMode := projMode }).projectionDiffers :=
    GeometryRender.display_not_projectionDiffers M width height g
  have hflag : ({ (g.display M width height).1 with projMode := projMode }).firstRun = false :=
    (GeometryRender.display_flags M width height g).1
  refine ⟨?_, ?_, ?_, ?_, ?_, ?_, ?_⟩
  · rw [GeometryRender.handleProjection_uploads]
    by_cases hd : g.projectionDiffers <;> simp [hd]
  · intro hd
    rw [GeometryRender.handleProjection_uploads, GeometryRender.handleProjection_state,
      if_pos hd, if_pos hd]
  · intro hd
    rw [GeometryRender.handleProjection_state, if_neg hd]
    simp only [GeometryRender.projectionDiffers, not_or, not_not] at hd
    obtain ⟨h1, h2, h3, h4, h5⟩ := hd
    clear hafter hframe hflag
    obtain ⟨a1, a2, a3, a4, gfov, gfar, gtop, gscale, gangle, a10, a11, a12, a13, a14, a15,
      a16, a17, a18, camera, a20, a21, a22, a23⟩ := g
    obtain ⟨b1, b2, b3, b4, b5, cfov, cfar, ctop, cscale, cangle, b11, b12⟩ := camera
    simp only at h1 h2 h3 h4 h5
    subst h1 h2 h3 h4 h5
    rfl
  · simp [GeometryRender.handleProjection_state, GeometryRender.guiCamera]
  · rw [GeometryRender.handleProjection_uploads, if_neg hafter]
  · rw [GeometryRender.display_projectionMatrix, if_neg (by
      rw [hflag]
      simpa using hframe)]
  · intro u hu
    rw [GeometryRender.display_uploads, if_neg (by rw [hflag]; simp), if_neg hframe] at hu
    simp only [List.nil_append, List.mem_append, List.mem_cons, List.mem_singleton,
      List.not_mem_nil, or_false] at hu
    rcases hu with hu | hu | hu | hu
    · split_ifs at hu
      · simp only [List.mem_cons, List.mem_singleton, List.not_mem_nil, or_false] at hu
        rcases hu with rfl | rfl | rfl | rfl | rfl <;> rfl
      · simp only [List.mem_singleton] at hu
        subst hu
        rfl
      · cases hu
    · subst hu
      rfl
    · split_ifs at hu
      · simp only [List.mem_cons, List.mem_singleton, List.not_mem_nil, or_false] at hu
        rcases hu with rfl | rfl <;> rfl
      · cases hu
    · subst hu
      rfl

/-- C29: `display` never modifies the scene and uploads a lighting uniform of the scene if and
only if it is entered with `firstRun = true`; the uploads of a frame and the scene after it do
not depend on the light values of the GUI, whether or not they make `lightIsChanged` true. -/
theorem display_keeps_scene (M : MathFns F) (width height : Int) (g : GeometryRender F)
    (lp lc ac : Vec3 F) :
    (g.display M width height).1.world = g.world ∧
      ((∃ u ∈ (g.display M width height).2, u.isScene = true) ↔ g.firstRun = true) ∧
      (({ g with lightPos := lp, lightColor := lc, ambientColor := ac }).display M width
          height).2 = (g.display M width height).2 ∧
      (({ g with lightPos := lp, lightColor := lc, ambientColor := ac }).display M width
          height).1.world = g.world ∧
      (({ g with lightPos := lp, lightColor := lc, ambientColor := ac }).lightIsChanged = true ↔
        lc ≠ g.world.lightColor ∨ lp ≠ g.world.lightPos ∨ ac ≠ g.world.ambientColor) := by
  refine ⟨(GeometryRender.display_frame M width height g).1, ?_, ?_,
    (GeometryRender.display_frame M width height _).1, ?_⟩
  · rw [GeometryRender.display_uploads]
    by_cases hf : g.firstRun = true <;> by_cases hd : g.materialDiffers <;>
      by_cases hm : g.modelChanged = true ∨ g.showsEarth <;>
      by_cases hv : g.viewChanged = true <;> by_cases hp : g.projectionDiffers <;>
      simp [hf, hd, hm, hv, hp, Upload.isScene]
  · simp only [GeometryRender.display_uploads, GeometryRender.displayEarth_state,
      GeometryRender.materialDiffers, GeometryRender.showsEarth,
      GeometryRender.projectionDiffers, GeometryRender.guiCamera]
  · simp [GeometryRender.lightIsChanged, or_assoc]

end Field

/-- In the sample file system a request for `OBJs/sphere_large.obj` completes. -/
theorem sampleFiles_changeObject (g : GeometryRender ℚ) (hp : g.objFilePath = "OBJs/")
    (hn : g.objFileName = "sphere_large.obj") :
    ∃ g1, GeometryRender.changeObject sampleMath sampleFiles 6 g = .ok g1 :=
  renderChangeObject_of_wellformed sampleMath sampleFiles 3 g
    ⟨"", ⟨[⟨0, -1, -1⟩, ⟨1, -1, -1⟩, ⟨2, -1, -1⟩], [3]⟩⟩ [] (by rw [hp, hn]; rfl)
    (by rw [hp, hn]; decide) (by rw [hp, hn]; rfl) (by decide) (by rw [hp, hn]; decide)

/-- A run of C23: the initial load of the sample file, a move, a request for the same file, a
rotation, a frame, another move and a frame. -/
theorem display_view_matrix_current_witness :
    ∃ g g1, GeometryRender.initialize sampleMath sampleFiles 6 1024 768
        (sampleRender Model.init "OBJs/" "cube.obj") = .ok g ∧
      GeometryRender.run sampleMath sampleFiles 6 1024 768 g
        ([.camera .moveCameraUp, .changeObject "OBJs/" "sphere_large.obj",
          .camera (.rotateCameraLeft 10), .display, .camera .moveCameraForwards] ++
          [.display]) = .ok g1 ∧
      g1.camera.viewMatrix = lookAt sampleMath g1.camera.eye g1.camera.center g1.camera.up := by
  obtain ⟨ns, hload, -⟩ := loadGeometry_of_wellformed sampleMath sampleFiles 4 Model.init
    ⟨"", ⟨[⟨0, -1, -1⟩, ⟨1, -1, -1⟩, ⟨2, -1, -1⟩], [3]⟩⟩ [] rfl (by decide) rfl (by decide)
    (by decide) (by simp [Model.init]) (by simp [Model.init])
  obtain ⟨g, hg⟩ : ∃ g, GeometryRender.initialize sampleMath sampleFiles 6 1024 768
      (sampleRender Model.init "OBJs/" "cube.obj") = .ok g := by
    simp only [ GeometryRender.initialize, hload]
    exact ⟨_, rfl⟩
  obtain ⟨g2, hg2⟩ := sampleFiles_changeObject
    { g.applyCameraOp sampleMath .moveCameraUp with
      objFilePath := "OBJs/", objFileName := "sphere_large.obj" } rfl rfl
  obtain ⟨g1, hg1⟩ : ∃ g1, GeometryRender.run sampleMath sampleFiles 6 1024 768 g
      ([.camera .moveCameraUp, .changeObject "OBJs/" "sphere_large.obj",
        .camera (.rotateCameraLeft 10), .display, .camera .moveCameraForwards] ++
        [.display]) = .ok g1 := by
    simp only [List.cons_append, List.nil_append, GeometryRender.run, GeometryRender.step, hg2]
    exact ⟨_, rfl⟩
  exact ⟨g, g1, hg, hg1,
    (display_view_matrix_current sampleMath sampleFiles 6 1024 768 _ g g1 _ hg hg1).1⟩

/-- A run of C24 on the state after the camera part of `initialize`. -/
theorem display_first_frame_uploads_witness :
    (GeometryRender.start sampleMath).firstRun = true ∧
      ((GeometryRender.start sampleMath).display sampleMath 1024 768).1.firstRun = false :=
  ⟨rfl, (display_first_frame_uploads sampleMath 1024 768 (GeometryRender.start sampleMath)
    rfl).2.1⟩

/-- A run of C25 on a frame that is not the first. -/
theorem display_model_upload_once_witness :
    (sampleRender Model.init "OBJs/" "sphere_large.obj").firstRun = false ∧
      ((sampleRender Model.init "OBJs/" "sphere_large.obj").display sampleMath 1024
        768).2.countP Upload.isModel ≤ 1 ∧
      ((sampleRender Model.init "OBJs/" "sphere_large.obj").display sampleMath 1024
        768).1.modelChanged = false :=
  ⟨rfl, (display_model_upload_once sampleMath 1024 768
      (sampleRender Model.init "OBJs/" "sphere_large.obj") rfl).1,
    (display_model_upload_once sampleMath 1024 768
      (sampleRender Model.init "OBJs/" "sphere_large.obj") rfl).2.2⟩

/-! ## Termination of the reload -/

section Field

variable {F : Type} [LinearOrderedField F]

/-- The loop of `insertIndices` does not use the recursion budget. -/
theorem insertIndicesLoop_ne_outOfFuel (faces : List Nat) :
    ∀ (idxs : List index_t) (acc : List Nat),
      insertIndicesLoop faces idxs acc ≠ .error .outOfFuel := by
  induction faces with
  | nil => intro idxs acc h; simp [insertIndicesLoop] at h
  | cons f faces ih =>
    intro idxs acc
    match idxs with
    | [] => intro h; simp [insertIndicesLoop] at h
    | [_] => intro h; simp [insertIndicesLoop] at h
    | [_, _] => intro h; simp [insertIndicesLoop] at h
    | a :: b :: c :: rest =>
      rw [insertIndicesLoop]
      exact ih rest _

/-- The statement `normals[k] += faceNormal` does not use the recursion budget. -/
theorem addAt_ne_outOfFuel (normals : List (Vec3 F)) (k : Nat) (fn : Vec3 F) :
    addAt normals k fn ≠ .error .outOfFuel := by
  unfold addAt
  split <;> simp

/-- The computation of a face normal does not use the recursion budget. -/
theorem faceNormal_ne_outOfFuel (vertices : List (Vec3 F)) (a b c : Nat) :
    faceNormal vertices a b c ≠ .error .outOfFuel := by
  unfold faceNormal
  split <;> simp

/-- The first loop of `insertNormals` does not use the recursion budget. -/
theorem insertNormalsLoop_ne_outOfFuel (vertices : List (Vec3 F)) (n : Nat) :
    ∀ (idx : List Nat) (normals : List (Vec3 F)), idx.length ≤ n →
      insertNormalsLoop vertices idx normals ≠ .error .outOfFuel := by
  induction n with
  | zero =>
    intro idx normals hlen
    have : idx = [] := List.length_eq_zero.mp (by omega)
    subst this
    simp [insertNormalsLoop]
  | succ n ih =>
    intro idx normals hlen
    match idx, hlen with
    | [], _ => simp [insertNormalsLoop]
    | [_], _ => simp [insertNormalsLoop]
    | [_, _], _ => simp [insertNormalsLoop]
    | a :: b :: c :: rest, hlen =>
      rw [insertNormalsLoop]
      cases hf : faceNormal vertices a b c with
      | error e =>
        intro h
        simp only [Except.error.injEq] at h
        exact faceNormal_ne_outOfFuel vertices a b c (by rw [hf, h])
      | ok fn =>
        simp only
        cases h1 : addAt normals a fn with
        | error e =>
          intro h
          simp only [Except.error.injEq] at h
          exact addAt_ne_outOfFuel normals a fn (by rw [h1, h])
        | ok n1 =>
          simp only
          cases h2 : addAt n1 b fn with
          | error e =>
            intro h
            simp only [Except.error.injEq] at h
            exact addAt_ne_outOfFuel n1 b fn (by rw [h2, h])
          | ok n2 =>
            simp only
            cases h3 : addAt n2 c fn with
            | error e =>
              intro h
              simp only [Except.error.injEq] at h
              exact addAt_ne_outOfFuel n2 c fn (by rw [h3, h])
            | ok n3 =>
              simp only
              exact ih rest n3 (by simp at hlen; omega)

/-- The pipeline of `loadGeometry` after `checkOBJ` does not use the recursion budget: it
returns, or it reads outside an array. -/
theorem finishLoad_ne_outOfFuel (M : MathFns F) (load_error : Bool) (m : Model F) :
    finishLoad M load_error m ≠ .error .outOfFuel := by
  simp only [finishLoad, insertVertices, insertIndices]
  cases hsh : m.reader.shapes with
  | nil => simp
  | cons shape rest =>
    simp only
    cases hidx : insertIndicesLoop shape.mesh.num_face_vertices shape.mesh.indices m.indices with
    | error e =>
      intro h
      simp only [Except.error.injEq] at h
      exact insertIndicesLoop_ne_outOfFuel _ _ _ (by rw [hidx, h])
    | ok idx =>
      simp only [insertNormals, accumulateNormals]
      cases hns : insertNormalsLoop
          (insertVerticesLoop m.reader.attrib.vertices Extent.start m.vertices).2 idx
          (resize m.normals
            (insertVerticesLoop m.reader.attrib.vertices Extent.start m.vertices).2.length) with
      | error e =>
        intro h
        simp only [Except.error.injEq] at h
        exact insertNormalsLoop_ne_outOfFuel _ _ _ _ le_rfl (by rw [hns, h])
      | ok ns => simp

/-- When the parse of `objFilePath + objFileName` yields positions and a shape, `loadGeometry`
passes `checkOBJ` and runs the pipeline, whatever the budget above 2. -/
theorem loadGeometry_of_checked (M : MathFns F) (fs : String → ObjReader F) (fuel : Nat)
    (m : Model F) (hv : (fs (m.objFilePath ++ m.objFileName)).attrib.vertices ≠ [])
    (hs : (fs (m.objFilePath ++ m.objFileName)).shapes ≠ []) :
    loadGeometry M fs (fuel + 2) m =
      finishLoad M (decide ((fs (m.objFilePath ++ m.objFileName)).error ≠ ""))
        (checkedModel fs m) := by
  rw [loadGeometry_succ, checkOBJ_of_nonempty M fs fuel _ (by rw [checkedModel_reader]; exact hv)
    (by rw [checkedModel_reader]; exact hs)]

/-- When the parse of `objFilePath + objFileName` fails the check and the parse of
`objFilePath + latestObj` passes it, `loadGeometry` reloads once through `checkOBJ` and
`changeObject` and runs the pipeline on the second parse, whatever the budget above 5. -/
theorem loadGeometry_of_reload (M : MathFns F) (fs : String → ObjReader F) (fuel : Nat)
    (m : Model F)
    (hbad : (fs (m.objFilePath ++ m.objFileName)).attrib.vertices = [] ∨
      (fs (m.objFilePath ++ m.objFileName)).shapes = [])
    (hv : (fs (m.objFilePath ++ m.latestObj)).attrib.vertices ≠ [])
    (hs : (fs (m.objFilePath ++ m.latestObj)).shapes ≠ []) :
    loadGeometry M fs (fuel + 5) m =
      finishLoad M (decide ((fs (m.objFilePath ++ m.latestObj)).error ≠ ""))
        (checkedModel fs (clearGeometry
          { (checkedModel fs m).print
              (if (fs (m.objFilePath ++ m.objFileName)).attrib.vertices.isEmpty
                then .noVertices m.latestObj else .noIndices m.latestObj) with
            objFileName := m.latestObj })) := by
  have hlatest : (checkedModel fs m).latestObj = m.latestObj := checkedModel_latestObj fs m
  have hpath : (checkedModel fs m).objFilePath = m.objFilePath := checkedModel_objFilePath fs m
  have hload : ∀ o, loadGeometry M fs (fuel + 2) (clearGeometry
      { (checkedModel fs m).print o with objFileName := m.latestObj }) =
      finishLoad M (decide ((fs (m.objFilePath ++ m.latestObj)).error ≠ ""))
        (checkedModel fs (clearGeometry
          { (checkedModel fs m).print o with objFileName := m.latestObj })) := by
    intro o
    have h := loadGeometry_of_checked M fs fuel (clearGeometry
      { (checkedModel fs m).print o with objFileName := m.latestObj })
      (by
        show (fs ((checkedModel fs m).objFilePath ++ m.latestObj)).attrib.vertices ≠ []
        rw [hpath]; exact hv)
      (by
        show (fs ((checkedModel fs m).objFilePath ++ m.latestObj)).shapes ≠ []
        rw [hpath]; exact hs)
    rw [h]
    show finishLoad M (decide ((fs ((checkedModel fs m).objFilePath ++ m.latestObj)).error ≠ ""))
      _ = _
    rw [hpath]
  by_cases hvr : (fs (m.objFilePath ++ m.objFileName)).attrib.vertices = []
  · rw [loadGeometry_succ, checkOBJ_of_no_vertices M fs (fuel + 3) _
      (by rw [checkedModel_reader]; exact hvr), hlatest, changeObject, hload]
    simp only [hvr, List.isEmpty_nil, if_true]
    cases finishLoad M (decide ((fs (m.objFilePath ++ m.latestObj)).error ≠ ""))
      (checkedModel fs (clearGeometry
        { (checkedModel fs m).print (.noVertices m.latestObj) with
          objFileName := m.latestObj })) <;> rfl
  · have hsr : (fs (m.objFilePath ++ m.objFileName)).shapes = [] := by
      rcases hbad with h | h
      · exact absurd h hvr
      · exact h
    rw [loadGeometry_succ, checkOBJ_of_no_shapes M fs (fuel + 3) _
      (by rw [checkedModel_reader]; exact hvr) (by rw [checkedModel_reader]; exact hsr),
      hlatest, changeObject, hload]
    have hemp : (fs (m.objFilePath ++ m.objFileName)).attrib.vertices.isEmpty = false := by
      simpa using hvr
    simp only [hemp, Bool.false_eq_true, if_false]
    cases finishLoad M (decide ((fs (m.objFilePath ++ m.latestObj)).error ≠ ""))
      (checkedModel fs (clearGeometry
        { (checkedModel fs m).print (.noIndices m.latestObj) with
          objFileName := m.latestObj })) <;> rfl

/-- When `objFilePath + latestObj` parses to positions and a shape, `loadGeometry` does not
depend on the budget above 5 and does not use it up. -/
theorem loadGeometry_terminates (M : MathFns F) (fs : String → ObjReader F) (m : Model F)
    (hv : (fs (m.objFilePath ++ m.latestObj)).attrib.vertices ≠ [])
    (hs : (fs (m.objFilePath ++ m.latestObj)).shapes ≠ []) (fuel : Nat) :
    loadGeometry M fs (fuel + 5) m = loadGeometry M fs 5 m ∧
      loadGeometry M fs 5 m ≠ .error .outOfFuel := by
  by_cases hgood : (fs (m.objFilePath ++ m.objFileName)).attrib.vertices ≠ [] ∧
      (fs (m.objFilePath ++ m.objFileName)).shapes ≠ []
  · rw [loadGeometry_of_checked M fs (fuel + 3) m hgood.1 hgood.2,
      loadGeometry_of_checked M fs 3 m hgood.1 hgood.2]
    exact ⟨rfl, finishLoad_ne_outOfFuel M _ _⟩
  · have hbad : (fs (m.objFilePath ++ m.objFileName)).attrib.vertices = [] ∨
        (fs (m.objFilePath ++ m.objFileName)).shapes = [] := by
      by_contra hc
      simp only [not_or] at hc
      exact hgood hc
    rw [loadGeometry_of_reload M fs fuel m hbad hv hs,
      show loadGeometry M fs 5 m = loadGeometry M fs (0 + 5) m from rfl,
      loadGeometry_of_reload M fs 0 m hbad hv hs]
    exact ⟨rfl, finishLoad_ne_outOfFuel M _ _⟩

/-- When neither `objFilePath + objFileName` nor `objFilePath + latestObj` parses to positions
and a shape, no budget is enough: every load fails the check and reloads. -/
theorem load_uses_up_budget (M : MathFns F) (fs : String → ObjReader F) (fuel : Nat) :
    ∀ m : Model F,
      ((fs (m.objFilePath ++ m.objFileName)).attrib.vertices = [] ∨
        (fs (m.objFilePath ++ m.objFileName)).shapes = []) →
      ((fs (m.objFilePath ++ m.latestObj)).attrib.vertices = [] ∨
        (fs (m.objFilePath ++ m.latestObj)).shapes = []) →
      loadGeometry M fs fuel m = .error .outOfFuel ∧
        changeObject M fs fuel m = .error .outOfFuel := by
  induction fuel using Nat.strong_induction_on with
  | _ fuel ih =>
    intro m hreq hlatest
    have hload : ∀ k, k ≤ fuel → loadGeometry M fs k m = .error .outOfFuel := by
      intro k hk
      match k, hk with
      | 0, _ => rw [loadGeometry]
      | 1, _ =>
        rw [loadGeometry_succ]
        simp [checkOBJ]
      | k + 2, hk =>
        have hl : (checkedModel fs m).latestObj = m.latestObj := checkedModel_latestObj fs m
        have hp : (checkedModel fs m).objFilePath = m.objFilePath :=
          checkedModel_objFilePath fs m
        have hrec : ∀ o, changeObject M fs k
            { (checkedModel fs m).print o with objFileName := m.latestObj } =
            .error .outOfFuel := fun o =>
          (ih k (by omega) _ (by
            show (fs ((checkedModel fs m).objFilePath ++ m.latestObj)).attrib.vertices = [] ∨
              (fs ((checkedModel fs m).objFilePath ++ m.latestObj)).shapes = []
            rw [hp]; exact hlatest) (by
            show (fs ((checkedModel fs m).objFilePath ++
                (checkedModel fs m).latestObj)).attrib.vertices = [] ∨
              (fs ((checkedModel fs m).objFilePath ++ (checkedModel fs m).latestObj)).shapes = []
            rw [hp, hl]; exact hlatest)).2
        rw [loadGeometry_succ]
        by_cases hvr : (fs (m.objFilePath ++ m.objFileName)).attrib.vertices = []
        · rw [checkOBJ_of_no_vertices M fs k _ (by rw [checkedModel_reader]; exact hvr), hl,
            hrec]
          rfl
        · have hsr : (fs (m.objFilePath ++ m.objFileName)).shapes = [] := by
            rcases hreq with h | h
            · exact absurd h hvr
            · exact h
          rw [checkOBJ_of_no_shapes M fs k _ (by rw [checkedModel_reader]; exact hvr)
            (by rw [checkedModel_reader]; exact hsr), hl, hrec]
          rfl
    refine ⟨hload fuel le_rfl, ?_⟩
    cases fuel with
    | zero => rw [changeObject]
    | succ fuel =>
      rw [changeObject]
      exact (ih fuel (by omega) (clearGeometry m) hreq hlatest).1

/-- When `objFilePath + latestObj` parses to positions and a shape, `Model::changeObject` does
not depend on the budget above 6 and does not use it up. -/
theorem modelChangeObject_terminates (M : MathFns F) (fs : String → ObjReader F) (m : Model F)
    (hv : (fs (m.objFilePath ++ m.latestObj)).attrib.vertices ≠ [])
    (hs : (fs (m.objFilePath ++ m.latestObj)).shapes ≠ []) (fuel : Nat) :
    changeObject M fs (fuel + 6) m = changeObject M fs 6 m ∧
      changeObject M fs 6 m ≠ .error .outOfFuel := by
  have h := loadGeometry_terminates M fs (clearGeometry m) hv hs fuel
  rw [changeObject, changeObject]
  exact h

/-- When `objFilePath + objFileName` parses to positions and a shape, `Model::changeObject`
does not depend on the budget above 3 and does not use it up. -/
theorem modelChangeObject_direct (M : MathFns F) (fs : String → ObjReader F) (m : Model F)
    (hv : (fs (m.objFilePath ++ m.objFileName)).attrib.vertices ≠ [])
    (hs : (fs (m.objFilePath ++ m.objFileName)).shapes ≠ []) (fuel : Nat) :
    changeObject M fs (fuel + 3) m = changeObject M fs 3 m ∧
      changeObject M fs 3 m ≠ .error .outOfFuel := by
  rw [changeObject, changeObject, loadGeometry_of_checked M fs fuel (clearGeometry m) hv hs,
    loadGeometry_of_checked M fs 0 (clearGeometry m) hv hs]
  exact ⟨rfl, finishLoad_ne_outOfFuel M _ _⟩

/-- When the path of the GUI followed by the previous name parses to positions and a shape,
`GeometryRender::changeObject` does not depend on the budget above 6 and does not use it up. -/
theorem renderChangeObject_terminates (M : MathFns F) (fs : String → ObjReader F)
    (g : GeometryRender F)
    (hv : (fs (g.objFilePath ++ g.object.objFileName)).attrib.vertices ≠ [])
    (hs : (fs (g.objFilePath ++ g.object.objFileName)).shapes ≠ []) (fuel : Nat) :
    GeometryRender.changeObject M fs (fuel + 6) g = GeometryRender.changeObject M fs 6 g ∧
      GeometryRender.changeObject M fs 6 g ≠ .error .outOfFuel := by
  obtain ⟨h1, h2⟩ := modelChangeObject_terminates M fs
    { g.object with
      latestObj := g.object.objFileName
      objFilePath := g.objFilePath
      objFileName := g.objFileName } hv hs fuel
  simp only [GeometryRender.changeObject, h1]
  refine ⟨trivial, ?_⟩
  cases hc : changeObject M fs 6
    { g.object with
      latestObj := g.object.objFileName
      objFilePath := g.objFilePath
      objFileName := g.objFileName } with
  | error e =>
    intro h
    simp only [Except.error.injEq] at h
    exact h2 (by rw [hc, h])
  | ok m1 => simp

/-- C27: when `objFilePath + latestObj` parses to positions and a shape, `Model::changeObject`
and `loadGeometry` return or read outside an array, and never use up the budget: the budget 6
of `changeObject` (5 of `loadGeometry`), which admits one nested reload through `checkOBJ`,
`changeObject` and `loadGeometry` and no second one, is enough and a larger one changes
nothing; when the requested file itself passes the check, the budget 3 without a nested reload
is enough; `GeometryRender::changeObject` inherits this for its path and the previous name.
When neither the requested name nor `latestObj` passes `checkOBJ`, no budget is enough. -/
theorem changeObject_terminates (M : MathFns F) (fs : String → ObjReader F) (m : Model F)
    (hv : (fs (m.objFilePath ++ m.latestObj)).attrib.vertices ≠ [])
    (hs : (fs (m.objFilePath ++ m.latestObj)).shapes ≠ []) :
    (∀ fuel, changeObject M fs (fuel + 6) m = changeObject M fs 6 m) ∧
      changeObject M fs 6 m ≠ .error .outOfFuel ∧
      (∀ fuel, loadGeometry M fs (fuel + 5) m = loadGeometry M fs 5 m) ∧
      loadGeometry M fs 5 m ≠ .error .outOfFuel ∧
      ((fs (m.objFilePath ++ m.objFileName)).attrib.vertices ≠ [] →
        (fs (m.objFilePath ++ m.objFileName)).shapes ≠ [] →
        (∀ fuel, changeObject M fs (fuel + 3) m = changeObject M fs 3 m) ∧
          changeObject M fs 3 m ≠ .error .outOfFuel) ∧
      (∀ g : GeometryRender F,
        (fs (g.objFilePath ++ g.object.objFileName)).attrib.vertices ≠ [] →
        (fs (g.objFilePath ++ g.object.objFileName)).shapes ≠ [] →
        (∀ fuel, GeometryRender.changeObject M fs (fuel + 6) g =
          GeometryRender.changeObject M fs 6 g) ∧
          GeometryRender.changeObject M fs 6 g ≠ .error .outOfFuel) ∧
      (∀ (fuel : Nat) (m0 : Model F),
        ((fs (m0.objFilePath ++ m0.objFileName)).attrib.vertices = [] ∨
          (fs (m0.objFilePath ++ m0.objFileName)).shapes = []) →
        ((fs (m0.objFilePath ++ m0.latestObj)).attrib.vertices = [] ∨
          (fs (m0.objFilePath ++ m0.latestObj)).shapes = []) →
        loadGeometry M fs fuel m0 = .error .outOfFuel ∧
          changeObject M fs fuel m0 = .error .outOfFuel) :=
  ⟨fun fuel => (modelChangeObject_terminates M fs m hv hs fuel).1,
    (modelChangeObject_terminates M fs m hv hs 0).2,
    fun fuel => (loadGeometry_terminates M fs m hv hs fuel).1,
    (loadGeometry_terminates M fs m hv hs 0).2,
    fun hvr hsr => ⟨fun fuel => (modelChangeObject_direct M fs m hvr hsr fuel).1,
      (modelChangeObject_direct M fs m hvr hsr 0).2⟩,
    fun g hvg hsg => ⟨fun fuel => (renderChangeObject_terminates M fs g hvg hsg fuel).1,
      (renderChangeObject_terminates M fs g hvg hsg 0).2⟩,
    fun fuel m0 hreq hlatest => load_uses_up_budget M fs fuel m0 hreq hlatest⟩

end Field

/-- A run of C27: the request for a missing file under the path of the sample file. -/
theorem changeObject_terminates_witness :
    changeObject sampleMath sampleFiles 6
        { (Model.init : Model ℚ) with objFileName := "nonexistent.obj" } ≠
      .error .outOfFuel :=
  (changeObject_terminates sampleMath sampleFiles
    { (Model.init : Model ℚ) with objFileName := "nonexistent.obj" } (by decide)
    (by decide)).2.1

/-! ## Reloading the textures -/

section Field

variable {F : Type} [LinearOrderedField F]

/-- The loop of `insertVertices` keeps the positions it starts with as a prefix. -/
theorem insertVerticesLoop_take (n : Nat) :
    ∀ (flat : List F) (e : Extent F) (acc : List (Vec3 F)), flat.length ≤ n →
      (insertVerticesLoop flat e acc).2.take acc.length = acc := by
  induction n with
  | zero =>
    intro flat e acc h
    have : flat = [] := List.length_eq_zero.mp (Nat.le_zero.mp h)
    subst this
    simp [insertVerticesLoop]
  | succ n ih =>
    intro flat e acc h
    match flat, h with
    | [], _ => simp [insertVerticesLoop]
    | [_], _ => simp [insertVerticesLoop]
    | [_, _], _ => simp [insertVerticesLoop]
    | vx :: vy :: vz :: rest, h =>
      rw [insertVerticesLoop]
      have h1 := ih rest
        ⟨max e.xMax vx, min e.xMin vx, max e.yMax vy, min e.yMin vy, max e.zMax vz,
          min e.zMin vz⟩ (acc ++ [⟨vx, vy, vz⟩]) (by simp at h; omega)
      have h2 := congrArg (List.take acc.length) h1
      rw [List.take_take] at h2
      simp only [List.length_append, List.length_cons, List.length_nil, zero_add,
        le_add_iff_nonneg_right, zero_le, inf_of_le_left, List.take_left'] at h2
      simpa using h2

/-- C28: `Model::changeTextures` on a model that holds the well-formed mesh of its file, `N`
vertices and `K` index entries below `N`, completes and leaves `2N` vertices and `2K` index
entries: the vertices and indices held before are kept in front, the positions and indices of
the file are appended again, and every appended index is below `N`; only `texCoords` is
cleared, and it is filled again with one entry for each of the `2N` vertices. -/
theorem changeTextures_doubles_geometry (M : MathFns F) (fs : String → ObjReader F)
    (fuel : Nat) (m : Model F) (shape : shape_t) (rest : List shape_t)
    (herr : (fs (m.objFilePath ++ m.objFileName)).error = "")
    (hv : (fs (m.objFilePath ++ m.objFileName)).attrib.vertices ≠ [])
    (hs : (fs (m.objFilePath ++ m.objFileName)).shapes = shape :: rest)
    (hfaces : 3 * shape.mesh.num_face_vertices.length ≤ shape.mesh.indices.length)
    (hrange : ∀ i ∈ shape.mesh.indices, 0 ≤ i.vertex_index ∧
      i.vertex_index < ((fs (m.objFilePath ++ m.objFileName)).attrib.vertices.length / 3 : Nat))
    (hN : m.vertices.length = (fs (m.objFilePath ++ m.objFileName)).attrib.vertices.length / 3)
    (hK : m.indices.length = 3 * shape.mesh.num_face_vertices.length)
    (hentry : ∀ k ∈ m.indices, k < m.vertices.length) :
    ∃ m1, changeTextures M fs (fuel + 2) m = .ok m1 ∧
      m1.vertices.length = 2 * m.vertices.length ∧
      m1.indices.length = 2 * m.indices.length ∧
      m1.vertices.take m.vertices.length = m.vertices ∧
      m1.indices.take m.indices.length = m.indices ∧
      (∀ k ∈ m1.indices.drop m.indices.length, k < m.vertices.length) ∧
      m1.texCoords.length = 2 * m.vertices.length := by
  obtain ⟨ns, hload, -⟩ := loadGeometry_of_wellformed M fs fuel { m with texCoords := [] }
    shape rest herr hv hs hfaces hrange hentry ⟨shape.mesh.num_face_vertices.length, hK⟩
  have hVlen := insertVerticesLoop_length _
    (fs (m.objFilePath ++ m.objFileName)).attrib.vertices Extent.start m.vertices le_rfl
  refine ⟨_, hload, ?_, ?_, ?_, ?_, ?_, ?_⟩
  · rw [loadedModel_vertices]
    show (insertVerticesLoop (fs (m.objFilePath ++ m.objFileName)).attrib.vertices Extent.start
      m.vertices).2.length = _
    rw [hVlen]
    omega
  · rw [loadedModel_indices]
    show (m.indices ++ _).length = _
    simp only [List.length_append, List.length_map, List.length_take]
    omega
  · rw [loadedModel_vertices]
    exact insertVerticesLoop_take _ _ _ _ le_rfl
  · rw [loadedModel_indices]
    show (m.indices ++ _).take m.indices.length = _
    simp
  · rw [loadedModel_indices]
    show ∀ k ∈ (m.indices ++ _).drop m.indices.length, _
    intro k hk
    simp only [List.drop_left'] at hk
    obtain ⟨i, hi, rfl⟩ := List.mem_map.mp hk
    have hr := hrange i (List.mem_of_mem_take hi)
    rw [hN]
    exact toUnsigned_lt _ _ hr.1 hr.2
  · rw [loadedModel_texCoords_length]
    show ([] : List (Vec2 F)).length + (insertVerticesLoop
      (fs (m.objFilePath ++ m.objFileName)).attrib.vertices Extent.start m.vertices).2.length = _
    rw [hVlen]
    simp only [List.length_nil]
    omega

end Field

/-- A run of C28 on the triangle of the sample file. -/
theorem changeTextures_doubles_geometry_witness :
    ∃ m1, changeTextures sampleMath sampleFiles 2
        { (Model.init : Model ℚ) with
          vertices := [⟨0, 0, 0⟩, ⟨2, 0, 0⟩, ⟨0, 2, 0⟩], indices := [0, 1, 2] } = .ok m1 ∧
      m1.vertices.length = 6 ∧ m1.indices.length = 6 := by
  obtain ⟨m1, h, hV, hI, -⟩ := changeTextures_doubles_geometry sampleMath sampleFiles 0
    { (Model.init : Model ℚ) with
      vertices := [⟨0, 0, 0⟩, ⟨2, 0, 0⟩, ⟨0, 2, 0⟩], indices := [0, 1, 2] }
    ⟨"", ⟨[⟨0, -1, -1⟩, ⟨1, -1, -1⟩, ⟨2, -1, -1⟩], [3]⟩⟩ [] rfl (by decide) rfl (by decide)
    (by decide) rfl rfl (by decide)
  exact ⟨m1, h, hV, hI⟩

/-! ## Steps of the camera and the state of `Camera::init` -/

section Field

variable {F : Type} [LinearOrderedField F]

theorem Vec3.normSq_smul (v : Vec3 F) (s : F) : (v.smul s).normSq = s * s * v.normSq := by
  simp only [Vec3.normSq, Vec3.dot, Vec3.smul]
  ring

/-- The displacement of `eye` by `moveCameraUp` is `up * MOVE_CAMERA_UNIT`, not normalised. -/
theorem moveCameraUp_displacement (g : GeometryRender F) :
    g.moveCameraUp.camera.eye.sub g.camera.eye = g.camera.up.smul MOVE_CAMERA_UNIT :=
  Vec3.add_sub_cancel_left _ _

/-- The displacement of `eye` by `moveCameraDown` is `up * -MOVE_CAMERA_UNIT`, not
normalised. -/
theorem moveCameraDown_displacement (g : GeometryRender F) :
    g.moveCameraDown.camera.eye.sub g.camera.eye = g.camera.up.smul (-MOVE_CAMERA_UNIT) :=
  Vec3.add_sub_cancel_left _ _

theorem radians_zero : radians (0 : F) = 0 := by
  simp [radians]

/-- The state of `Camera::init` after `calculateCameraDirection`, for `sin` and `cos` with
`sin^2 + cos^2 = 1`, `sin 0 = 0`, `cos 0 = 1` and `sqrt 1 = 1`. -/
theorem init_calculateCameraDirection (M : MathFns F)
    (hpyth : ∀ x, M.sin x * M.sin x + M.cos x * M.cos x = 1) (hsqrt : M.sqrt 1 = 1)
    (hsin0 : M.sin 0 = 0) (hcos0 : M.cos 0 = 1) (g : GeometryRender F) :
    (({ g with camera := g.camera.init M }).calculateCameraDirection M).camera.eye = ⟨0, 0, 2⟩ ∧
      (({ g with camera := g.camera.init M }).calculateCameraDirection M).camera.up = ⟨0, 1, 0⟩ ∧
      (({ g with camera := g.camera.init M }).calculateCameraDirection M).camera.center =
        ⟨M.cos (radians (-90)), 0, 2 + M.sin (radians (-90))⟩ := by
  have hp := hpyth (radians (-90))
  rw [calculateCameraDirection_camera]
  simp only [forwardVector_normalize M hpyth hsqrt]
  simp only [Camera.init, forwardVector, radians_zero, hsin0, hcos0, Vec3.add, Vec3.cross,
    mul_one, mul_zero, zero_mul, zero_add, sub_zero, zero_sub, one_mul, true_and]
  refine ⟨?_, trivial⟩
  rw [Vec3.eq_iff_components]
  refine ⟨by ring, ?_, by ring⟩
  simp only
  linear_combination hp

end Field

/-- With the real functions, after `rotateCameraDown(60)` from the state of `Camera::init` the
squared length of `up` is `cos^2` of 60 degrees, which is below 1. -/
theorem start_rotateCameraDown_up_normSq :
    ((GeometryRender.start (⟨Real.sqrt, Real.sin, Real.cos, Real.tan, Real.arcsin,
        fun y x => Complex.arg ⟨x, y⟩, fun x => (⌊x⌋ : ℤ)⟩ : MathFns ℝ)).rotateCameraDown
        ⟨Real.sqrt, Real.sin, Real.cos, Real.tan, Real.arcsin,
          fun y x => Complex.arg ⟨x, y⟩, fun x => (⌊x⌋ : ℤ)⟩ 60).camera.up.normSq =
        Real.cos (radians 60) * Real.cos (radians 60) ∧
      Real.cos (radians 60) * Real.cos (radians 60) < 1 := by
  have hpyth : ∀ x : ℝ, Real.sin x * Real.sin x + Real.cos x * Real.cos x = 1 := fun x => by
    have := Real.sin_sq_add_cos_sq x
    simp only [sq] at this
    exact this
  have hfloor : (⌊((0 : ℝ) + 60) / 360⌋ : ℤ) = 0 := by
    rw [Int.floor_eq_iff]
    norm_num
  have hpitch : glmMod (⟨Real.sqrt, Real.sin, Real.cos, Real.tan, Real.arcsin,
      fun y x => Complex.arg ⟨x, y⟩, fun x => (⌊x⌋ : ℤ)⟩ : MathFns ℝ) ((0 : ℝ) + 60) 360 = 60 := by
    simp only [glmMod, hfloor]
    norm_num
  have hsq := calculateCameraDirection_up_normSq
    (⟨Real.sqrt, Real.sin, Real.cos, Real.tan, Real.arcsin,
      fun y x => Complex.arg ⟨x, y⟩, fun x => (⌊x⌋ : ℤ)⟩ : MathFns ℝ) hpyth Real.sqrt_one
  have hsin : 0 < Real.sin (radians (60 : ℝ)) := by
    apply Real.sin_pos_of_pos_of_lt_pi
    · unfold radians; norm_num
    · have := Real.pi_gt_d2
      unfold radians
      norm_num at this ⊢
      linarith
  refine ⟨?_, ?_⟩
  · have h := hsq { GeometryRender.start (⟨Real.sqrt, Real.sin, Real.cos, Real.tan, Real.arcsin,
        fun y x => Complex.arg ⟨x, y⟩, fun x => (⌊x⌋ : ℤ)⟩ : MathFns ℝ) with
      camera := { (GeometryRender.start (⟨Real.sqrt, Real.sin, Real.cos, Real.tan, Real.arcsin,
        fun y x => Complex.arg ⟨x, y⟩, fun x => (⌊x⌋ : ℤ)⟩ : MathFns ℝ)).camera with
          pitch := 60 } }
    rw [← h]
    simp only [GeometryRender.rotateCameraDown, GeometryRender.start, Camera.init, hpitch]
  · have := hpyth (radians 60)
    nlinarith [mul_pos hsin hsin]

/-- The cosine of `glm::radians(-90)` is not zero: the factor of `glm::radians` is a decimal
fraction, so the angle is a rational number and no odd multiple of half of pi. -/
theorem cos_radians_neg_ninety_ne_zero : Real.cos (radians (-90 : ℝ)) ≠ 0 := by
  intro h
  obtain ⟨k, hk⟩ := Real.cos_eq_zero_iff.mp h
  have hodd : (2 * (k : ℝ) + 1) ≠ 0 := by
    have : (2 * k + 1 : ℤ) ≠ 0 := by omega
    exact_mod_cast this
  have hpi : Real.pi = 2 * radians (-90 : ℝ) / (2 * k + 1) := by
    field_simp
    linarith
  apply irrational_pi
  refine ⟨2 * (-90 * (1745329251994329576923690768489 / 100000000000000000000000000000000)) /
    (2 * k + 1), ?_⟩
  rw [hpi]
  unfold radians
  push_cast
  rfl

/-- C22 fails on the code: `moveCameraUp` and `moveCameraDown` scale `camera.up`, which
`calculateCameraDirection` leaves with the length `|cos(pitch)|`, while the four other
`moveCamera*` normalise their direction.  With the real `sin`, `cos`, `sqrt` and `floor`, in the
state reached from `Camera::init` by `rotateCameraDown(60)` both displace `eye` by a vector of
squared length `0.05^2 * cos^2` of 60 degrees, which is below `0.05^2`. -/
theorem moveCameraUp_step_below_unit :
    ∃ g : GeometryRender ℝ,
      g = (GeometryRender.start (⟨Real.sqrt, Real.sin, Real.cos, Real.tan, Real.arcsin,
        fun y x => Complex.arg ⟨x, y⟩, fun x => (⌊x⌋ : ℤ)⟩ : MathFns ℝ)).rotateCameraDown
        ⟨Real.sqrt, Real.sin, Real.cos, Real.tan, Real.arcsin,
          fun y x => Complex.arg ⟨x, y⟩, fun x => (⌊x⌋ : ℤ)⟩ 60 ∧
      (g.moveCameraUp.camera.eye.sub g.camera.eye).normSq =
        MOVE_CAMERA_UNIT * MOVE_CAMERA_UNIT * (Real.cos (radians 60) * Real.cos (radians 60)) ∧
      (g.moveCameraUp.camera.eye.sub g.camera.eye).normSq <
        MOVE_CAMERA_UNIT * MOVE_CAMERA_UNIT ∧
      (g.moveCameraDown.camera.eye.sub g.camera.eye).normSq <
        MOVE_CAMERA_UNIT * MOVE_CAMERA_UNIT := by
  obtain ⟨hup, hlt⟩ := start_rotateCameraDown_up_normSq
  have hunit : (0 : ℝ) < MOVE_CAMERA_UNIT * MOVE_CAMERA_UNIT := by
    unfold MOVE_CAMERA_UNIT
    norm_num
  refine ⟨_, rfl, ?_, ?_, ?_⟩
  · rw [moveCameraUp_displacement, Vec3.normSq_smul, hup]
  · rw [moveCameraUp_displacement, Vec3.normSq_smul, hup]
    nlinarith
  · rw [moveCameraDown_displacement, Vec3.normSq_smul, hup]
    nlinarith

section Field

variable {F : Type} [LinearOrderedField F]

/-- C30 (amended): for `sin` and `cos` with `sin^2 + cos^2 = 1`, `sin 0 = 0`, `cos 0 = 1` and
`sqrt 1 = 1`, `calculateCameraDirection` applied to the state of `Camera::init` leaves `eye` and
`up` unchanged and sets `center` to `eye + (cos r, 0, sin r)` with `r = glm::radians(-90)`; so
it leaves `center` unchanged if and only if `cos r = 0` and `sin r = -1`. -/
theorem calculateCameraDirection_after_init (M : MathFns F)
    (hpyth : ∀ x, M.sin x * M.sin x + M.cos x * M.cos x = 1) (hsqrt : M.sqrt 1 = 1)
    (hsin0 : M.sin 0 = 0) (hcos0 : M.cos 0 = 1) (g : GeometryRender F) :
    (({ g with camera := g.camera.init M }).calculateCameraDirection M).camera.eye =
        (g.camera.init M).eye ∧
      (({ g with camera := g.camera.init M }).calculateCameraDirection M).camera.up =
        (g.camera.init M).up ∧
      (({ g with camera := g.camera.init M }).calculateCameraDirection M).camera.center =
        (g.camera.init M).eye.add ⟨M.cos (radians (-90)), 0, M.sin (radians (-90))⟩ ∧
      ((({ g with camera := g.camera.init M }).calculateCameraDirection M).camera.center =
          (g.camera.init M).center ↔
        M.cos (radians (-90)) = 0 ∧ M.sin (radians (-90)) = -1) := by
  obtain ⟨he, hu, hc⟩ := init_calculateCameraDirection M hpyth hsqrt hsin0 hcos0 g
  refine ⟨he, hu, ?_, ?_⟩
  · rw [hc]
    simp [Camera.init, Vec3.add]
  · rw [hc]
    simp only [Camera.init, Vec3.eq_iff_components, true_and]
    constructor
    · rintro ⟨h1, h2⟩
      exact ⟨h1, by linarith⟩
    · rintro ⟨h1, h2⟩
      exact ⟨h1, by rw [h2]; norm_num⟩

end Field

/-- A run of the amended C30 with the real `sin`, `cos` and `sqrt`. -/
theorem calculateCameraDirection_after_init_witness :
    ((GeometryRender.start (⟨Real.sqrt, Real.sin, Real.cos, Real.tan, Real.arcsin,
        fun y x => Complex.arg ⟨x, y⟩, fun x => (⌊x⌋ : ℤ)⟩ : MathFns ℝ)).calculateCameraDirection
        ⟨Real.sqrt, Real.sin, Real.cos, Real.tan, Real.arcsin,
          fun y x => Complex.arg ⟨x, y⟩, fun x => (⌊x⌋ : ℤ)⟩).camera.up = ⟨0, 1, 0⟩ :=
  (calculateCameraDirection_after_init
    (⟨Real.sqrt, Real.sin, Real.cos, Real.tan, Real.arcsin,
      fun y x => Complex.arg ⟨x, y⟩, fun x => (⌊x⌋ : ℤ)⟩ : MathFns ℝ)
    (fun x => by
      have := Real.sin_sq_add_cos_sq x
      simp only [sq] at this
      exact this)
    Real.sqrt_one Real.sin_zero Real.cos_zero
    (GeometryRender.start ⟨Real.sqrt, Real.sin, Real.cos, Real.tan, Real.arcsin,
      fun y x => Complex.arg ⟨x, y⟩, fun x => (⌊x⌋ : ℤ)⟩)).2.1

/-- C30 as stated fails: with the real `sin`, `cos` and `sqrt`, the forward vector of yaw -90
and pitch 0 is not `(0, 0, -1)` and `calculateCameraDirection` applied to the state of
`Camera::init` changes `center`, because the cosine of `glm::radians(-90)` is not zero. -/
theorem calculateCameraDirection_moves_center_after_init :
    forwardVector (⟨Real.sqrt, Real.sin, Real.cos, Real.tan, Real.arcsin,
        fun y x => Complex.arg ⟨x, y⟩, fun x => (⌊x⌋ : ℤ)⟩ : MathFns ℝ) (-90) 0 ≠ ⟨0, 0, -1⟩ ∧
      ((GeometryRender.start (⟨Real.sqrt, Real.sin, Real.cos, Real.tan, Real.arcsin,
        fun y x => Complex.arg ⟨x, y⟩, fun x => (⌊x⌋ : ℤ)⟩ : MathFns ℝ)).calculateCameraDirection
        ⟨Real.sqrt, Real.sin, Real.cos, Real.tan, Real.arcsin,
          fun y x => Complex.arg ⟨x, y⟩, fun x => (⌊x⌋ : ℤ)⟩).camera.center ≠
        (GeometryRender.start (⟨Real.sqrt, Real.sin, Real.cos, Real.tan, Real.arcsin,
          fun y x => Complex.arg ⟨x, y⟩, fun x => (⌊x⌋ : ℤ)⟩ : MathFns ℝ)).camera.center := by
  have hpyth : ∀ x : ℝ, Real.sin x * Real.sin x + Real.cos x * Real.cos x = 1 := fun x => by
    have := Real.sin_sq_add_cos_sq x
    simp only [sq] at this
    exact this
  have hne := cos_radians_neg_ninety_ne_zero
  constructor
  · intro h
    have hx := congrArg Vec3.x h
    simp only [forwardVector, radians_zero, Real.cos_zero, mul_one] at hx
    exact hne hx
  · intro h
    obtain ⟨-, -, hc⟩ := init_calculateCameraDirection
      (⟨Real.sqrt, Real.sin, Real.cos, Real.tan, Real.arcsin,
        fun y x => Complex.arg ⟨x, y⟩, fun x => (⌊x⌋ : ℤ)⟩ : MathFns ℝ) hpyth Real.sqrt_one
      Real.sin_zero Real.cos_zero
      (GeometryRender.start ⟨Real.sqrt, Real.sin, Real.cos, Real.tan, Real.arcsin,
        fun y x => Complex.arg ⟨x, y⟩, fun x => (⌊x⌋ : ℤ)⟩)
    have hx : ((GeometryRender.start (⟨Real.sqrt, Real.sin, Real.cos, Real.tan, Real.arcsin,
        fun y x => Complex.arg ⟨x, y⟩, fun x => (⌊x⌋ : ℤ)⟩ : MathFns ℝ)).calculateCameraDirection
        ⟨Real.sqrt, Real.sin, Real.cos, Real.tan, Real.arcsin,
          fun y x => Complex.arg ⟨x, y⟩, fun x => (⌊x⌋ : ℤ)⟩).camera.center.x =
        Real.cos (radians (-90)) := congrArg Vec3.x hc
    rw [h] at hx
    exact hne hx.symm

/-! ## The camera code in binary32

The exact model is compared with the `float` program: the rounding of `Binary32` is a nearest
one, and the camera properties that rest on exact identities are evaluated on `float` values at
inputs that the main loop of `openglwindow.cpp` produces from the cursor position. -/

namespace Binary32

/-- The integer chosen by `roundHalfEven` is a nearest one. -/
theorem roundHalfEven_error (x : ℚ) : |(roundHalfEven x : ℚ) - x| ≤ 1 / 2 := by
  have h1 : (⌊x⌋ : ℚ) ≤ x := Int.floor_le x
  have h2 : x < (⌊x⌋ : ℚ) + 1 := Int.lt_floor_add_one x
  unfold roundHalfEven
  rw [abs_le]
  split_ifs with ha hb hc
  · constructor <;> linarith
  · push_cast
    constructor <;> linarith
  · have : x - ⌊x⌋ = 1 / 2 := le_antisymm (not_lt.mp hb) (not_lt.mp ha)
    constructor <;> linarith
  · have : x - ⌊x⌋ = 1 / 2 := le_antisymm (not_lt.mp hb) (not_lt.mp ha)
    push_cast
    constructor <;> linarith

/-- The value of `round` is a multiple of `2^(e-23)` within half of that step of its argument,
`e` being the exponent of the argument. -/
theorem round_error (x : ℚ) : |round x - x| ≤ 2 ^ (binade x - 23) / 2 := by
  have hq : (0 : ℚ) < 2 ^ (binade x - 23) := zpow_pos (by norm_num) _
  have h := roundHalfEven_error (x / 2 ^ (binade x - 23))
  have hx : round x - x =
      ((roundHalfEven (x / 2 ^ (binade x - 23)) : ℚ) - x / 2 ^ (binade x - 23)) *
        2 ^ (binade x - 23) := by
    unfold round
    field_simp
  rw [hx, abs_mul, abs_of_pos hq]
  calc |(roundHalfEven (x / 2 ^ (binade x - 23)) : ℚ) - x / 2 ^ (binade x - 23)| *
        2 ^ (binade x - 23) ≤ 1 / 2 * 2 ^ (binade x - 23) :=
        mul_le_mul_of_nonneg_right h hq.le
    _ = 2 ^ (binade x - 23) / 2 := by ring

/-- In binary32 too, `moveCameraForwards` adds one and the same `float` vector to `eye` and to
`center`, each sum rounded, and leaves `up`, `yaw`, `pitch`, the projection parameters, the
projection matrix and the projection mode as they are. -/
theorem moveCameraForwards_frame (g : GeometryRender ℚ) :
    (∃ movement : Vec3 ℚ, (moveCameraForwards g).camera.eye = vadd g.camera.eye movement ∧
        (moveCameraForwards g).camera.center = vadd g.camera.center movement) ∧
      (moveCameraForwards g).camera.up = g.camera.up ∧
      (moveCameraForwards g).camera.yaw = g.camera.yaw ∧
      (moveCameraForwards g).camera.pitch = g.camera.pitch ∧
      (moveCameraForwards g).camera.fov = g.camera.fov ∧
      (moveCameraForwards g).camera.farplane = g.camera.farplane ∧
      (moveCameraForwards g).camera.top = g.camera.top ∧
      (moveCameraForwards g).camera.obliqueScale = g.camera.obliqueScale ∧
      (moveCameraForwards g).camera.obliqueAngleRad = g.camera.obliqueAngleRad ∧
      (moveCameraForwards g).camera.projectionMatrix = g.camera.projectionMatrix ∧
      (moveCameraForwards g).projMode = g.projMode :=
  ⟨⟨_, rfl, rfl⟩, rfl, rfl, rfl, rfl, rfl, rfl, rfl, rfl, rfl, rfl⟩

end Binary32

/-- Values of the rounding and of the library models: `0.1f`, `0.05f`, `2.1f`, `2.2f`, a tie
rounded to even, `glm::radians(40.0f)` and the sine and cosine of it, `sqrt(2.0f)`. -/
theorem binary32_values :
    Binary32.round (1 / 10) = 13421773 / 134217728 ∧
      Binary32.round (5 / 100) = 13421773 / 268435456 ∧
      Binary32.round (21 / 10) = 4404019 / 2097152 ∧
      Binary32.round (22 / 10) = 9227469 / 4194304 ∧
      Binary32.round (16777217 / 16777216) = 1 ∧
      Binary32.round (16777219 / 16777216) = 8388610 / 8388608 ∧
      Binary32.radians 40 = 5856353 / 8388608 ∧
      Binary32.sin (Binary32.radians 40) = 5392093 / 8388608 ∧
      Binary32.cos (Binary32.radians 40) = 12852093 / 16777216 ∧
      Binary32.sqrt 2 = 11863283 / 8388608 ∧ Binary32.sqrt 1 = 1 := by
  decide!

/-- C21 as stated fails in binary32: `eye += movement` and `center += movement` round
separately.  After two `moveCameraForwards` from the state of `Camera::init` (`eye = (0, 0, 2)`,
`center = (0, 0, 1)`, step `0.05f`) `eye.z` is 1.90000010 and `center.z` is 0.89999998, so the
stored vectors differ by `(0, 0, -1 - 2^-23)` and the program computes `center - eye` as
`(0, 0, -1.00000012)`, where before the two moves it was `(0, 0, -1)`. -/
theorem moveCameraForwards_changes_center_sub_eye :
    ∃ g : GeometryRender ℚ,
      g = Binary32.moveCameraForwards
        (Binary32.moveCameraForwards (GeometryRender.start sampleMath)) ∧
      (GeometryRender.start sampleMath).camera.center.sub
        (GeometryRender.start sampleMath).camera.eye = ⟨0, 0, -1⟩ ∧
      g.camera.eye = ⟨0, 0, 3984589 / 2097152⟩ ∧
      g.camera.center = ⟨0, 0, 7549747 / 8388608⟩ ∧
      g.camera.center.sub g.camera.eye = ⟨0, 0, -8388609 / 8388608⟩ ∧
      Binary32.vsub g.camera.center g.camera.eye = ⟨0, 0, -8388609 / 8388608⟩ ∧
      g.camera.center.sub g.camera.eye ≠
        (GeometryRender.start sampleMath).camera.center.sub
          (GeometryRender.start sampleMath).camera.eye :=
  ⟨_, rfl, by decide!, by decide!, by decide!, by decide!, by decide!, by decide!⟩

/-- C20 as stated fails: `Camera::init` sets the yaw to -90 and only `rotateCameraLeft` and
`rotateCameraRight` wrap it, and in binary32 `glm::mod(x, 360.0f)` returns `360.0f` for a tiny
negative `x`.  After `rotateCameraDown(0.1f)`, `rotateCameraDown(2.1f)` and
`rotateCameraUp(2.2f)` from the state of `Camera::init` the pitch passes through `0.1f`,
`2.19999981` and `-2^-22` and is wrapped to exactly 360, and the yaw is still -90: both are
outside `[0, 360)`. -/
theorem camera_angles_outside_range :
    ∃ g : GeometryRender ℚ,
      g = Binary32.rotateCameraUp (Binary32.round (22 / 10))
        (Binary32.rotateCameraDown (Binary32.round (21 / 10))
          (Binary32.rotateCameraDown (Binary32.round (1 / 10))
            (GeometryRender.start sampleMath))) ∧
      (Binary32.rotateCameraDown (Binary32.round (21 / 10))
        (Binary32.rotateCameraDown (Binary32.round (1 / 10))
          (GeometryRender.start sampleMath))).camera.pitch = 2306867 / 1048576 ∧
      Binary32.sub (2306867 / 1048576) (Binary32.round (22 / 10)) = -1 / 4194304 ∧
      Binary32.mod (-1 / 4194304) 360 = 360 ∧
      g.camera.pitch = 360 ∧ g.camera.yaw = -90 ∧
      ¬ g.camera.pitch < 360 ∧ ¬ 0 ≤ g.camera.yaw :=
  ⟨_, rfl, by decide!, by decide!, by decide!, by decide!, by decide!, by decide!, by decide!⟩

/-- C17 as stated fails in binary32: `std::sin` and `std::cos` return rounded values, for which
`sin^2 + cos^2` is not 1.  After `rotateCameraRight(-10)` and `rotateCameraDown(10)` from
the state of `Camera::init` (the mouse moved by 100 pixels to the right and up) the yaw is 280 and the pitch is 10; the vector `f` of these angles has
`dot(f, f) = 1 - 2^-23`, `glm::normalize` changes it, and `center - eye` is not `f`, neither as
the program computes it nor as the difference of the stored vectors. -/
theorem rotateCamera_forward_not_unit :
    ∃ g : GeometryRender ℚ,
      g = Binary32.rotateCameraDown 10
        (Binary32.rotateCameraRight (-10) (GeometryRender.start sampleMath)) ∧
      g.camera.yaw = 280 ∧ g.camera.pitch = 10 ∧
      Binary32.forwardVector 280 10 =
        ⟨11476289 / 67108864, 2913333 / 16777216, -2033915 / 2097152⟩ ∧
      Binary32.dot (Binary32.forwardVector 280 10) (Binary32.forwardVector 280 10) =
        8388607 / 8388608 ∧
      Binary32.normalize (Binary32.forwardVector 280 10) =
        ⟨5738145 / 33554432, 11653333 / 67108864, -8135661 / 8388608⟩ ∧
      Binary32.normalize (Binary32.forwardVector 280 10) ≠ Binary32.forwardVector 280 10 ∧
      Binary32.vsub g.camera.center g.camera.eye ≠ Binary32.forwardVector 280 10 ∧
      g.camera.center.sub g.camera.eye ≠ Binary32.forwardVector 280 10 :=
  ⟨_, rfl, by decide!, by decide!, by decide!, by decide!, by decide!, by decide!, by decide!,
    by decide!⟩

/-- C18 as stated fails in binary32: the products and differences of `glm::cross` and
`glm::dot` are rounded.  After `rotateCameraRight(-90)` and `rotateCameraDown(40)` from the
state of `Camera::init` the yaw is 0 and the pitch is 40, `up` is `(-0.49240398, 0.58682406, 0)` and
`center - eye` is `(0.76604456, 0.64278764, 0)`; their dot product is `-2^-25` as the program
computes it, and not zero for the stored vectors either. -/
theorem camera_up_not_orthogonal_binary32 :
    ∃ g : GeometryRender ℚ,
      g = Binary32.rotateCameraDown 40
        (Binary32.rotateCameraRight (-90) (GeometryRender.start sampleMath)) ∧
      g.camera.yaw = 0 ∧ g.camera.pitch = 40 ∧
      g.camera.up = ⟨-516323 / 1048576, 9845277 / 16777216, 0⟩ ∧
      Binary32.vsub g.camera.center g.camera.eye =
        ⟨12852095 / 16777216, 10784187 / 16777216, 0⟩ ∧
      Binary32.dot g.camera.up (Binary32.vsub g.camera.center g.camera.eye) = -1 / 33554432 ∧
      g.camera.up.dot (g.camera.center.sub g.camera.eye) ≠ 0 :=
  ⟨_, rfl, by decide!, by decide!, by decide!, by decide!, by decide!, by decide!⟩

end Studio
